import Mathlib

/-!
Transaction builder and bandwidth calculator of rocm_bandwidth_test.

A shallow embedding of `src/rocm_bandwidth_test_trans.cpp`:
`BuildReadOrWriteTrans`, `BuildCopyTrans`, `BuildTransList` and
`ComputeCopyTime`, followed by theorems about them.

Conventions of the embedding.
* `uint32_t` values are natural numbers reduced modulo `2 ^ 32` (`u32`), `size_t`
  values modulo `2 ^ 64` (`u64`), at the places where the source stores into a
  variable of that type.
* A subscript outside its container (undefined behaviour in the source) and a
  call of `ErrorCheck` that does not return are reported as a `Fault`; the
  functions return `Except Fault _`.
* A member function of `RocmBandwidthTest` takes the object as its last argument
  and returns its C++ result together with the object after the call.
* `double` values are rational numbers: the arithmetic of `ComputeCopyTime` is
  modelled exactly, without rounding. A quotient by zero, which is an infinity or a
  NaN in the source, has no counterpart here; statements about the value of a
  quotient assume a non-zero divisor.
-/

namespace RocmBandwidthTest

/-- Reduction to the range of `uint32_t`. -/
def u32 (n : Nat) : Nat := n % 4294967296

/-- Reduction to the range of `size_t` (64 bit). -/
def u64 (n : Nat) : Nat := n % 18446744073709551616

/-- Device kinds of `hsa_device_type_t` (declared in the HSA runtime header). -/
inductive hsa_device_type_t
  | HSA_DEVICE_TYPE_CPU
  | HSA_DEVICE_TYPE_GPU
  | HSA_DEVICE_TYPE_DSP
  deriving DecidableEq, Repr

/-- Values of `hsa_amd_memory_pool_access_t` (declared in the HSA runtime header). -/
inductive hsa_amd_memory_pool_access_t
  | HSA_AMD_MEMORY_POOL_ACCESS_NEVER_ALLOWED
  | HSA_AMD_MEMORY_POOL_ACCESS_ALLOWED_BY_DEFAULT
  | HSA_AMD_MEMORY_POOL_ACCESS_DISALLOWED_BY_DEFAULT
  deriving DecidableEq, Repr

/-- Request-type tags. The source compares `uint32_t` values with the six
constants `REQ_READ` ... `REQ_COPY_ALL_UNIDIR`, whose numeric values are declared
in a header; `REQ_OTHER v` stands for any other value. -/
inductive ReqType
  | REQ_READ
  | REQ_WRITE
  | REQ_COPY_BIDIR
  | REQ_COPY_UNIDIR
  | REQ_COPY_ALL_BIDIR
  | REQ_COPY_ALL_UNIDIR
  | REQ_OTHER (v : Nat)
  deriving DecidableEq, Repr

open hsa_device_type_t hsa_amd_memory_pool_access_t ReqType

/-- Containers whose subscripts the source does not check. -/
inductive Container
  | in_list
  | agent_list_
  | pool_list_
  | access_matrix_
  | active_agents_list_
  | size_list_
  | cpu_avg_time_
  | cpu_min_time_
  | gpu_avg_time_
  | gpu_min_time_
  deriving DecidableEq, Repr

/-- Ways in which a call does not return normally. -/
inductive Fault
  | out_of_range (c : Container) (i : Nat)
  | error_check (status : Nat)
  | out_of_fuel
  deriving DecidableEq, Repr

/-- Entry of `agent_list_`: runtime handle and device kind. -/
structure agent_info_t where
  agent_ : Nat
  device_type_ : hsa_device_type_t
  deriving DecidableEq, Repr

/-- Entry of `pool_list_`: runtime handle and index of the owning agent. -/
structure pool_info_t where
  pool_ : Nat
  agent_index_ : Nat
  deriving DecidableEq, Repr

/-- The `kernel` part of a transaction (read and write requests). `code_ = none`
is the null pointer. -/
structure kernel_t where
  code_ : Option Nat
  pool_ : Nat
  pool_idx_ : Nat
  agent_ : Nat
  agent_idx_ : Nat
  deriving DecidableEq, Repr

/-- The `copy` part of a transaction (copy requests). -/
structure copy_t where
  src_idx_ : Nat
  dst_idx_ : Nat
  src_pool_ : Nat
  dst_pool_ : Nat
  bidir_ : Bool
  uses_gpu_ : Bool
  deriving DecidableEq, Repr

/-- A transaction, `async_trans_t` (declared in a header). The parts `kernel` and
`copy` are kept side by side; the builders assign one of them. The four timing
arrays are filled by the execution stage, the last four arrays by
`ComputeCopyTime`; all eight hold `double` values, modelled as rationals. -/
structure async_trans_t where
  req_type_ : ReqType
  kernel : kernel_t
  copy : copy_t
  cpu_avg_time_ : List ℚ
  cpu_min_time_ : List ℚ
  gpu_avg_time_ : List ℚ
  gpu_min_time_ : List ℚ
  min_time_ : List ℚ
  avg_time_ : List ℚ
  avg_bandwidth_ : List ℚ
  peak_bandwidth_ : List ℚ
  deriving DecidableEq

/-- The constructor `async_trans_t(req_type)`: it records the request type; the
parts the builders do not assign are left cleared and the arrays empty. -/
def async_trans_t.new (req_type : ReqType) : async_trans_t :=
  { req_type_ := req_type,
    kernel := { code_ := none, pool_ := 0, pool_idx_ := 0, agent_ := 0, agent_idx_ := 0 },
    copy := { src_idx_ := 0, dst_idx_ := 0, src_pool_ := 0, dst_pool_ := 0,
              bidir_ := false, uses_gpu_ := false },
    cpu_avg_time_ := [], cpu_min_time_ := [], gpu_avg_time_ := [], gpu_min_time_ := [],
    min_time_ := [], avg_time_ := [], avg_bandwidth_ := [], peak_bandwidth_ := [] }

/-- The members of the `RocmBandwidthTest` object that the translated functions
read or write (declared in a header). `agent_index_` is the `uint32_t` number of
agents, `access_matrix_` the array behind the `uint32_t*` pointer, the five
selection lists and `size_list_` are `vector<size_t>`, and
`active_agents_list_ = none` is the null pointer. -/
structure State where
  agent_list_ : List agent_info_t
  pool_list_ : List pool_info_t
  access_matrix_ : List Nat
  agent_index_ : Nat
  active_agents_list_ : Option (List Nat)
  trans_list_ : List async_trans_t
  read_list_ : List Nat
  write_list_ : List Nat
  src_list_ : List Nat
  dst_list_ : List Nat
  bidir_list_ : List Nat
  size_list_ : List Nat
  req_read_ : ReqType
  req_write_ : ReqType
  req_copy_bidir_ : ReqType
  req_copy_unidir_ : ReqType
  req_copy_all_bidir_ : ReqType
  req_copy_all_unidir_ : ReqType
  print_cpu_time_ : Bool
  deriving DecidableEq

/-- The runtime the functions call into: `hsa_amd_agent_memory_pool_get_info`
for `HSA_AMD_AGENT_MEMORY_POOL_INFO_ACCESS` (status code and access value, keyed
by agent handle and pool handle), whether `ErrorCheck` returns for a status
code, and the timestamp frequency reported by `hsa_system_get_info`. -/
structure Runtime where
  pool_access : Nat → Nat → Nat × hsa_amd_memory_pool_access_t
  error_check_returns : Nat → Bool
  timestamp_frequency : Nat

/-- Result of a member function returning `bool`. -/
abbrev Outcome := Except Fault (Bool × State)

/-- The statement pair `active_agents_list_[i] = 1`. -/
def markActive (act : List Nat) (i : Nat) : Except Fault (List Nat) :=
  if i < act.length then .ok (act.set i 1)
  else .error (.out_of_range .active_agents_list_ i)

/-- Lines 175-177 of `BuildCopyTrans`: the marker array after
`if (active_agents_list_ == NULL) active_agents_list_ = new uint32_t[agent_index_]();`,
the new array having all entries zero. -/
def markerArray (st : State) : List Nat :=
  match st.active_agents_list_ with
  | none => List.replicate st.agent_index_ 0
  | some a => a

/-- The transaction built at lines 183-191 of `BuildCopyTrans`. -/
def copyTrans (req_type : ReqType) (src_idx src_pool : Nat) (src_dev_type : hsa_device_type_t)
    (dst_idx dst_pool : Nat) (dst_dev_type : hsa_device_type_t) : async_trans_t :=
  { async_trans_t.new req_type with
    copy := { src_idx_ := src_idx, dst_idx_ := dst_idx,
              src_pool_ := src_pool, dst_pool_ := dst_pool,
              bidir_ := decide (req_type = REQ_COPY_BIDIR ∨ req_type = REQ_COPY_ALL_BIDIR),
              uses_gpu_ := decide (src_dev_type = HSA_DEVICE_TYPE_GPU ∨
                                   dst_dev_type = HSA_DEVICE_TYPE_GPU) } }

/-- Lines 174-192 of `BuildCopyTrans`: allocate the marker if it is null, mark
both agents, build the transaction and push it. -/
def acceptCopy (req_type : ReqType) (src_idx src_dev_idx src_pool : Nat)
    (src_dev_type : hsa_device_type_t) (dst_idx dst_dev_idx dst_pool : Nat)
    (dst_dev_type : hsa_device_type_t) (st : State) : Except Fault State :=
  match markActive (markerArray st) src_dev_idx with
  | .error e => .error e
  | .ok act1 =>
    match markActive act1 dst_dev_idx with
    | .error e => .error e
    | .ok act2 =>
      .ok { st with
            active_agents_list_ := some act2,
            trans_list_ := st.trans_list_ ++
              [copyTrans req_type src_idx src_pool src_dev_type dst_idx dst_pool dst_dev_type] }

/-- The inner loop of `BuildCopyTrans` (lines 136-193) over the remaining
destination entries. The Boolean is `false` when the function executed
`return false`, `true` when the loop ran to its end. -/
def copyInner (req_type : ReqType) (src_idx src_dev_idx src_pool : Nat)
    (src_dev_type : hsa_device_type_t) : List Nat → State → Outcome
  | [], st => .ok (true, st)
  | d :: ds, st =>
    let dst_idx := u32 d
    match st.pool_list_[dst_idx]? with
    | none => .error (.out_of_range .pool_list_ dst_idx)
    | some dp =>
      let dst_dev_idx := u32 dp.agent_index_
      let dst_pool := dp.pool_
      match st.agent_list_[dst_dev_idx]? with
      | none => .error (.out_of_range .agent_list_ dst_dev_idx)
      | some da =>
        let dst_dev_type := da.device_type_
        if src_dev_type = HSA_DEVICE_TYPE_CPU ∧ dst_dev_type = HSA_DEVICE_TYPE_CPU then
          copyInner req_type src_idx src_dev_idx src_pool src_dev_type ds st
        else if (req_type = REQ_COPY_BIDIR ∨ req_type = REQ_COPY_ALL_BIDIR) ∧
            src_dev_idx = dst_dev_idx then
          copyInner req_type src_idx src_dev_idx src_pool src_dev_type ds st
        else
          let cell := u32 (src_dev_idx * st.agent_index_ + dst_dev_idx)
          match st.access_matrix_[cell]? with
          | none => .error (.out_of_range .access_matrix_ cell)
          | some path_exists =>
            if path_exists = 0 then
              if req_type = REQ_COPY_ALL_BIDIR ∨ req_type = REQ_COPY_ALL_UNIDIR then
                copyInner req_type src_idx src_dev_idx src_pool src_dev_type ds st
              else
                .ok (false, st)
            else
              match acceptCopy req_type src_idx src_dev_idx src_pool src_dev_type
                  dst_idx dst_dev_idx dst_pool dst_dev_type st with
              | .error e => .error e
              | .ok st1 => copyInner req_type src_idx src_dev_idx src_pool src_dev_type ds st1

/-- The outer loop of `BuildCopyTrans` (lines 128-194) over the remaining source
entries; `dsts` holds the destination entries the inner loop visits. -/
def copyOuter (req_type : ReqType) (dsts : List Nat) : List Nat → State → Outcome
  | [], st => .ok (true, st)
  | s :: ss, st =>
    let src_idx := u32 s
    match st.pool_list_[src_idx]? with
    | none => .error (.out_of_range .pool_list_ src_idx)
    | some sp =>
      let src_dev_idx := u32 sp.agent_index_
      let src_pool := sp.pool_
      match st.agent_list_[src_dev_idx]? with
      | none => .error (.out_of_range .agent_list_ src_dev_idx)
      | some sa =>
        match copyInner req_type src_idx src_dev_idx src_pool sa.device_type_ dsts st with
        | .error e => .error e
        | .ok (false, st1) => .ok (false, st1)
        | .ok (true, st1) => copyOuter req_type dsts ss st1

/-- The member function `RocmBandwidthTest::BuildCopyTrans` (lines 120-197). The
loop bounds `src_size` and `dst_size` are the list sizes stored into `uint32_t`, so
the loops visit the first `src_size` and `dst_size` entries. -/
def BuildCopyTrans (req_type : ReqType) (src_list dst_list : List Nat) (st : State) : Outcome :=
  let src_size := u32 src_list.length
  let dst_size := u32 dst_list.length
  copyOuter req_type (dst_list.take dst_size) (src_list.take src_size) st

/-- The member function `BuildBidirCopyTrans` (lines 199-201). -/
def BuildBidirCopyTrans (st : State) : Outcome :=
  BuildCopyTrans REQ_COPY_BIDIR st.bidir_list_ st.bidir_list_ st

/-- The member function `BuildUnidirCopyTrans` (lines 203-205). -/
def BuildUnidirCopyTrans (st : State) : Outcome :=
  BuildCopyTrans REQ_COPY_UNIDIR st.src_list_ st.dst_list_ st

/-- The member function `BuildAllPoolsBidirCopyTrans` (lines 207-209). -/
def BuildAllPoolsBidirCopyTrans (st : State) : Outcome :=
  BuildCopyTrans REQ_COPY_ALL_BIDIR st.bidir_list_ st.bidir_list_ st

/-- The member function `BuildAllPoolsUnidirCopyTrans` (lines 211-213). -/
def BuildAllPoolsUnidirCopyTrans (st : State) : Outcome :=
  BuildCopyTrans REQ_COPY_ALL_UNIDIR st.src_list_ st.dst_list_ st

/-- The transaction built at lines 75-80 of `BuildReadOrWriteTrans`. -/
def kernelTrans (req_type : ReqType) (pool pool_idx exec_agent exec_idx : Nat) : async_trans_t :=
  { async_trans_t.new req_type with
    kernel := { code_ := none, pool_ := pool, pool_idx_ := pool_idx,
                agent_ := exec_agent, agent_idx_ := exec_idx } }

/-- The loop of `BuildReadOrWriteTrans` (lines 53-82), started at the value `idx`
of the loop counter. The first argument bounds the number of evaluations of the
loop condition. The counter is a `uint32_t`, so `idx += 2` is taken modulo
`2 ^ 32`. -/
def rwLoop (rt : Runtime) (req_type : ReqType) (in_list : List Nat) (list_size : Nat) :
    Nat → Nat → State → Outcome
  | 0, _, _ => .error .out_of_fuel
  | fuel + 1, idx, st =>
    if idx < list_size then
      match in_list[idx]? with
      | none => .error (.out_of_range .in_list idx)
      | some p =>
        match in_list[u32 (idx + 1)]? with
        | none => .error (.out_of_range .in_list (u32 (idx + 1)))
        | some a =>
          let pool_idx := u32 p
          let exec_idx := u32 a
          match st.agent_list_[exec_idx]? with
          | none => .error (.out_of_range .agent_list_ exec_idx)
          | some ea =>
            match st.pool_list_[pool_idx]? with
            | none => .error (.out_of_range .pool_list_ pool_idx)
            | some pl =>
              let exec_agent := ea.agent_
              let pool := pl.pool_
              let status := (rt.pool_access exec_agent pool).1
              let access := (rt.pool_access exec_agent pool).2
              if rt.error_check_returns status = false then .error (.error_check status)
              else if access = HSA_AMD_MEMORY_POOL_ACCESS_NEVER_ALLOWED then .ok (false, st)
              else
                rwLoop rt req_type in_list list_size fuel (u32 (idx + 2))
                  { st with trans_list_ := st.trans_list_ ++
                      [kernelTrans req_type pool pool_idx exec_agent exec_idx] }
    else .ok (true, st)

/-- The member function `RocmBandwidthTest::BuildReadOrWriteTrans` (lines 46-84);
`fuel` bounds the number of evaluations of the loop condition. -/
def BuildReadOrWriteTrans (rt : Runtime) (fuel : Nat) (req_type : ReqType) (in_list : List Nat)
    (st : State) : Outcome :=
  let list_size := u32 in_list.length
  rwLoop rt req_type in_list list_size fuel 0 st

/-- The member function `BuildReadTrans` (lines 86-88). -/
def BuildReadTrans (rt : Runtime) (fuel : Nat) (st : State) : Outcome :=
  BuildReadOrWriteTrans rt fuel REQ_READ st.read_list_ st

/-- The member function `BuildWriteTrans` (lines 90-92). -/
def BuildWriteTrans (rt : Runtime) (fuel : Nat) (st : State) : Outcome :=
  BuildReadOrWriteTrans rt fuel REQ_WRITE st.write_list_ st

/-- One block of `BuildTransList`: `if (flag == tag) { status = family(); if
(status == false) return status; }` followed by the rest `k` of the function. -/
def transListBlock (flag tag : ReqType) (family : State → Outcome) (st : State)
    (k : State → Outcome) : Outcome :=
  if flag = tag then
    match family st with
    | .error e => .error e
    | .ok (false, st1) => .ok (false, st1)
    | .ok (true, st1) => k st1
  else k st

/-- The member function `RocmBandwidthTest::BuildTransList` (lines 216-274);
`fuel` is handed to the read and write builders. -/
def BuildTransList (rt : Runtime) (fuel : Nat) (st : State) : Outcome :=
  transListBlock st.req_read_ REQ_READ (BuildReadTrans rt fuel) st fun st =>
  transListBlock st.req_write_ REQ_WRITE (BuildWriteTrans rt fuel) st fun st =>
  transListBlock st.req_copy_bidir_ REQ_COPY_BIDIR BuildBidirCopyTrans st fun st =>
  transListBlock st.req_copy_unidir_ REQ_COPY_UNIDIR BuildUnidirCopyTrans st fun st =>
  transListBlock st.req_copy_all_bidir_ REQ_COPY_ALL_BIDIR BuildAllPoolsBidirCopyTrans st fun st =>
  transListBlock st.req_copy_all_unidir_ REQ_COPY_ALL_UNIDIR BuildAllPoolsUnidirCopyTrans st
    fun st => .ok (true, st)

/-- Lines 290-299 of `ComputeCopyTime`: the byte count charged for the nominal
size `sz`; `data_size` is a `size_t`. -/
def dataSize (trans : async_trans_t) (sz : Nat) : Nat :=
  let data_size := u64 sz
  let data_size := if trans.copy.bidir_ = true then u64 (data_size + u64 sz) else data_size
  if trans.copy.src_idx_ = trans.copy.dst_idx_ then u64 (data_size + data_size) else data_size

/-- Lines 303-315 of `ComputeCopyTime`: the pair `(avg_time, min_time)` chosen for
size index `idx`. -/
def selectTime (sys_freq : Nat) (print_cpu_time_ : Bool) (trans : async_trans_t) (idx : Nat) :
    Except Fault (ℚ × ℚ) :=
  if trans.copy.uses_gpu_ ≠ true then
    match trans.cpu_avg_time_[idx]? with
    | none => .error (.out_of_range .cpu_avg_time_ idx)
    | some avg_time =>
      match trans.cpu_min_time_[idx]? with
      | none => .error (.out_of_range .cpu_min_time_ idx)
      | some min_time => .ok (avg_time, min_time)
  else if print_cpu_time_ = false then
    match trans.gpu_avg_time_[idx]? with
    | none => .error (.out_of_range .gpu_avg_time_ idx)
    | some avg_ticks =>
      match trans.gpu_min_time_[idx]? with
      | none => .error (.out_of_range .gpu_min_time_ idx)
      | some min_ticks => .ok (avg_ticks / (sys_freq : ℚ), min_ticks / (sys_freq : ℚ))
  else
    match trans.cpu_avg_time_[idx]? with
    | none => .error (.out_of_range .cpu_avg_time_ idx)
    | some avg_time =>
      match trans.cpu_min_time_[idx]? with
      | none => .error (.out_of_range .cpu_min_time_ idx)
      | some min_time => .ok (avg_time, min_time)

/-- The expression `(double)data_size / time / 1000 / 1000 / 1000`. -/
def bandwidth (data_size : Nat) (time : ℚ) : ℚ :=
  (data_size : ℚ) / time / 1000 / 1000 / 1000

/-- The loop of `ComputeCopyTime` (lines 288-324) over the remaining sizes, `idx`
being the index of the first of them. -/
def computeLoop (sys_freq : Nat) (print_cpu_time_ : Bool) (sizes : List Nat) (idx : Nat)
    (trans : async_trans_t) : Except Fault async_trans_t :=
  match sizes with
  | [] => .ok trans
  | sz :: rest =>
    let data_size := dataSize trans sz
    match selectTime sys_freq print_cpu_time_ trans idx with
    | .error e => .error e
    | .ok (avg_time, min_time) =>
      let avg_bandwidth := bandwidth data_size avg_time
      let peak_bandwidth := bandwidth data_size min_time
      computeLoop sys_freq print_cpu_time_ rest (idx + 1)
        { trans with min_time_ := trans.min_time_ ++ [min_time],
                     avg_time_ := trans.avg_time_ ++ [avg_time],
                     avg_bandwidth_ := trans.avg_bandwidth_ ++ [avg_bandwidth],
                     peak_bandwidth_ := trans.peak_bandwidth_ ++ [peak_bandwidth] }

/-- The member function `RocmBandwidthTest::ComputeCopyTime` (lines 276-325): the
transaction after the call. -/
def ComputeCopyTime (rt : Runtime) (st : State) (trans : async_trans_t) :
    Except Fault async_trans_t :=
  let sys_freq := rt.timestamp_frequency
  let size_len := u32 st.size_list_.length
  computeLoop sys_freq st.print_cpu_time_ (st.size_list_.take size_len) 0 trans

/-- Index of the agent that owns pool `pool_idx`, as `BuildCopyTrans` reads it:
`pool_list_[pool_idx].agent_index_` stored into a `uint32_t`. -/
def ownerIndex (st : State) (pool_idx : Nat) : Option Nat :=
  match st.pool_list_[pool_idx]? with
  | none => none
  | some p => some (u32 p.agent_index_)

/-- Device kind of the agent that owns pool `pool_idx`:
`agent_list_[pool_list_[pool_idx].agent_index_].device_type_`. -/
def ownerType (st : State) (pool_idx : Nat) : Option hsa_device_type_t :=
  match ownerIndex st pool_idx with
  | none => none
  | some i =>
    match st.agent_list_[i]? with
    | none => none
    | some a => some a.device_type_

/-- The cell `access_matrix_[(i * agent_index_) + j]`, the index computed in
`uint32_t`. -/
def accessCell (st : State) (i j : Nat) : Option Nat :=
  st.access_matrix_[u32 (i * st.agent_index_ + j)]?

/-- Number of entries of the marker array once it is allocated. -/
def markerLen (st : State) : Nat :=
  match st.active_agents_list_ with
  | none => st.agent_index_
  | some a => a.length

/-- The second state differs from the first at most in `trans_list_` and
`active_agents_list_`. -/
def SameConfig (st st1 : State) : Prop :=
  st1 = { st with trans_list_ := st1.trans_list_, active_agents_list_ := st1.active_agents_list_ }

/-- What one pass through the body of the inner loop of `BuildCopyTrans` does
with a destination entry, up to the point where the pair is accepted. -/
inductive Verdict
  | skip
  | reject
  | fault (e : Fault)
  | accept (dst_dev_idx dst_pool : Nat) (dst_dev_type : hsa_device_type_t)
  deriving DecidableEq

/-- Lines 139-172 of `BuildCopyTrans` for the destination entry `d`. -/
def dstVerdict (req_type : ReqType) (st : State) (src_dev_idx : Nat)
    (src_dev_type : hsa_device_type_t) (d : Nat) : Verdict :=
  match st.pool_list_[u32 d]? with
  | none => .fault (.out_of_range .pool_list_ (u32 d))
  | some dp =>
    match st.agent_list_[u32 dp.agent_index_]? with
    | none => .fault (.out_of_range .agent_list_ (u32 dp.agent_index_))
    | some da =>
      if src_dev_type = HSA_DEVICE_TYPE_CPU ∧ da.device_type_ = HSA_DEVICE_TYPE_CPU then .skip
      else if (req_type = REQ_COPY_BIDIR ∨ req_type = REQ_COPY_ALL_BIDIR) ∧
          src_dev_idx = u32 dp.agent_index_ then .skip
      else
        match st.access_matrix_[u32 (src_dev_idx * st.agent_index_ + u32 dp.agent_index_)]? with
        | none => .fault (.out_of_range .access_matrix_
                    (u32 (src_dev_idx * st.agent_index_ + u32 dp.agent_index_)))
        | some path_exists =>
          if path_exists = 0 then
            if req_type = REQ_COPY_ALL_BIDIR ∨ req_type = REQ_COPY_ALL_UNIDIR then .skip
            else .reject
          else .accept (u32 dp.agent_index_) dp.pool_ da.device_type_

/-- The request is one of the two bidirectional kinds (lines 155-156, 188-189). -/
abbrev IsBidir (req_type : ReqType) : Prop :=
  req_type = REQ_COPY_BIDIR ∨ req_type = REQ_COPY_ALL_BIDIR

/-- The request is one of the two all-pools kinds (lines 165-166). -/
abbrev IsAllPools (req_type : ReqType) : Prop :=
  req_type = REQ_COPY_ALL_BIDIR ∨ req_type = REQ_COPY_ALL_UNIDIR

/-- The pair of pools `p`, `q` is accepted by the body of the inner loop of
`BuildCopyTrans` and `t` is the transaction pushed for it: both pools and their
owning agents are in range, the pair passes the host-pair filter (lines 147-150)
and the same-device filter (lines 155-160), its access cell is in range and
non-zero (lines 163-164), and `t` is built as at lines 183-191. -/
def CopyAccepted (req_type : ReqType) (st : State) (p q : Nat) (t : async_trans_t) : Prop :=
  ∃ sp dp si di sty dty c,
    st.pool_list_[p]? = some sp ∧ st.pool_list_[q]? = some dp ∧
    ownerIndex st p = some si ∧ ownerIndex st q = some di ∧
    ownerType st p = some sty ∧ ownerType st q = some dty ∧
    ¬ (sty = HSA_DEVICE_TYPE_CPU ∧ dty = HSA_DEVICE_TYPE_CPU) ∧
    ¬ (IsBidir req_type ∧ si = di) ∧
    accessCell st si di = some c ∧ c ≠ 0 ∧
    t = copyTrans req_type p sp.pool_ sty q dp.pool_ dty

/-- The pair of pools `p`, `q` makes `BuildCopyTrans` execute `return false`
(line 170): it passes the host-pair and same-device filters, its access cell is
zero and the request is not an all-pools kind. -/
def CopyRejected (req_type : ReqType) (st : State) (p q : Nat) : Prop :=
  ∃ si di sty dty,
    ownerIndex st p = some si ∧ ownerIndex st q = some di ∧
    ownerType st p = some sty ∧ ownerType st q = some dty ∧
    ¬ (sty = HSA_DEVICE_TYPE_CPU ∧ dty = HSA_DEVICE_TYPE_CPU) ∧
    ¬ (IsBidir req_type ∧ si = di) ∧
    accessCell st si di = some 0 ∧ ¬ IsAllPools req_type

/-- Pool index `p` is in range of `pool_list_`, and the index of its owning agent
is in range of `agent_list_` and of the marker array. -/
def PoolOk (st : State) (p : Nat) : Prop :=
  ∃ i, ownerIndex st p = some i ∧ i < st.agent_list_.length ∧ i < markerLen st

/-- The access cell of the owners of pools `p` and `q` is in range of
`access_matrix_`. -/
def CellOk (st : State) (p q : Nat) : Prop :=
  ∃ i j c, ownerIndex st p = some i ∧ ownerIndex st q = some j ∧ accessCell st i j = some c

/-- Every subscript that `BuildCopyTrans` can evaluate on the lists `src_list`
and `dst_list` is in range: the pool index of every entry, the agent index of its
owner (in `agent_list_` and in the marker array), and the access cell of every
candidate pair. -/
def CopyInputsOk (st : State) (src_list dst_list : List Nat) : Prop :=
  (∀ s ∈ src_list, PoolOk st (u32 s)) ∧ (∀ d ∈ dst_list, PoolOk st (u32 d)) ∧
  (∀ s ∈ src_list, ∀ d ∈ dst_list, CellOk st (u32 s) (u32 d))

/-- A topology with two agents and two pools: agent 0 is a host with handle `a0`,
agent 1 an accelerator with handle `a1`, pool 0 (handle `p0`) is owned by agent 0
and pool 1 (handle `p1`) by agent 1. The access matrix is `access`, the marker is
not allocated, the transaction list is empty and no request is selected. -/
def twoAgentState (a0 a1 p0 p1 : Nat) (access : List Nat) : State :=
  { agent_list_ := [{ agent_ := a0, device_type_ := HSA_DEVICE_TYPE_CPU },
                    { agent_ := a1, device_type_ := HSA_DEVICE_TYPE_GPU }],
    pool_list_ := [{ pool_ := p0, agent_index_ := 0 }, { pool_ := p1, agent_index_ := 1 }],
    access_matrix_ := access,
    agent_index_ := 2,
    active_agents_list_ := none,
    trans_list_ := [],
    read_list_ := [], write_list_ := [], src_list_ := [], dst_list_ := [], bidir_list_ := [],
    size_list_ := [],
    req_read_ := REQ_OTHER 0, req_write_ := REQ_OTHER 0, req_copy_bidir_ := REQ_OTHER 0,
    req_copy_unidir_ := REQ_OTHER 0, req_copy_all_bidir_ := REQ_OTHER 0,
    req_copy_all_unidir_ := REQ_OTHER 0,
    print_cpu_time_ := false }

/-- The (pool index, agent index) pairs of a read or write list, in list order. -/
def pairsOf : List Nat → List (Nat × Nat)
  | p :: a :: rest => (p, a) :: pairsOf rest
  | _ => []

/-- The pair `(p, a)` of a read or write list can be processed by
`BuildReadOrWriteTrans`: both indices fit `uint32_t` and are in range of
`pool_list_` and `agent_list_`, and `ErrorCheck` returns for the status of the
access query. -/
def RwPairOk (rt : Runtime) (st : State) (p a : Nat) : Prop :=
  p < 4294967296 ∧ a < 4294967296 ∧
  ∃ ea pl, st.agent_list_[a]? = some ea ∧ st.pool_list_[p]? = some pl ∧
    rt.error_check_returns (rt.pool_access ea.agent_ pl.pool_).1 = true

/-- The access query for agent `a` and pool `p` answers "never allowed"
(line 68). -/
def RwDenied (rt : Runtime) (st : State) (p a : Nat) : Prop :=
  ∃ ea pl, st.agent_list_[a]? = some ea ∧ st.pool_list_[p]? = some pl ∧
    (rt.pool_access ea.agent_ pl.pool_).2 = HSA_AMD_MEMORY_POOL_ACCESS_NEVER_ALLOWED

/-- The transaction `t` is the one `BuildReadOrWriteTrans` builds for the pair
`(p, a)` (lines 75-80). -/
def RwBuilt (req_type : ReqType) (st : State) (p a : Nat) (t : async_trans_t) : Prop :=
  ∃ ea pl, st.agent_list_[a]? = some ea ∧ st.pool_list_[p]? = some pl ∧
    t = kernelTrans req_type pl.pool_ p ea.agent_ a

/-- A runtime for the examples: every query succeeds with status 0, the agent
with handle 8 is never allowed to access the pool with handle 20, every other
access is allowed by default; `ErrorCheck` returns exactly for status 0; the
timestamp frequency is 1000 ticks per second. -/
def exampleRuntime : Runtime :=
  { pool_access := fun agent pool =>
      (0, if agent = 8 ∧ pool = 20 then HSA_AMD_MEMORY_POOL_ACCESS_NEVER_ALLOWED
          else HSA_AMD_MEMORY_POOL_ACCESS_ALLOWED_BY_DEFAULT),
    error_check_returns := fun status => decide (status = 0),
    timestamp_frequency := 1000 }

/-- The short-circuit sequential composition of a list of builders, in the words
of the specification: the builders run in list order on the shared state, the pass
stops at the first builder that reports failure and propagates that failure, and it
reports success when no builder failed. A builder that does not return ends the
pass in the same way. -/
def shortCircuit : List (State → Outcome) → State → Outcome
  | [], st => .ok (true, st)
  | f :: fs, st =>
    match f st with
    | .error e => .error e
    | .ok (false, st1) => .ok (false, st1)
    | .ok (true, st1) => shortCircuit fs st1

/-- The families selected by the request flags of `st`, in the fixed order Read,
Write, BidirectionalCopy, UnidirectionalCopy, AllPoolsBidirectionalCopy,
AllPoolsUnidirectionalCopy. -/
def enabledFamilies (rt : Runtime) (fuel : Nat) (st : State) : List (State → Outcome) :=
  (if st.req_read_ = REQ_READ then [BuildReadTrans rt fuel] else []) ++
  ((if st.req_write_ = REQ_WRITE then [BuildWriteTrans rt fuel] else []) ++
  ((if st.req_copy_bidir_ = REQ_COPY_BIDIR then [BuildBidirCopyTrans] else []) ++
  ((if st.req_copy_unidir_ = REQ_COPY_UNIDIR then [BuildUnidirCopyTrans] else []) ++
  ((if st.req_copy_all_bidir_ = REQ_COPY_ALL_BIDIR then [BuildAllPoolsBidirCopyTrans] else []) ++
  (if st.req_copy_all_unidir_ = REQ_COPY_ALL_UNIDIR then [BuildAllPoolsUnidirCopyTrans]
   else [])))))

/-- Every builder of the list returns success, each one started on the state the
previous one left; the last state is `st1`, and `apps` lists, builder by builder,
the transactions each one appended to `trans_list_`. -/
def RunsAll : List (State → Outcome) → State → State → List (List async_trans_t) → Prop
  | [], st, st1, apps => st1 = st ∧ apps = []
  | f :: fs, st, st1, apps =>
    ∃ st2 app rest, f st = .ok (true, st2) ∧ st2.trans_list_ = st.trans_list_ ++ app ∧
      apps = app :: rest ∧ RunsAll fs st2 st1 rest

/-- The timing arrays that `ComputeCopyTime` reads for `trans` have an entry for
each of the `size_len` size indices: the device arrays when the transaction uses
an accelerator and host timing is not preferred, the host arrays otherwise. -/
def TimingComplete (st : State) (trans : async_trans_t) : Prop :=
  if trans.copy.uses_gpu_ = true ∧ st.print_cpu_time_ = false then
    u32 st.size_list_.length ≤ trans.gpu_avg_time_.length ∧
    u32 st.size_list_.length ≤ trans.gpu_min_time_.length
  else
    u32 st.size_list_.length ≤ trans.cpu_avg_time_.length ∧
    u32 st.size_list_.length ≤ trans.cpu_min_time_.length

/-- A copy transaction with the given pool indices and flags and the given host
and device samples (average, minimum) for one size index. -/
def timedTrans (src_idx dst_idx : Nat) (bidir uses_gpu : Bool)
    (cpu_avg cpu_min gpu_avg gpu_min : ℚ) : async_trans_t :=
  { async_trans_t.new REQ_COPY_UNIDIR with
    copy := { src_idx_ := src_idx, dst_idx_ := dst_idx, src_pool_ := 0, dst_pool_ := 0,
              bidir_ := bidir, uses_gpu_ := uses_gpu },
    cpu_avg_time_ := [cpu_avg], cpu_min_time_ := [cpu_min],
    gpu_avg_time_ := [gpu_avg], gpu_min_time_ := [gpu_min] }

/-- A unidirectional transaction from pool 0 to pool 1 that uses no accelerator,
with host average time 1 and host minimum time 1/2. -/
def hostTrans : async_trans_t := timedTrans 0 1 false false 1 (1 / 2) 0 0

/-- A bidirectional transaction of pool 1 with itself that uses no accelerator,
with host average time 1 and host minimum time 1/2. -/
def selfBidirTrans : async_trans_t := timedTrans 1 1 true false 1 (1 / 2) 0 0

/-- A unidirectional transaction from pool 0 to pool 1 that uses an accelerator,
with 1000 average and 500 minimum device ticks, and host times 5 and 5. -/
def deviceTrans : async_trans_t := timedTrans 0 1 false true 5 5 1000 500

/-- The two-agent topology with the single payload size `10 ^ 9` and the given
host-timing preference. -/
def sizedState (print_cpu_time : Bool) : State :=
  { twoAgentState 7 8 20 21 [1, 1, 1, 1] with
    size_list_ := [1000000000], print_cpu_time_ := print_cpu_time }


/-- The transaction that the body of the inner loop of `BuildCopyTrans`
(lines 139-192) pushes for the pool indices `p` (source) and `q` (destination), if
it pushes one: `none` when a subscript is out of range, when the pair is skipped
by the host-pair filter or the same-device filter, and when its access cell is
zero. -/
def copyCandidate (req_type : ReqType) (st : State) (p q : Nat) : Option async_trans_t :=
  match st.pool_list_[p]?, st.pool_list_[q]? with
  | some sp, some dp =>
    match st.agent_list_[u32 sp.agent_index_]?, st.agent_list_[u32 dp.agent_index_]? with
    | some sa, some da =>
      if sa.device_type_ = HSA_DEVICE_TYPE_CPU ∧ da.device_type_ = HSA_DEVICE_TYPE_CPU then none
      else if (req_type = REQ_COPY_BIDIR ∨ req_type = REQ_COPY_ALL_BIDIR) ∧
          u32 sp.agent_index_ = u32 dp.agent_index_ then none
      else
        match st.access_matrix_[u32 (u32 sp.agent_index_ * st.agent_index_ +
            u32 dp.agent_index_)]? with
        | some path_exists =>
          if path_exists = 0 then none
          else some (copyTrans req_type p sp.pool_ sa.device_type_ q dp.pool_ da.device_type_)
        | none => none
    | _, _ => none
  | _, _ => none

/-- The candidate pairs of `BuildCopyTrans` in the order the loops visit them:
outer loop over the first `src_size` source entries, inner loop over the first
`dst_size` destination entries, each entry stored into a `uint32_t` pool index. -/
def candidatePairs (src_list dst_list : List Nat) : List (Nat × Nat) :=
  (src_list.take (u32 src_list.length)).flatMap fun s =>
    (dst_list.take (u32 dst_list.length)).map fun d => (u32 s, u32 d)

/-- Lines 178-179 of `BuildCopyTrans` for the transaction `t`: the entries of the
owners of its source and destination pools are set to 1. -/
def markOwners (st : State) (arr : List Nat) (t : async_trans_t) : List Nat :=
  match ownerIndex st t.copy.src_idx_, ownerIndex st t.copy.dst_idx_ with
  | some i, some j => (arr.set i 1).set j 1
  | _, _ => arr

/-- The marker after the transactions `app` were accepted, starting from the
marker of `st`: untouched when `app` is empty, else the allocated array with the
owners of every transaction of `app` marked. -/
def markerAfter (st : State) (app : List async_trans_t) : Option (List Nat) :=
  match app with
  | [] => st.active_agents_list_
  | _ :: _ => some (app.foldl (markOwners st) (markerArray st))

/-- Agent `i` owns the source pool or the destination pool of a transaction of
`app`. -/
def OwnsEndpoint (st : State) (app : List async_trans_t) (i : Nat) : Prop :=
  ∃ t ∈ app, ownerIndex st t.copy.src_idx_ = some i ∨ ownerIndex st t.copy.dst_idx_ = some i

/-- The owners of the source and destination pools of `t` exist and their indices
are in range of the marker array. -/
def MarksInRange (st : State) (t : async_trans_t) : Prop :=
  ∃ i j, ownerIndex st t.copy.src_idx_ = some i ∧ ownerIndex st t.copy.dst_idx_ = some j ∧
    i < markerLen st ∧ j < markerLen st

/-- The state `s2` is `s1` with another marker: every other member is equal, and
the marker array of `s2`, once allocated, has at least as many entries as the one
of `s1`. -/
def MarkerVariant (s1 s2 : State) : Prop :=
  s2 = { s1 with active_agents_list_ := s2.active_agents_list_ } ∧ markerLen s1 ≤ markerLen s2

/-- The builder `f` does not look at the contents of the marker: whenever it returns
on a state, it returns the same status on every marker variant of that state, and
the two final states are again marker variants of each other. -/
def MarkerBlind (f : State → Outcome) : Prop :=
  ∀ (s1 s2 : State) (b : Bool) (r1 : State), MarkerVariant s1 s2 → f s1 = .ok (b, r1) →
    ∃ r2, f s2 = .ok (b, r2) ∧ MarkerVariant r1 r2

/-- The two-agent topology with every access cell set, a read request for the pair
(pool 1, agent 1) and a unidirectional copy request from the pools 0 and 1 to the
pool 1. -/
def selectedState : State :=
  { twoAgentState 7 8 20 21 [1, 1, 1, 1] with
    read_list_ := [1, 1], src_list_ := [0, 1], dst_list_ := [1],
    req_read_ := REQ_READ, req_copy_unidir_ := REQ_COPY_UNIDIR }

/-- A topology with a host (agent 0, handle 7) and a device of DSP kind (agent 1,
handle 8); pool 0 (handle 20) is owned by the host, pool 1 (handle 21) by the DSP
device, and every access cell is 1. -/
def dspState : State :=
  { twoAgentState 7 8 20 21 [1, 1, 1, 1] with
    agent_list_ := [{ agent_ := 7, device_type_ := HSA_DEVICE_TYPE_CPU },
                    { agent_ := 8, device_type_ := HSA_DEVICE_TYPE_DSP }] }
theorem copyInner_nil (req_type : ReqType) (si sdi spl : Nat) (sty : hsa_device_type_t)
    (st : State) : copyInner req_type si sdi spl sty [] st = .ok (true, st) := by
  simp [copyInner]

theorem copyInner_cons (req_type : ReqType) (si sdi spl : Nat) (sty : hsa_device_type_t)
    (d : Nat) (ds : List Nat) (st : State) :
    copyInner req_type si sdi spl sty (d :: ds) st =
      match dstVerdict req_type st sdi sty d with
      | .skip => copyInner req_type si sdi spl sty ds st
      | .reject => .ok (false, st)
      | .fault e => .error e
      | .accept ddi dpl dty =>
        match acceptCopy req_type si sdi spl sty (u32 d) ddi dpl dty st with
        | .error e => .error e
        | .ok st1 => copyInner req_type si sdi spl sty ds st1 := by
  rw [copyInner]
  unfold dstVerdict
  simp only []
  split
  · rfl
  · split
    · rfl
    · split
      · rfl
      · split
        · rfl
        · split
          · rfl
          · split
            · split <;> rfl
            · rfl


theorem SameConfig.rfl (st : State) : SameConfig st st := by
  cases st; simp [SameConfig]

theorem SameConfig.trans {a b c : State} (h1 : SameConfig a b) (h2 : SameConfig b c) :
    SameConfig a c := by
  unfold SameConfig at *
  rw [h2, h1]

theorem SameConfig.pool_list {a b : State} (h : SameConfig a b) : b.pool_list_ = a.pool_list_ := by
  rw [h]

theorem SameConfig.agent_list {a b : State} (h : SameConfig a b) :
    b.agent_list_ = a.agent_list_ := by
  rw [h]

theorem SameConfig.access_matrix {a b : State} (h : SameConfig a b) :
    b.access_matrix_ = a.access_matrix_ := by
  rw [h]

theorem SameConfig.agent_index {a b : State} (h : SameConfig a b) :
    b.agent_index_ = a.agent_index_ := by
  rw [h]

theorem markActive_ok {act act1 : List Nat} {i : Nat} (h : markActive act i = .ok act1) :
    act1 = act.set i 1 ∧ i < act.length := by
  unfold markActive at h
  split at h
  · injection h with h; exact ⟨h.symm, by assumption⟩
  · cases h

theorem markActive_of_lt {act : List Nat} {i : Nat} (h : i < act.length) :
    markActive act i = .ok (act.set i 1) := by
  simp [markActive, h]

theorem markerArray_length (st : State) : (markerArray st).length = markerLen st := by
  unfold markerArray markerLen
  cases st.active_agents_list_ <;> simp

theorem acceptCopy_ok {req_type : ReqType} {si sdi spl : Nat} {sty : hsa_device_type_t}
    {di ddi dpl : Nat} {dty : hsa_device_type_t} {st st1 : State}
    (h : acceptCopy req_type si sdi spl sty di ddi dpl dty st = .ok st1) :
    st1 = { st with
            active_agents_list_ := some (((markerArray st).set sdi 1).set ddi 1),
            trans_list_ := st.trans_list_ ++ [copyTrans req_type si spl sty di dpl dty] } ∧
    sdi < markerLen st ∧ ddi < markerLen st := by
  unfold acceptCopy at h
  split at h
  · cases h
  · rename_i act1 h1
    split at h
    · cases h
    · rename_i act2 h2
      obtain ⟨e1, l1⟩ := markActive_ok h1
      obtain ⟨e2, l2⟩ := markActive_ok h2
      injection h with h
      subst e1 e2
      rw [← markerArray_length]
      refine ⟨h.symm, l1, ?_⟩
      simpa using l2

theorem acceptCopy_of_lt (req_type : ReqType) (si sdi spl : Nat) (sty : hsa_device_type_t)
    (di ddi dpl : Nat) (dty : hsa_device_type_t) (st : State)
    (h1 : sdi < markerLen st) (h2 : ddi < markerLen st) :
    acceptCopy req_type si sdi spl sty di ddi dpl dty st =
      .ok { st with
            active_agents_list_ := some (((markerArray st).set sdi 1).set ddi 1),
            trans_list_ := st.trans_list_ ++ [copyTrans req_type si spl sty di dpl dty] } := by
  unfold acceptCopy
  rw [markActive_of_lt (by rw [markerArray_length]; exact h1)]
  simp only []
  rw [markActive_of_lt (by simp [markerArray_length]; exact h2)]


theorem acceptCopy_sameConfig {req_type : ReqType} {si sdi spl : Nat} {sty : hsa_device_type_t}
    {di ddi dpl : Nat} {dty : hsa_device_type_t} {st st1 : State}
    (h : acceptCopy req_type si sdi spl sty di ddi dpl dty st = .ok st1) :
    SameConfig st st1 ∧ markerLen st1 = markerLen st ∧
      st1.trans_list_ = st.trans_list_ ++ [copyTrans req_type si spl sty di dpl dty] := by
  obtain ⟨e, -, -⟩ := acceptCopy_ok h
  subst e
  refine ⟨by simp [SameConfig], ?_, rfl⟩
  simp [markerLen, markerArray_length]

theorem dstVerdict_congr {st st1 : State} (h : SameConfig st st1) (req_type : ReqType)
    (sdi : Nat) (sty : hsa_device_type_t) (d : Nat) :
    dstVerdict req_type st1 sdi sty d = dstVerdict req_type st sdi sty d := by
  unfold dstVerdict
  rw [h.pool_list, h.agent_list, h.access_matrix, h.agent_index]

theorem copyInner_ok (req_type : ReqType) (si sdi spl : Nat) (sty : hsa_device_type_t) :
    ∀ (ds : List Nat) (st : State) (b : Bool) (st1 : State),
      copyInner req_type si sdi spl sty ds st = .ok (b, st1) →
      SameConfig st st1 ∧ markerLen st1 = markerLen st ∧
      ∃ app, st1.trans_list_ = st.trans_list_ ++ app ∧
        (∀ t ∈ app, ∃ d ∈ ds, ∃ ddi dpl dty,
          dstVerdict req_type st sdi sty d = .accept ddi dpl dty ∧
          t = copyTrans req_type si spl sty (u32 d) dpl dty) ∧
        (b = true → ∀ d ∈ ds, dstVerdict req_type st sdi sty d ≠ .reject) ∧
        (b = false → ∃ d ∈ ds, dstVerdict req_type st sdi sty d = .reject) := by
  intro ds
  induction ds with
  | nil =>
    intro st b st1 h
    rw [copyInner_nil] at h
    injection h with h
    injection h with hb hs
    subst hb hs
    exact ⟨SameConfig.rfl _, rfl, [], by simp, by simp, by simp, by simp⟩
  | cons d ds ih =>
    intro st b st1 h
    rw [copyInner_cons] at h
    cases hv : dstVerdict req_type st sdi sty d with
    | skip =>
      rw [hv] at h
      obtain ⟨hc, hm, app, hl, ha, ht, hf⟩ := ih st b st1 h
      refine ⟨hc, hm, app, hl, ?_, ?_, ?_⟩
      · intro t ht1
        obtain ⟨d1, hd1, r⟩ := ha t ht1
        exact ⟨d1, List.mem_cons_of_mem _ hd1, r⟩
      · intro hb d1 hd1
        rcases List.mem_cons.1 hd1 with e | e
        · subst e; rw [hv]; intro hh; cases hh
        · exact ht hb d1 e
      · intro hb
        obtain ⟨d1, hd1, r⟩ := hf hb
        exact ⟨d1, List.mem_cons_of_mem _ hd1, r⟩
    | reject =>
      rw [hv] at h
      injection h with h
      injection h with hb hs
      subst hb hs
      exact ⟨SameConfig.rfl _, rfl, [], by simp, by simp, by simp,
        fun _ => ⟨d, List.mem_cons_self _ _, hv⟩⟩
    | fault e =>
      rw [hv] at h
      cases h
    | accept ddi dpl dty =>
      rw [hv] at h
      simp only [] at h
      cases ha : acceptCopy req_type si sdi spl sty (u32 d) ddi dpl dty st with
      | error e => rw [ha] at h; cases h
      | ok st2 =>
        rw [ha] at h
        simp only [] at h
        obtain ⟨hc2, hm2, hl2⟩ := acceptCopy_sameConfig ha
        obtain ⟨hc, hm, app, hl, hacc, ht, hf⟩ := ih st2 b st1 h
        refine ⟨hc2.trans hc, hm.trans hm2,
          copyTrans req_type si spl sty (u32 d) dpl dty :: app, ?_, ?_, ?_, ?_⟩
        · rw [hl, hl2]; simp
        · intro t ht1
          rcases List.mem_cons.1 ht1 with e | e
          · exact ⟨d, List.mem_cons_self _ _, ddi, dpl, dty, hv, e⟩
          · obtain ⟨d1, hd1, r⟩ := hacc t e
            rw [dstVerdict_congr hc2] at r
            exact ⟨d1, List.mem_cons_of_mem _ hd1, r⟩
        · intro hb d1 hd1
          rcases List.mem_cons.1 hd1 with e | e
          · subst e; rw [hv]; intro hh; cases hh
          · have := ht hb d1 e
            rwa [dstVerdict_congr hc2] at this
        · intro hb
          obtain ⟨d1, hd1, r⟩ := hf hb
          rw [dstVerdict_congr hc2] at r
          exact ⟨d1, List.mem_cons_of_mem _ hd1, r⟩

theorem copyInner_total (req_type : ReqType) (si sdi spl : Nat) (sty : hsa_device_type_t) :
    ∀ (ds : List Nat) (st : State),
      sdi < markerLen st →
      (∀ d ∈ ds, ∀ e, dstVerdict req_type st sdi sty d ≠ .fault e) →
      (∀ d ∈ ds, ∀ ddi dpl dty,
        dstVerdict req_type st sdi sty d = .accept ddi dpl dty → ddi < markerLen st) →
      ∃ b st1, copyInner req_type si sdi spl sty ds st = .ok (b, st1) := by
  intro ds
  induction ds with
  | nil => intro st _ _ _; exact ⟨true, st, copyInner_nil _ _ _ _ _ _⟩
  | cons d ds ih =>
    intro st hs hnf hacc
    rw [copyInner_cons]
    cases hv : dstVerdict req_type st sdi sty d with
    | skip =>
      exact ih st hs (fun d1 h1 => hnf d1 (List.mem_cons_of_mem _ h1))
        (fun d1 h1 => hacc d1 (List.mem_cons_of_mem _ h1))
    | reject => exact ⟨false, st, rfl⟩
    | fault e => exact absurd hv (hnf d (List.mem_cons_self _ _) e)
    | accept ddi dpl dty =>
      have hd := hacc d (List.mem_cons_self _ _) ddi dpl dty hv
      simp only []
      rw [acceptCopy_of_lt _ _ _ _ _ _ _ _ _ _ hs hd]
      simp only []
      have ha := acceptCopy_of_lt req_type si sdi spl sty (u32 d) ddi dpl dty st hs hd
      obtain ⟨hc2, hm2, -⟩ := acceptCopy_sameConfig ha
      apply ih
      · rw [hm2]; exact hs
      · intro d1 h1 e
        rw [dstVerdict_congr hc2]
        exact hnf d1 (List.mem_cons_of_mem _ h1) e
      · intro d1 h1 a b c hh
        rw [dstVerdict_congr hc2] at hh
        rw [hm2]
        exact hacc d1 (List.mem_cons_of_mem _ h1) a b c hh


theorem ownerIndex_of_lookup {st : State} {p : Nat} {sp : pool_info_t}
    (h : st.pool_list_[p]? = some sp) : ownerIndex st p = some (u32 sp.agent_index_) := by
  simp [ownerIndex, h]

theorem ownerType_of_lookup {st : State} {p : Nat} {sp : pool_info_t} {sa : agent_info_t}
    (h : st.pool_list_[p]? = some sp) (h1 : st.agent_list_[u32 sp.agent_index_]? = some sa) :
    ownerType st p = some sa.device_type_ := by
  simp [ownerType, ownerIndex, h, h1]

theorem ownerIndex_elim {st : State} {p i : Nat} (h : ownerIndex st p = some i) :
    ∃ sp, st.pool_list_[p]? = some sp ∧ i = u32 sp.agent_index_ := by
  unfold ownerIndex at h
  split at h
  · cases h
  · rename_i sp hsp
    injection h with h
    exact ⟨sp, hsp, h.symm⟩

theorem ownerType_elim {st : State} {p : Nat} {ty : hsa_device_type_t}
    (h : ownerType st p = some ty) :
    ∃ sp sa, st.pool_list_[p]? = some sp ∧ st.agent_list_[u32 sp.agent_index_]? = some sa ∧
      ty = sa.device_type_ := by
  unfold ownerType at h
  split at h
  · cases h
  · rename_i i hi
    obtain ⟨sp, hsp, e⟩ := ownerIndex_elim hi
    subst e
    split at h
    · cases h
    · rename_i sa hsa
      injection h with h
      exact ⟨sp, sa, hsp, hsa, h.symm⟩

theorem dstVerdict_accept {req_type : ReqType} {st : State} {sdi : Nat}
    {sty : hsa_device_type_t} {d ddi dpl : Nat} {dty : hsa_device_type_t}
    (h : dstVerdict req_type st sdi sty d = .accept ddi dpl dty) :
    ∃ dp c, st.pool_list_[u32 d]? = some dp ∧ dp.pool_ = dpl ∧
      ownerIndex st (u32 d) = some ddi ∧ ownerType st (u32 d) = some dty ∧
      ¬ (sty = HSA_DEVICE_TYPE_CPU ∧ dty = HSA_DEVICE_TYPE_CPU) ∧
      ¬ (IsBidir req_type ∧ sdi = ddi) ∧ accessCell st sdi ddi = some c ∧ c ≠ 0 := by
  unfold dstVerdict at h
  split at h
  · cases h
  · rename_i dp hdp
    split at h
    · cases h
    · rename_i da hda
      split at h
      · cases h
      · rename_i h1
        split at h
        · cases h
        · rename_i h2
          split at h
          · cases h
          · rename_i c hc
            split at h
            · split at h <;> cases h
            · rename_i h3
              injection h with e1 e2 e3
              subst e1 e2 e3
              exact ⟨dp, c, hdp, rfl, ownerIndex_of_lookup hdp, ownerType_of_lookup hdp hda,
                h1, h2, hc, h3⟩

theorem dstVerdict_reject_iff {req_type : ReqType} {st : State} {sdi : Nat}
    {sty : hsa_device_type_t} {d : Nat} :
    dstVerdict req_type st sdi sty d = .reject ↔
      ∃ ddi dty, ownerIndex st (u32 d) = some ddi ∧ ownerType st (u32 d) = some dty ∧
        ¬ (sty = HSA_DEVICE_TYPE_CPU ∧ dty = HSA_DEVICE_TYPE_CPU) ∧
        ¬ (IsBidir req_type ∧ sdi = ddi) ∧ accessCell st sdi ddi = some 0 ∧
        ¬ IsAllPools req_type := by
  constructor
  · intro h
    unfold dstVerdict at h
    split at h
    · cases h
    · rename_i dp hdp
      split at h
      · cases h
      · rename_i da hda
        split at h
        · cases h
        · rename_i h1
          split at h
          · cases h
          · rename_i h2
            split at h
            · cases h
            · rename_i c hc
              split at h
              · rename_i h3
                subst h3
                split at h
                · cases h
                · rename_i h4
                  exact ⟨_, _, ownerIndex_of_lookup hdp, ownerType_of_lookup hdp hda,
                    h1, h2, hc, h4⟩
              · cases h
  · rintro ⟨ddi, dty, hi, hty, h1, h2, hc, h4⟩
    obtain ⟨dp, da, hdp, hda, e⟩ := ownerType_elim hty
    obtain ⟨dp1, hdp1, e1⟩ := ownerIndex_elim hi
    rw [hdp] at hdp1
    injection hdp1 with hdp1
    subst hdp1 e e1
    unfold accessCell at hc
    unfold dstVerdict
    simp only [hdp, hda, hc]
    rw [if_neg h1, if_neg h2]
    simp [h4]

theorem dstVerdict_fault {req_type : ReqType} {st : State} {sdi : Nat}
    {sty : hsa_device_type_t} {d : Nat} {e : Fault}
    (h : dstVerdict req_type st sdi sty d = .fault e) :
    ownerType st (u32 d) = none ∨
      ∃ ddi, ownerIndex st (u32 d) = some ddi ∧ accessCell st sdi ddi = none := by
  unfold dstVerdict at h
  split at h
  · rename_i hdp
    left
    simp [ownerType, ownerIndex, hdp]
  · rename_i dp hdp
    split at h
    · rename_i hda
      left
      simp [ownerType, ownerIndex, hdp, hda]
    · rename_i da hda
      split at h
      · cases h
      · split at h
        · cases h
        · split at h
          · rename_i hc
            right
            exact ⟨_, ownerIndex_of_lookup hdp, hc⟩
          · split at h
            · split at h <;> cases h
            · cases h


theorem ownerIndex_congr {st st1 : State} (h : SameConfig st st1) (p : Nat) :
    ownerIndex st1 p = ownerIndex st p := by
  unfold ownerIndex
  rw [h.pool_list]

theorem ownerType_congr {st st1 : State} (h : SameConfig st st1) (p : Nat) :
    ownerType st1 p = ownerType st p := by
  unfold ownerType
  rw [ownerIndex_congr h, h.agent_list]

theorem accessCell_congr {st st1 : State} (h : SameConfig st st1) (i j : Nat) :
    accessCell st1 i j = accessCell st i j := by
  unfold accessCell
  rw [h.access_matrix, h.agent_index]

theorem CopyAccepted_congr {st st1 : State} (h : SameConfig st st1) (req_type : ReqType)
    (p q : Nat) (t : async_trans_t) :
    CopyAccepted req_type st1 p q t ↔ CopyAccepted req_type st p q t := by
  unfold CopyAccepted
  simp only [ownerIndex_congr h, ownerType_congr h, accessCell_congr h, h.pool_list]

theorem CopyRejected_congr {st st1 : State} (h : SameConfig st st1) (req_type : ReqType)
    (p q : Nat) : CopyRejected req_type st1 p q ↔ CopyRejected req_type st p q := by
  unfold CopyRejected
  simp only [ownerIndex_congr h, ownerType_congr h, accessCell_congr h]

theorem PoolOk_congr {st st1 : State} (h : SameConfig st st1)
    (hm : markerLen st1 = markerLen st) (p : Nat) : PoolOk st1 p ↔ PoolOk st p := by
  unfold PoolOk
  simp only [ownerIndex_congr h, h.agent_list, hm]

theorem CellOk_congr {st st1 : State} (h : SameConfig st st1) (p q : Nat) :
    CellOk st1 p q ↔ CellOk st p q := by
  unfold CellOk
  simp only [ownerIndex_congr h, accessCell_congr h]

theorem dstVerdict_reject_pair {req_type : ReqType} {st : State} {s d : Nat}
    {sp : pool_info_t} {sa : agent_info_t}
    (hsp : st.pool_list_[u32 s]? = some sp)
    (hsa : st.agent_list_[u32 sp.agent_index_]? = some sa) :
    dstVerdict req_type st (u32 sp.agent_index_) sa.device_type_ d = .reject ↔
      CopyRejected req_type st (u32 s) (u32 d) := by
  rw [dstVerdict_reject_iff]
  unfold CopyRejected
  constructor
  · rintro ⟨ddi, dty, h⟩
    exact ⟨_, ddi, _, dty, ownerIndex_of_lookup hsp, h.1, ownerType_of_lookup hsp hsa, h.2.1,
      h.2.2⟩
  · rintro ⟨si, di, sty, dty, h1, h2, h3, h4, h⟩
    rw [ownerIndex_of_lookup hsp] at h1
    rw [ownerType_of_lookup hsp hsa] at h3
    injection h1 with h1
    injection h3 with h3
    subst h1 h3
    exact ⟨di, dty, h2, h4, h⟩

theorem dstVerdict_accept_pair {req_type : ReqType} {st : State} {s d ddi dpl : Nat}
    {dty : hsa_device_type_t} {sp : pool_info_t} {sa : agent_info_t}
    (hsp : st.pool_list_[u32 s]? = some sp)
    (hsa : st.agent_list_[u32 sp.agent_index_]? = some sa)
    (h : dstVerdict req_type st (u32 sp.agent_index_) sa.device_type_ d = .accept ddi dpl dty) :
    CopyAccepted req_type st (u32 s) (u32 d)
      (copyTrans req_type (u32 s) sp.pool_ sa.device_type_ (u32 d) dpl dty) := by
  obtain ⟨dp, c, hdp, e, hi, hty, h1, h2, hc, h3⟩ := dstVerdict_accept h
  subst e
  exact ⟨sp, dp, _, ddi, _, dty, c, hsp, hdp, ownerIndex_of_lookup hsp, hi,
    ownerType_of_lookup hsp hsa, hty, h1, h2, hc, h3, rfl⟩

theorem copyOuter_ok (req_type : ReqType) (dsts : List Nat) :
    ∀ (ss : List Nat) (st : State) (b : Bool) (st1 : State),
      copyOuter req_type dsts ss st = .ok (b, st1) →
      SameConfig st st1 ∧ markerLen st1 = markerLen st ∧
      ∃ app, st1.trans_list_ = st.trans_list_ ++ app ∧
        (∀ t ∈ app, ∃ s ∈ ss, ∃ d ∈ dsts,
          CopyAccepted req_type st (u32 s) (u32 d) t) ∧
        (b = true → ∀ s ∈ ss, ∀ d ∈ dsts, ¬ CopyRejected req_type st (u32 s) (u32 d)) ∧
        (b = false → ∃ s ∈ ss, ∃ d ∈ dsts, CopyRejected req_type st (u32 s) (u32 d)) := by
  intro ss
  induction ss with
  | nil =>
    intro st b st1 h
    simp only [copyOuter] at h
    injection h with h
    injection h with hb hs
    subst hb hs
    exact ⟨SameConfig.rfl _, rfl, [], by simp, by simp, by simp, by simp⟩
  | cons s ss ih =>
    intro st b st1 h
    rw [copyOuter] at h
    simp only [] at h
    split at h
    · cases h
    · rename_i sp hsp
      split at h
      · cases h
      · rename_i sa hsa
        split at h
        · cases h
        · rename_i st2 hin
          injection h with h
          injection h with hb hs
          subst hb hs
          obtain ⟨hc, hm, app, hl, hacc, -, hf⟩ := copyInner_ok _ _ _ _ _ _ _ _ _ hin
          refine ⟨hc, hm, app, hl, ?_, by simp, ?_⟩
          · intro t ht
            obtain ⟨d, hd, ddi, dpl, dty, hv, e⟩ := hacc t ht
            subst e
            exact ⟨s, List.mem_cons_self _ _, d, hd, dstVerdict_accept_pair hsp hsa hv⟩
          · intro _
            obtain ⟨d, hd, hv⟩ := hf rfl
            exact ⟨s, List.mem_cons_self _ _, d, hd, (dstVerdict_reject_pair hsp hsa).1 hv⟩
        · rename_i st2 hin
          obtain ⟨hc, hm, app, hl, hacc, ht, -⟩ := copyInner_ok _ _ _ _ _ _ _ _ _ hin
          obtain ⟨hc2, hm2, app2, hl2, hacc2, ht2, hf2⟩ := ih st2 b st1 h
          refine ⟨hc.trans hc2, hm2.trans hm, app ++ app2, ?_, ?_, ?_, ?_⟩
          · rw [hl2, hl]; simp
          · intro t htm
            rcases List.mem_append.1 htm with e | e
            · obtain ⟨d, hd, ddi, dpl, dty, hv, e1⟩ := hacc t e
              subst e1
              exact ⟨s, List.mem_cons_self _ _, d, hd, dstVerdict_accept_pair hsp hsa hv⟩
            · obtain ⟨s1, hs1, d, hd, r⟩ := hacc2 t e
              exact ⟨s1, List.mem_cons_of_mem _ hs1, d, hd, (CopyAccepted_congr hc _ _ _ _).1 r⟩
          · intro hb s1 hs1 d hd
            rcases List.mem_cons.1 hs1 with e | e
            · subst e
              intro hr
              exact ht rfl d hd ((dstVerdict_reject_pair hsp hsa).2 hr)
            · intro hr
              exact ht2 hb s1 e d hd ((CopyRejected_congr hc _ _ _).2 hr)
          · intro hb
            obtain ⟨s1, hs1, d, hd, r⟩ := hf2 hb
            exact ⟨s1, List.mem_cons_of_mem _ hs1, d, hd, (CopyRejected_congr hc _ _ _).1 r⟩

theorem copyOuter_total (req_type : ReqType) (dsts : List Nat) :
    ∀ (ss : List Nat) (st : State),
      (∀ s ∈ ss, PoolOk st (u32 s)) → (∀ d ∈ dsts, PoolOk st (u32 d)) →
      (∀ s ∈ ss, ∀ d ∈ dsts, CellOk st (u32 s) (u32 d)) →
      ∃ b st1, copyOuter req_type dsts ss st = .ok (b, st1) := by
  intro ss
  induction ss with
  | nil => intro st _ _ _; exact ⟨true, st, by simp [copyOuter]⟩
  | cons s ss ih =>
    intro st hs hd hcell
    obtain ⟨i, hi, hlt, hml⟩ := hs s (List.mem_cons_self _ _)
    obtain ⟨sp, hsp, e⟩ := ownerIndex_elim hi
    subst e
    have hsa : st.agent_list_[u32 sp.agent_index_]? =
        some (st.agent_list_.get ⟨u32 sp.agent_index_, hlt⟩) := by
      simp [List.getElem?_eq_getElem hlt]
    have hin : ∃ b st2, copyInner req_type (u32 s) (u32 sp.agent_index_) sp.pool_
        (st.agent_list_.get ⟨u32 sp.agent_index_, hlt⟩).device_type_ dsts st =
          .ok (b, st2) := by
      apply copyInner_total _ _ _ _ _ _ _ hml
      · intro d hdm e hv
        obtain ⟨j, hj, hjlt, -⟩ := hd d hdm
        rcases dstVerdict_fault hv with h1 | ⟨ddi, h1, h2⟩
        · obtain ⟨dp, hdp, e1⟩ := ownerIndex_elim hj
          subst e1
          simp [ownerType, hj, List.getElem?_eq_getElem hjlt] at h1
        · obtain ⟨i1, j1, c, hi1, hj1, hc⟩ := hcell s (List.mem_cons_self _ _) d hdm
          rw [hi] at hi1
          rw [h1] at hj1
          injection hi1 with hi1
          injection hj1 with hj1
          subst hi1 hj1
          rw [h2] at hc
          cases hc
      · intro d hdm ddi dpl dty hv
        obtain ⟨dp, c, -, -, hj, -⟩ := dstVerdict_accept hv
        obtain ⟨j, hj1, -, hjm⟩ := hd d hdm
        rw [hj] at hj1
        injection hj1 with hj1
        subst hj1
        exact hjm
    obtain ⟨b, st2, hin⟩ := hin
    rw [copyOuter]
    simp only [hsp, hsa, hin]
    cases b with
    | false => exact ⟨false, st2, rfl⟩
    | true =>
      obtain ⟨hc, hm, -⟩ := copyInner_ok _ _ _ _ _ _ _ _ _ hin
      apply ih
      · intro s1 hs1
        exact (PoolOk_congr hc hm _).2 (hs s1 (List.mem_cons_of_mem _ hs1))
      · intro d1 hd1
        exact (PoolOk_congr hc hm _).2 (hd d1 hd1)
      · intro s1 hs1 d1 hd1
        exact (CellOk_congr hc _ _).2 (hcell s1 (List.mem_cons_of_mem _ hs1) d1 hd1)


theorem BuildCopyTrans_ok {req_type : ReqType} {src_list dst_list : List Nat} {st : State}
    {b : Bool} {st1 : State} (h : BuildCopyTrans req_type src_list dst_list st = .ok (b, st1)) :
    SameConfig st st1 ∧ markerLen st1 = markerLen st ∧
    ∃ app, st1.trans_list_ = st.trans_list_ ++ app ∧
      (∀ t ∈ app, ∃ s ∈ src_list, ∃ d ∈ dst_list,
        CopyAccepted req_type st (u32 s) (u32 d) t) ∧
      (b = true → ∀ s ∈ src_list.take (u32 src_list.length),
        ∀ d ∈ dst_list.take (u32 dst_list.length),
          ¬ CopyRejected req_type st (u32 s) (u32 d)) ∧
      (b = false → ∃ s ∈ src_list, ∃ d ∈ dst_list,
        CopyRejected req_type st (u32 s) (u32 d)) := by
  unfold BuildCopyTrans at h
  obtain ⟨hc, hm, app, hl, hacc, ht, hf⟩ := copyOuter_ok _ _ _ _ _ _ h
  refine ⟨hc, hm, app, hl, ?_, ht, ?_⟩
  · intro t htm
    obtain ⟨s, hs, d, hd, r⟩ := hacc t htm
    exact ⟨s, List.mem_of_mem_take hs, d, List.mem_of_mem_take hd, r⟩
  · intro hb
    obtain ⟨s, hs, d, hd, r⟩ := hf hb
    exact ⟨s, List.mem_of_mem_take hs, d, List.mem_of_mem_take hd, r⟩

theorem BuildCopyTrans_total (req_type : ReqType) {src_list dst_list : List Nat} {st : State}
    (h : CopyInputsOk st src_list dst_list) :
    ∃ b st1, BuildCopyTrans req_type src_list dst_list st = .ok (b, st1) := by
  unfold BuildCopyTrans
  obtain ⟨h1, h2, h3⟩ := h
  apply copyOuter_total
  · intro s hs; exact h1 s (List.mem_of_mem_take hs)
  · intro d hd; exact h2 d (List.mem_of_mem_take hd)
  · intro s hs d hd; exact h3 s (List.mem_of_mem_take hs) d (List.mem_of_mem_take hd)

theorem copyTrans_src_idx (req_type : ReqType) (p sp : Nat) (sty : hsa_device_type_t)
    (q dp : Nat) (dty : hsa_device_type_t) :
    (copyTrans req_type p sp sty q dp dty).copy.src_idx_ = p := rfl

theorem copyTrans_dst_idx (req_type : ReqType) (p sp : Nat) (sty : hsa_device_type_t)
    (q dp : Nat) (dty : hsa_device_type_t) :
    (copyTrans req_type p sp sty q dp dty).copy.dst_idx_ = q := rfl

theorem u32_of_lt {n : Nat} (h : n < 4294967296) : u32 n = n := by
  unfold u32
  exact Nat.mod_eq_of_lt h

theorem twoAgentState_inputsOk (a0 a1 p0 p1 : Nat) (m00 m01 m10 m11 : Nat) :
    CopyInputsOk (twoAgentState a0 a1 p0 p1 [m00, m01, m10, m11]) [0, 1] [0, 1] := by
  have hp : ∀ s ∈ [0, 1], PoolOk (twoAgentState a0 a1 p0 p1 [m00, m01, m10, m11]) (u32 s) := by
    intro s hs
    simp only [List.mem_cons, List.mem_singleton, List.not_mem_nil, or_false] at hs
    rcases hs with rfl | rfl
    · exact ⟨0, rfl, show 0 < 2 by decide, show 0 < 2 by decide⟩
    · exact ⟨1, rfl, show 1 < 2 by decide, show 1 < 2 by decide⟩
  refine ⟨hp, hp, ?_⟩
  intro s hs d hd
  simp only [List.mem_cons, List.mem_singleton, List.not_mem_nil, or_false] at hs hd
  rcases hs with rfl | rfl <;> rcases hd with rfl | rfl
  · exact ⟨0, 0, m00, rfl, rfl, rfl⟩
  · exact ⟨0, 1, m01, rfl, rfl, rfl⟩
  · exact ⟨1, 0, m10, rfl, rfl, rfl⟩
  · exact ⟨1, 1, m11, rfl, rfl, rfl⟩

/-- C1. Every transaction that `BuildCopyTrans` appends, whatever the request
kind, the tables, the access matrix and the lists, and whether the call returns
success or failure, has source and destination pools whose owning agents exist and
are not both of CPU kind. -/
theorem BuildCopyTrans_never_host_to_host (req_type : ReqType) (src_list dst_list : List Nat)
    (st : State) (b : Bool) (st1 : State)
    (h : BuildCopyTrans req_type src_list dst_list st = .ok (b, st1)) :
    ∃ app, st1.trans_list_ = st.trans_list_ ++ app ∧
      ∀ t ∈ app, ∃ sty dty,
        ownerType st t.copy.src_idx_ = some sty ∧ ownerType st t.copy.dst_idx_ = some dty ∧
        ¬ (sty = HSA_DEVICE_TYPE_CPU ∧ dty = HSA_DEVICE_TYPE_CPU) := by
  obtain ⟨-, -, app, hl, hacc, -, -⟩ := BuildCopyTrans_ok h
  refine ⟨app, hl, ?_⟩
  intro t ht
  obtain ⟨s, -, d, -, sp, dp, si, di, sty, dty, c, -, -, -, -, h5, h6, h7, -, -, -, e⟩ :=
    hacc t ht
  subst e
  exact ⟨sty, dty, h5, h6, h7⟩

/-- Witness for C1: an explicit unidirectional request over both pools of the
two-agent topology in which agent 1 cannot reach agent 0; the call returns failure
after appending the transaction of the pair (0, 1). -/
theorem BuildCopyTrans_never_host_to_host_witness :
    ∃ st1,
      BuildCopyTrans REQ_COPY_UNIDIR [0, 1] [0, 1] (twoAgentState 7 8 20 21 [1, 1, 0, 1]) =
        .ok (false, st1) ∧
      ∃ app, st1.trans_list_ = (twoAgentState 7 8 20 21 [1, 1, 0, 1]).trans_list_ ++ app ∧
        ∀ t ∈ app, ∃ sty dty,
          ownerType (twoAgentState 7 8 20 21 [1, 1, 0, 1]) t.copy.src_idx_ = some sty ∧
          ownerType (twoAgentState 7 8 20 21 [1, 1, 0, 1]) t.copy.dst_idx_ = some dty ∧
          ¬ (sty = HSA_DEVICE_TYPE_CPU ∧ dty = HSA_DEVICE_TYPE_CPU) :=
  ⟨_, rfl, BuildCopyTrans_never_host_to_host REQ_COPY_UNIDIR [0, 1] [0, 1]
    (twoAgentState 7 8 20 21 [1, 1, 0, 1]) false _ rfl⟩

/-- C2. Under `REQ_COPY_BIDIR` and `REQ_COPY_ALL_BIDIR` every transaction that
`BuildCopyTrans` appends has source and destination pools whose owning-agent
indices exist and differ, and hence different source and destination pool
indices. -/
theorem BuildCopyTrans_bidir_distinct_owners (req_type : ReqType)
    (src_list dst_list : List Nat) (st : State) (b : Bool) (st1 : State)
    (hreq : req_type = REQ_COPY_BIDIR ∨ req_type = REQ_COPY_ALL_BIDIR)
    (h : BuildCopyTrans req_type src_list dst_list st = .ok (b, st1)) :
    ∃ app, st1.trans_list_ = st.trans_list_ ++ app ∧
      ∀ t ∈ app, ∃ i j,
        ownerIndex st t.copy.src_idx_ = some i ∧ ownerIndex st t.copy.dst_idx_ = some j ∧
        i ≠ j ∧ t.copy.src_idx_ ≠ t.copy.dst_idx_ := by
  obtain ⟨-, -, app, hl, hacc, -, -⟩ := BuildCopyTrans_ok h
  refine ⟨app, hl, ?_⟩
  intro t ht
  obtain ⟨s, -, d, -, sp, dp, si, di, sty, dty, c, -, -, h3, h4, -, -, -, h8, -, -, e⟩ :=
    hacc t ht
  subst e
  have hne : si ≠ di := fun e => h8 ⟨hreq, e⟩
  refine ⟨si, di, h3, h4, hne, ?_⟩
  intro e
  rw [copyTrans_src_idx, copyTrans_dst_idx] at e
  rw [e, h4] at h3
  injection h3 with h3
  exact hne h3.symm

/-- Witness for C2: a bidirectional request over both pools of the two-agent
topology; the call returns success. -/
theorem BuildCopyTrans_bidir_distinct_owners_witness :
    ∃ st1,
      BuildCopyTrans REQ_COPY_BIDIR [0, 1] [0, 1] (twoAgentState 7 8 20 21 [1, 1, 1, 1]) =
        .ok (true, st1) ∧
      ∃ app, st1.trans_list_ = (twoAgentState 7 8 20 21 [1, 1, 1, 1]).trans_list_ ++ app ∧
        ∀ t ∈ app, ∃ i j,
          ownerIndex (twoAgentState 7 8 20 21 [1, 1, 1, 1]) t.copy.src_idx_ = some i ∧
          ownerIndex (twoAgentState 7 8 20 21 [1, 1, 1, 1]) t.copy.dst_idx_ = some j ∧
          i ≠ j ∧ t.copy.src_idx_ ≠ t.copy.dst_idx_ :=
  ⟨_, rfl, BuildCopyTrans_bidir_distinct_owners REQ_COPY_BIDIR [0, 1] [0, 1]
    (twoAgentState 7 8 20 21 [1, 1, 1, 1]) true _ (Or.inl rfl) rfl⟩

/-- C3, as stated, fails. First input: an explicit unidirectional request over
both pools with the cell (agent 1, agent 0) zero; the pair (0, 1) is accepted
before the pair (1, 0), whose owners are agents 1 and 0, is reached, so the call
returns failure with a transaction list that is longer than before. Second input:
the only candidate pair (0, 0), whose owner is agent 0 on both sides, has a zero
cell but is a host-host pair, so it is skipped and the call returns success. -/
theorem BuildCopyTrans_zero_cell_counterexample :
    (ownerIndex (twoAgentState 7 8 20 21 [1, 1, 0, 1]) 1 = some 1 ∧
      ownerIndex (twoAgentState 7 8 20 21 [1, 1, 0, 1]) 0 = some 0 ∧
      accessCell (twoAgentState 7 8 20 21 [1, 1, 0, 1]) 1 0 = some 0 ∧
      BuildCopyTrans REQ_COPY_UNIDIR [0, 1] [0, 1] (twoAgentState 7 8 20 21 [1, 1, 0, 1]) =
        .ok (false, { twoAgentState 7 8 20 21 [1, 1, 0, 1] with
                      active_agents_list_ := some [1, 1],
                      trans_list_ := [copyTrans REQ_COPY_UNIDIR 0 20 HSA_DEVICE_TYPE_CPU
                                        1 21 HSA_DEVICE_TYPE_GPU] }) ∧
      [copyTrans REQ_COPY_UNIDIR 0 20 HSA_DEVICE_TYPE_CPU 1 21 HSA_DEVICE_TYPE_GPU] ≠
        (twoAgentState 7 8 20 21 [1, 1, 0, 1]).trans_list_) ∧
    (ownerIndex (twoAgentState 7 8 20 21 [0, 1, 1, 1]) 0 = some 0 ∧
      accessCell (twoAgentState 7 8 20 21 [0, 1, 1, 1]) 0 0 = some 0 ∧
      BuildCopyTrans REQ_COPY_UNIDIR [0] [0] (twoAgentState 7 8 20 21 [0, 1, 1, 1]) =
        .ok (true, twoAgentState 7 8 20 21 [0, 1, 1, 1])) :=
  ⟨⟨rfl, rfl, rfl, rfl, by simp [twoAgentState]⟩, rfl, rfl, rfl⟩

/-- C3, amended. For an explicit kind (`REQ_COPY_UNIDIR` or `REQ_COPY_BIDIR`) and
inputs whose subscripts are in range, if some candidate pair `(s, d)` is not a
host-host pair, is not a same-owner pair under `REQ_COPY_BIDIR`, and has access cell
zero, then `BuildCopyTrans` returns failure; the list after the call is the list
before the call followed by transactions of accepted candidate pairs (which are
not removed). -/
theorem BuildCopyTrans_explicit_zero_cell_fails (req_type : ReqType)
    (src_list dst_list : List Nat) (st : State)
    (hreq : req_type = REQ_COPY_UNIDIR ∨ req_type = REQ_COPY_BIDIR)
    (hok : CopyInputsOk st src_list dst_list)
    (hsl : src_list.length < 4294967296) (hdl : dst_list.length < 4294967296)
    (s d : Nat) (hs : s ∈ src_list) (hd : d ∈ dst_list)
    (si di : Nat) (sty dty : hsa_device_type_t)
    (hsi : ownerIndex st (u32 s) = some si) (hdi : ownerIndex st (u32 d) = some di)
    (hsty : ownerType st (u32 s) = some sty) (hdty : ownerType st (u32 d) = some dty)
    (hhost : ¬ (sty = HSA_DEVICE_TYPE_CPU ∧ dty = HSA_DEVICE_TYPE_CPU))
    (hsame : ¬ (req_type = REQ_COPY_BIDIR ∧ si = di))
    (hcell : accessCell st si di = some 0) :
    ∃ st1 app, BuildCopyTrans req_type src_list dst_list st = .ok (false, st1) ∧
      st1.trans_list_ = st.trans_list_ ++ app ∧
      ∀ t ∈ app, ∃ s1 ∈ src_list, ∃ d1 ∈ dst_list,
        CopyAccepted req_type st (u32 s1) (u32 d1) t := by
  obtain ⟨b, st1, h⟩ := BuildCopyTrans_total req_type hok
  obtain ⟨-, -, app, hl, hacc, ht, -⟩ := BuildCopyTrans_ok h
  have hrej : CopyRejected req_type st (u32 s) (u32 d) := by
    refine ⟨si, di, sty, dty, hsi, hdi, hsty, hdty, hhost, ?_, hcell, ?_⟩
    · rintro ⟨hb, e⟩
      rcases hb with hb | hb
      · exact hsame ⟨hb, e⟩
      · rcases hreq with h1 | h1 <;> rw [h1] at hb <;> cases hb
    · rintro (hb | hb) <;> rcases hreq with h1 | h1 <;> rw [h1] at hb <;> cases hb
  cases b with
  | true =>
    exfalso
    refine ht rfl s ?_ d ?_ hrej
    · rw [u32_of_lt hsl, List.take_length]; exact hs
    · rw [u32_of_lt hdl, List.take_length]; exact hd
  | false => exact ⟨st1, app, h, hl, hacc⟩

/-- Witness for the amended C3: the first input of the counterexample, with the
pair (1, 0). -/
theorem BuildCopyTrans_explicit_zero_cell_fails_witness :
    ∃ st1 app,
      BuildCopyTrans REQ_COPY_UNIDIR [0, 1] [0, 1] (twoAgentState 7 8 20 21 [1, 1, 0, 1]) =
        .ok (false, st1) ∧
      st1.trans_list_ = (twoAgentState 7 8 20 21 [1, 1, 0, 1]).trans_list_ ++ app ∧
      ∀ t ∈ app, ∃ s1 ∈ [0, 1], ∃ d1 ∈ [0, 1],
        CopyAccepted REQ_COPY_UNIDIR (twoAgentState 7 8 20 21 [1, 1, 0, 1]) (u32 s1) (u32 d1) t :=
  BuildCopyTrans_explicit_zero_cell_fails REQ_COPY_UNIDIR [0, 1] [0, 1]
    (twoAgentState 7 8 20 21 [1, 1, 0, 1]) (Or.inl rfl) (twoAgentState_inputsOk 7 8 20 21 1 1 0 1)
    (by decide) (by decide) 1 0 (by decide) (by decide) 1 0 HSA_DEVICE_TYPE_GPU
    HSA_DEVICE_TYPE_CPU rfl rfl rfl rfl (by decide) (by decide) rfl

/-- C4. Under `REQ_COPY_ALL_UNIDIR` and `REQ_COPY_ALL_BIDIR`, on inputs whose
subscripts are in range, `BuildCopyTrans` returns success, and every transaction
it appends has a non-zero access cell for the owners of its source and destination
pools. -/
theorem BuildCopyTrans_all_pools_succeeds (req_type : ReqType)
    (src_list dst_list : List Nat) (st : State)
    (hreq : req_type = REQ_COPY_ALL_UNIDIR ∨ req_type = REQ_COPY_ALL_BIDIR)
    (hok : CopyInputsOk st src_list dst_list) :
    ∃ st1 app, BuildCopyTrans req_type src_list dst_list st = .ok (true, st1) ∧
      st1.trans_list_ = st.trans_list_ ++ app ∧
      ∀ t ∈ app, ∃ i j c,
        ownerIndex st t.copy.src_idx_ = some i ∧ ownerIndex st t.copy.dst_idx_ = some j ∧
        accessCell st i j = some c ∧ c ≠ 0 := by
  obtain ⟨b, st1, h⟩ := BuildCopyTrans_total req_type hok
  obtain ⟨-, -, app, hl, hacc, -, hf⟩ := BuildCopyTrans_ok h
  cases b with
  | false =>
    exfalso
    obtain ⟨s, -, d, -, si, di, sty, dty, -, -, -, -, -, -, -, hnall⟩ := hf rfl
    exact hnall (hreq.symm)
  | true =>
    refine ⟨st1, app, h, hl, ?_⟩
    intro t ht
    obtain ⟨s, -, d, -, sp, dp, si, di, sty, dty, c, -, -, h3, h4, -, -, -, -, h9, h10, e⟩ :=
      hacc t ht
    subst e
    exact ⟨si, di, c, h3, h4, h9, h10⟩

/-- Witness for C4: an all-pools sweep in which only the accelerator can reach
its own pool. -/
theorem BuildCopyTrans_all_pools_succeeds_witness :
    ∃ st1 app,
      BuildCopyTrans REQ_COPY_ALL_UNIDIR [0, 1] [0, 1] (twoAgentState 7 8 20 21 [1, 0, 0, 1]) =
        .ok (true, st1) ∧
      st1.trans_list_ = (twoAgentState 7 8 20 21 [1, 0, 0, 1]).trans_list_ ++ app ∧
      ∀ t ∈ app, ∃ i j c,
        ownerIndex (twoAgentState 7 8 20 21 [1, 0, 0, 1]) t.copy.src_idx_ = some i ∧
        ownerIndex (twoAgentState 7 8 20 21 [1, 0, 0, 1]) t.copy.dst_idx_ = some j ∧
        accessCell (twoAgentState 7 8 20 21 [1, 0, 0, 1]) i j = some c ∧ c ≠ 0 :=
  BuildCopyTrans_all_pools_succeeds REQ_COPY_ALL_UNIDIR [0, 1] [0, 1]
    (twoAgentState 7 8 20 21 [1, 0, 0, 1]) (Or.inl rfl) (twoAgentState_inputsOk 7 8 20 21 1 0 0 1)

/-- C5. The end-to-end scenario: with agent 0 a host, agent 1 an accelerator,
pool 0 owned by agent 0, pool 1 owned by agent 1, all four access cells equal to 1
and an empty transaction list, `BuildCopyTrans` for `REQ_COPY_ALL_UNIDIR` on the
lists `[0, 1]` and `[0, 1]` returns success, and the transaction list after the call
holds exactly three transactions, of kind `REQ_COPY_ALL_UNIDIR`, with the (source
pool index, destination pool index) pairs (0, 1), (1, 0) and (1, 1) in this order,
the pool handles of these pools, `bidir_` false and `uses_gpu_` true. The pair
(0, 0), both of whose owners are hosts, is not among them; both agents are
marked. -/
theorem BuildCopyTrans_scenario (a0 a1 p0 p1 : Nat) :
    ∃ st1,
      BuildCopyTrans REQ_COPY_ALL_UNIDIR [0, 1] [0, 1] (twoAgentState a0 a1 p0 p1 [1, 1, 1, 1]) =
        .ok (true, st1) ∧
      st1.trans_list_.map (fun t => (t.req_type_, t.copy.src_idx_, t.copy.dst_idx_)) =
        [(REQ_COPY_ALL_UNIDIR, 0, 1), (REQ_COPY_ALL_UNIDIR, 1, 0),
         (REQ_COPY_ALL_UNIDIR, 1, 1)] ∧
      st1.trans_list_.map
          (fun t => (t.copy.src_pool_, t.copy.dst_pool_, t.copy.bidir_, t.copy.uses_gpu_)) =
        [(p0, p1, false, true), (p1, p0, false, true), (p1, p1, false, true)] ∧
      st1.active_agents_list_ = some [1, 1] ∧
      ownerType (twoAgentState a0 a1 p0 p1 [1, 1, 1, 1]) 0 = some HSA_DEVICE_TYPE_CPU ∧
      ownerType (twoAgentState a0 a1 p0 p1 [1, 1, 1, 1]) 1 = some HSA_DEVICE_TYPE_GPU :=
  ⟨_, rfl, rfl, rfl, rfl, rfl, rfl⟩

theorem rwLoop_spec (rt : Runtime) (req_type : ReqType) (in_list : List Nat)
    (hlen : in_list.length < 4294967296) :
    ∀ (m : Nat) (pre rest : List Nat) (st0 st : State) (fuel : Nat),
      in_list = pre ++ rest → rest.length = 2 * m → m < fuel →
      st.agent_list_ = st0.agent_list_ → st.pool_list_ = st0.pool_list_ →
      (∀ pr ∈ pairsOf rest, RwPairOk rt st0 pr.1 pr.2) →
      ∃ b st1 app,
        rwLoop rt req_type in_list in_list.length fuel pre.length st = .ok (b, st1) ∧
        SameConfig st st1 ∧ st1.active_agents_list_ = st.active_agents_list_ ∧
        st1.trans_list_ = st.trans_list_ ++ app ∧
        (b = false ↔ ∃ pr ∈ pairsOf rest, RwDenied rt st0 pr.1 pr.2) ∧
        (b = true → List.Forall₂ (fun pr t => RwBuilt req_type st0 pr.1 pr.2 t)
          (pairsOf rest) app) := by
  intro m
  induction m with
  | zero =>
    intro pre rest st0 st fuel hin hr hf _ _ _
    have hrest : rest = [] := List.length_eq_zero.1 (by simpa using hr)
    subst hrest
    obtain ⟨fuel1, rfl⟩ : ∃ k, fuel = k + 1 := ⟨fuel - 1, by omega⟩
    refine ⟨true, st, [], ?_, SameConfig.rfl _, rfl, by simp, by simp [pairsOf], ?_⟩
    · rw [rwLoop]
      have : ¬ pre.length < in_list.length := by rw [hin]; simp
      simp [this]
    · intro _; simp [pairsOf]
  | succ m ih =>
    intro pre rest st0 st fuel hin hr hf hag hpl hok
    obtain ⟨fuel1, rfl⟩ : ∃ k, fuel = k + 1 := ⟨fuel - 1, by omega⟩
    match rest, hr with
    | p :: a :: rest1, hr =>
      have hlt : pre.length + 1 < in_list.length := by rw [hin]; simp
      have hidx : in_list[pre.length]? = some p := by
        rw [hin, List.getElem?_append_right (Nat.le_refl _)]
        simp
      have hidx1 : in_list[u32 (pre.length + 1)]? = some a := by
        rw [u32_of_lt (by omega), hin]
        rw [List.getElem?_append_right (by omega)]
        simp
      obtain ⟨hp, ha, ea, pl, hea, hpl1, hec⟩ := hok (p, a) (by simp [pairsOf])
      simp only [] at hp ha hea hpl1
      have hea1 : st.agent_list_[a]? = some ea := by rw [hag]; exact hea
      have hpl2 : st.pool_list_[p]? = some pl := by rw [hpl]; exact hpl1
      rw [rwLoop]
      have hcond : pre.length < in_list.length := by omega
      simp only [hcond, if_true, hidx, hidx1, u32_of_lt hp, u32_of_lt ha, hea1, hpl2, hec]
      by_cases hden : (rt.pool_access ea.agent_ pl.pool_).2 =
          HSA_AMD_MEMORY_POOL_ACCESS_NEVER_ALLOWED
      · refine ⟨false, st, [], ?_, SameConfig.rfl _, rfl, by simp, ?_, by simp⟩
        · simp [hden]
        · simp only [true_iff]
          exact ⟨(p, a), by simp [pairsOf], ea, pl, hea, hpl1, hden⟩
      · have hnext : u32 (pre.length + 2) = (pre ++ [p, a]).length := by
          rw [u32_of_lt (by omega)]; simp
        obtain ⟨b, st1, app, hrun, hc, hact, hl, hiff, hall⟩ :=
          ih (pre ++ [p, a]) rest1 st0
            { st with trans_list_ := st.trans_list_ ++
                [kernelTrans req_type pl.pool_ p ea.agent_ a] }
            fuel1 (by rw [hin]; simp) (by simp at hr; omega) (by omega) hag hpl
            (fun pr hpr => hok pr (by simp [pairsOf, hpr]))
        refine ⟨b, st1, kernelTrans req_type pl.pool_ p ea.agent_ a :: app, ?_, ?_, ?_, ?_,
          ?_, ?_⟩
        · simp only [hden, if_false, Bool.true_eq_false]
          rw [hnext]
          exact hrun
        · exact SameConfig.trans (by simp [SameConfig]) hc
        · rw [hact]
        · rw [hl]; simp
        · rw [hiff]
          constructor
          · rintro ⟨pr, hpr, hd⟩
            exact ⟨pr, by simp [pairsOf, hpr], hd⟩
          · rintro ⟨pr, hpr, hd⟩
            simp only [pairsOf, List.mem_cons] at hpr
            rcases hpr with e | e
            · subst e
              obtain ⟨ea1, pl1, h1, h2, h3⟩ := hd
              simp only [] at h1 h2
              rw [hea] at h1
              rw [hpl1] at h2
              injection h1 with h1
              injection h2 with h2
              subst h1 h2
              exact absurd h3 hden
            · exact ⟨pr, e, hd⟩
        · intro hb
          simp only [pairsOf]
          exact List.Forall₂.cons ⟨ea, pl, hea, hpl1, rfl⟩ (hall hb)
    | [_], hr => simp at hr; omega
    | [], hr => simp at hr

theorem pairsOf_exampleOk :
    ∀ pr ∈ pairsOf [1, 1, 0, 0], RwPairOk exampleRuntime (twoAgentState 7 8 20 21 [1, 1, 1, 1])
      pr.1 pr.2 := by
  intro pr hpr
  simp only [pairsOf, List.mem_cons, List.mem_singleton, List.not_mem_nil, or_false] at hpr
  rcases hpr with rfl | rfl
  · exact ⟨by decide, by decide, _, _, rfl, rfl, rfl⟩
  · exact ⟨by decide, by decide, _, _, rfl, rfl, rfl⟩

/-- C6. For a list of even length below `2 ^ 32` whose pairs are in range, and
enough fuel for its `length / 2` iterations, `BuildReadOrWriteTrans` returns; it
returns failure exactly when the access of some pair is "never allowed"; and when
it returns success it has appended one transaction per pair, in list order, each
with the requested kind, the pool index and handle of the first element, the agent
index and handle of the second element, and a null `code_`. -/
theorem BuildReadOrWriteTrans_spec (rt : Runtime) (fuel : Nat) (req_type : ReqType)
    (in_list : List Nat) (st : State)
    (heven : in_list.length % 2 = 0) (hlen : in_list.length < 4294967296)
    (hfuel : in_list.length / 2 < fuel)
    (hok : ∀ pr ∈ pairsOf in_list, RwPairOk rt st pr.1 pr.2) :
    ∃ b st1 app,
      BuildReadOrWriteTrans rt fuel req_type in_list st = .ok (b, st1) ∧
      st1.trans_list_ = st.trans_list_ ++ app ∧
      (b = false ↔ ∃ pr ∈ pairsOf in_list, RwDenied rt st pr.1 pr.2) ∧
      (b = true → List.Forall₂
        (fun pr t =>
          t.req_type_ = req_type ∧ t.kernel.pool_idx_ = pr.1 ∧ t.kernel.agent_idx_ = pr.2 ∧
          t.kernel.code_ = none ∧
          ∃ ea pl, st.agent_list_[pr.2]? = some ea ∧ st.pool_list_[pr.1]? = some pl ∧
            t.kernel.agent_ = ea.agent_ ∧ t.kernel.pool_ = pl.pool_)
        (pairsOf in_list) app) := by
  obtain ⟨b, st1, app, hrun, -, -, hl, hiff, hall⟩ :=
    rwLoop_spec rt req_type in_list hlen (in_list.length / 2) [] in_list st st fuel rfl
      (by omega) hfuel rfl rfl hok
  refine ⟨b, st1, app, ?_, hl, hiff, ?_⟩
  · unfold BuildReadOrWriteTrans
    rw [u32_of_lt hlen]
    exact hrun
  · intro hb
    refine List.Forall₂.imp ?_ (hall hb)
    rintro pr t ⟨ea, pl, hea, hpl, e⟩
    subst e
    exact ⟨rfl, rfl, rfl, rfl, ea, pl, hea, hpl, rfl, rfl⟩

/-- Witness for C6: the list of the pairs (pool 1, agent 1) and (pool 0, agent 0)
on the two-agent topology. -/
theorem BuildReadOrWriteTrans_spec_witness :
    ∃ b st1 app,
      BuildReadOrWriteTrans exampleRuntime 3 REQ_READ [1, 1, 0, 0]
        (twoAgentState 7 8 20 21 [1, 1, 1, 1]) = .ok (b, st1) ∧
      st1.trans_list_ = (twoAgentState 7 8 20 21 [1, 1, 1, 1]).trans_list_ ++ app ∧
      (b = false ↔ ∃ pr ∈ pairsOf [1, 1, 0, 0],
        RwDenied exampleRuntime (twoAgentState 7 8 20 21 [1, 1, 1, 1]) pr.1 pr.2) ∧
      (b = true → List.Forall₂
        (fun pr t =>
          t.req_type_ = REQ_READ ∧ t.kernel.pool_idx_ = pr.1 ∧ t.kernel.agent_idx_ = pr.2 ∧
          t.kernel.code_ = none ∧
          ∃ ea pl, (twoAgentState 7 8 20 21 [1, 1, 1, 1]).agent_list_[pr.2]? = some ea ∧
            (twoAgentState 7 8 20 21 [1, 1, 1, 1]).pool_list_[pr.1]? = some pl ∧
            t.kernel.agent_ = ea.agent_ ∧ t.kernel.pool_ = pl.pool_)
        (pairsOf [1, 1, 0, 0]) app) :=
  BuildReadOrWriteTrans_spec exampleRuntime 3 REQ_READ [1, 1, 0, 0]
    (twoAgentState 7 8 20 21 [1, 1, 1, 1]) (by decide) (by decide) (by decide)
    pairsOf_exampleOk

theorem rwLoop_sameConfig (rt : Runtime) (req_type : ReqType) (in_list : List Nat)
    (list_size : Nat) :
    ∀ (fuel idx : Nat) (st : State) (b : Bool) (st1 : State),
      rwLoop rt req_type in_list list_size fuel idx st = .ok (b, st1) → SameConfig st st1 := by
  intro fuel
  induction fuel with
  | zero => intro idx st b st1 h; rw [rwLoop] at h; cases h
  | succ fuel ih =>
    intro idx st b st1 h
    rw [rwLoop] at h
    split at h
    · split at h
      · cases h
      · split at h
        · cases h
        · simp only [] at h
          split at h
          · cases h
          · split at h
            · cases h
            · split at h
              · cases h
              · split at h
                · injection h with h
                  injection h with hb hs
                  subst hs
                  exact SameConfig.rfl _
                · exact SameConfig.trans (by simp [SameConfig]) (ih _ _ _ _ h)
    · injection h with h
      injection h with hb hs
      subst hs
      exact SameConfig.rfl _

theorem BuildReadTrans_sameConfig {rt : Runtime} {fuel : Nat} {st : State} {b : Bool}
    {st1 : State} (h : BuildReadTrans rt fuel st = .ok (b, st1)) : SameConfig st st1 :=
  rwLoop_sameConfig _ _ _ _ _ _ _ _ _ h

theorem BuildWriteTrans_sameConfig {rt : Runtime} {fuel : Nat} {st : State} {b : Bool}
    {st1 : State} (h : BuildWriteTrans rt fuel st = .ok (b, st1)) : SameConfig st st1 :=
  rwLoop_sameConfig _ _ _ _ _ _ _ _ _ h

theorem BuildBidirCopyTrans_sameConfig {st : State} {b : Bool} {st1 : State}
    (h : BuildBidirCopyTrans st = .ok (b, st1)) : SameConfig st st1 :=
  (BuildCopyTrans_ok h).1

theorem BuildUnidirCopyTrans_sameConfig {st : State} {b : Bool} {st1 : State}
    (h : BuildUnidirCopyTrans st = .ok (b, st1)) : SameConfig st st1 :=
  (BuildCopyTrans_ok h).1

theorem BuildAllPoolsBidirCopyTrans_sameConfig {st : State} {b : Bool} {st1 : State}
    (h : BuildAllPoolsBidirCopyTrans st = .ok (b, st1)) : SameConfig st st1 :=
  (BuildCopyTrans_ok h).1

theorem BuildAllPoolsUnidirCopyTrans_sameConfig {st : State} {b : Bool} {st1 : State}
    (h : BuildAllPoolsUnidirCopyTrans st = .ok (b, st1)) : SameConfig st st1 :=
  (BuildCopyTrans_ok h).1

theorem transListBlock_eq (flag tag : ReqType) (family : State → Outcome) (st0 st : State)
    (k : State → Outcome) (rest : List (State → Outcome))
    (h0 : SameConfig st0 st)
    (hfam : ∀ b st1, family st = .ok (b, st1) → SameConfig st st1)
    (hk : ∀ st1, SameConfig st0 st1 → k st1 = shortCircuit rest st1) :
    transListBlock flag tag family st k =
      shortCircuit ((if flag = tag then [family] else []) ++ rest) st := by
  unfold transListBlock
  by_cases hflag : flag = tag
  · simp only [hflag, if_true, List.singleton_append, shortCircuit]
    cases hf : family st with
    | error e => rfl
    | ok r =>
      obtain ⟨b, st1⟩ := r
      cases b with
      | false => rfl
      | true => exact hk st1 (h0.trans (hfam _ _ hf))
  · simp only [hflag, if_false, List.nil_append]
    exact hk st h0

theorem RunsAll_trans_list :
    ∀ (fs : List (State → Outcome)) (st st1 : State) (apps : List (List async_trans_t)),
      RunsAll fs st st1 apps →
      st1.trans_list_ = st.trans_list_ ++ apps.flatten ∧ apps.length = fs.length := by
  intro fs
  induction fs with
  | nil =>
    rintro st st1 apps ⟨h1, h2⟩
    subst h1 h2
    simp
  | cons f fs ih =>
    rintro st st1 apps ⟨st2, app, rest, -, hl, e, hr⟩
    obtain ⟨h1, h2⟩ := ih st2 st1 rest hr
    subst e
    rw [h1, hl]
    simp [h2]

theorem shortCircuit_true_iff :
    ∀ (fs : List (State → Outcome)),
      (∀ f ∈ fs, ∀ (s : State) (b : Bool) (s1 : State),
        f s = .ok (b, s1) → ∃ app, s1.trans_list_ = s.trans_list_ ++ app) →
      ∀ (st st1 : State),
        shortCircuit fs st = .ok (true, st1) ↔ ∃ apps, RunsAll fs st st1 apps := by
  intro fs
  induction fs with
  | nil =>
    intro _ st st1
    simp only [shortCircuit, RunsAll]
    constructor
    · intro h
      injection h with h
      injection h with _ h
      exact ⟨[], h.symm, rfl⟩
    · rintro ⟨apps, h, -⟩; rw [h]
  | cons f fs ih =>
    intro happ st st1
    have ih1 := ih (fun g hg => happ g (List.mem_cons_of_mem _ hg))
    simp only [shortCircuit, RunsAll]
    cases hf : f st with
    | error e =>
      simp only []
      constructor
      · intro h; cases h
      · rintro ⟨apps, st2, app, rest, h, -⟩; cases h
    | ok r =>
      obtain ⟨b, st2⟩ := r
      cases b with
      | false =>
        simp only []
        constructor
        · intro h
          injection h with h
          injection h with h _
          cases h
        · rintro ⟨apps, st3, app, rest, h, -⟩
          injection h with h
          injection h with h _
          cases h
      | true =>
        simp only [ih1]
        constructor
        · rintro ⟨rest, hr⟩
          obtain ⟨app, hl⟩ := happ f (List.mem_cons_self _ _) st true st2 hf
          exact ⟨app :: rest, st2, app, rest, rfl, hl, rfl, hr⟩
        · rintro ⟨apps, st3, app, rest, h3, -, -, hr⟩
          injection h3 with h3
          injection h3 with _ h3
          subst h3
          exact ⟨rest, hr⟩

theorem shortCircuit_false_iff :
    ∀ (fs : List (State → Outcome)),
      (∀ f ∈ fs, ∀ (s : State) (b : Bool) (s1 : State),
        f s = .ok (b, s1) → ∃ app, s1.trans_list_ = s.trans_list_ ++ app) →
      ∀ (st st1 : State),
        shortCircuit fs st = .ok (false, st1) ↔
          ∃ pre f post st2 apps, fs = pre ++ f :: post ∧ RunsAll pre st st2 apps ∧
            f st2 = .ok (false, st1) := by
  intro fs
  induction fs with
  | nil =>
    intro _ st st1
    simp only [shortCircuit]
    constructor
    · intro h
      injection h with h
      injection h with h _
      cases h
    · rintro ⟨pre, f, post, st2, apps, h, -⟩
      simp at h
  | cons g fs ih =>
    intro happ st st1
    have ih1 := ih (fun g1 hg => happ g1 (List.mem_cons_of_mem _ hg))
    simp only [shortCircuit]
    constructor
    · intro h
      cases hg : g st with
      | error e => rw [hg] at h; cases h
      | ok r =>
        obtain ⟨b, st2⟩ := r
        rw [hg] at h
        cases b with
        | false =>
          simp only [] at h
          injection h with h
          injection h with _ h
          subst h
          exact ⟨[], g, fs, st, [], rfl, ⟨rfl, rfl⟩, hg⟩
        | true =>
          simp only [] at h
          obtain ⟨pre, f, post, st3, apps, e, hr, hf⟩ := (ih1 st2 st1).1 h
          obtain ⟨app, hl⟩ := happ g (List.mem_cons_self _ _) st true st2 hg
          exact ⟨g :: pre, f, post, st3, app :: apps, by rw [e]; rfl,
            ⟨st2, app, apps, hg, hl, rfl, hr⟩, hf⟩
    · rintro ⟨pre, f, post, st3, apps, e, hr, hf⟩
      cases pre with
      | nil =>
        simp only [List.nil_append, List.cons.injEq] at e
        obtain ⟨e1, -⟩ := e
        subst e1
        obtain ⟨h1, -⟩ := hr
        subst h1
        rw [hf]
      | cons g1 pre =>
        simp only [List.cons_append, List.cons.injEq] at e
        obtain ⟨e1, e2⟩ := e
        subst e1
        obtain ⟨st2, app, rest, hg, -, -, hr⟩ := hr
        rw [hg]
        exact (ih1 st2 st1).2 ⟨pre, f, post, st3, rest, e2, hr, hf⟩

theorem BuildTransList_eq_shortCircuit (rt : Runtime) (fuel : Nat) (st : State) :
    BuildTransList rt fuel st = shortCircuit (enabledFamilies rt fuel st) st := by
  unfold BuildTransList enabledFamilies
  apply transListBlock_eq _ _ _ st st _ _ (SameConfig.rfl _)
    (fun _ _ h => BuildReadTrans_sameConfig h)
  intro st1 h1
  rw [show st1.req_write_ = st.req_write_ from by rw [h1]]
  apply transListBlock_eq _ _ _ st st1 _ _ h1 (fun _ _ h => BuildWriteTrans_sameConfig h)
  intro st2 h2
  rw [show st2.req_copy_bidir_ = st.req_copy_bidir_ from by rw [h2]]
  apply transListBlock_eq _ _ _ st st2 _ _ h2 (fun _ _ h => BuildBidirCopyTrans_sameConfig h)
  intro st3 h3
  rw [show st3.req_copy_unidir_ = st.req_copy_unidir_ from by rw [h3]]
  apply transListBlock_eq _ _ _ st st3 _ _ h3 (fun _ _ h => BuildUnidirCopyTrans_sameConfig h)
  intro st4 h4
  rw [show st4.req_copy_all_bidir_ = st.req_copy_all_bidir_ from by rw [h4]]
  apply transListBlock_eq _ _ _ st st4 _ _ h4
    (fun _ _ h => BuildAllPoolsBidirCopyTrans_sameConfig h)
  intro st5 h5
  rw [show st5.req_copy_all_unidir_ = st.req_copy_all_unidir_ from by rw [h5]]
  have := transListBlock_eq st.req_copy_all_unidir_ REQ_COPY_ALL_UNIDIR
    BuildAllPoolsUnidirCopyTrans st st5 (fun st => .ok (true, st)) [] h5
    (fun _ _ h => BuildAllPoolsUnidirCopyTrans_sameConfig h) (fun _ _ => rfl)
  simpa using this

theorem computeLoop_spec (sys_freq : Nat) (print_cpu_time_ : Bool) :
    ∀ (sizes : List Nat) (idx : Nat) (trans : async_trans_t),
      (∀ k < sizes.length,
        ∃ tm, selectTime sys_freq print_cpu_time_ trans (idx + k) = .ok tm) →
      ∃ trans1 mins avgs abws pbws,
        computeLoop sys_freq print_cpu_time_ sizes idx trans = .ok trans1 ∧
        trans1 = { trans with min_time_ := trans.min_time_ ++ mins,
                              avg_time_ := trans.avg_time_ ++ avgs,
                              avg_bandwidth_ := trans.avg_bandwidth_ ++ abws,
                              peak_bandwidth_ := trans.peak_bandwidth_ ++ pbws } ∧
        mins.length = sizes.length ∧ avgs.length = sizes.length ∧
        abws.length = sizes.length ∧ pbws.length = sizes.length ∧
        ∀ k sz a m, sizes[k]? = some sz →
          selectTime sys_freq print_cpu_time_ trans (idx + k) = .ok (a, m) →
          avgs[k]? = some a ∧ mins[k]? = some m ∧
          abws[k]? = some (bandwidth (dataSize trans sz) a) ∧
          pbws[k]? = some (bandwidth (dataSize trans sz) m) := by
  intro sizes
  induction sizes with
  | nil =>
    intro idx trans _
    refine ⟨trans, [], [], [], [], by simp [computeLoop], by simp, rfl, rfl, rfl, rfl, ?_⟩
    intro k sz a m h
    simp at h
  | cons sz0 rest ih =>
    intro idx trans hsel
    obtain ⟨⟨a0, m0⟩, h0⟩ := hsel 0 (by simp)
    rw [Nat.add_zero] at h0
    obtain ⟨trans1, mins, avgs, abws, pbws, hrun, heq, l1, l2, l3, l4, hidx⟩ :=
      ih (idx + 1)
        { trans with min_time_ := trans.min_time_ ++ [m0],
                     avg_time_ := trans.avg_time_ ++ [a0],
                     avg_bandwidth_ := trans.avg_bandwidth_ ++ [bandwidth (dataSize trans sz0) a0],
                     peak_bandwidth_ := trans.peak_bandwidth_ ++
                       [bandwidth (dataSize trans sz0) m0] }
        (by
          intro k hk
          obtain ⟨tm, htm⟩ := hsel (k + 1) (by simp; omega)
          exact ⟨tm, by rw [← htm, Nat.add_assoc, Nat.add_comm 1 k]; rfl⟩)
    refine ⟨trans1, m0 :: mins, a0 :: avgs, bandwidth (dataSize trans sz0) a0 :: abws,
      bandwidth (dataSize trans sz0) m0 :: pbws, ?_, ?_, by simp [l1], by simp [l2],
      by simp [l3], by simp [l4], ?_⟩
    · rw [computeLoop, h0]
      exact hrun
    · rw [heq]
      simp
    · intro k sz a m hk hs
      cases k with
      | zero =>
        simp only [List.getElem?_cons_zero, Option.some.injEq] at hk
        rw [Nat.add_zero, h0] at hs
        injection hs with hs
        injection hs with e1 e2
        subst hk e1 e2
        simp
      | succ k =>
        simp only [List.getElem?_cons_succ] at hk ⊢
        apply hidx k sz a m hk
        rw [← hs, Nat.add_assoc, Nat.add_comm 1 k]
        rfl

theorem selectTime_of_complete (rt : Runtime) (st : State) (trans : async_trans_t)
    (h : TimingComplete st trans) :
    ∀ i < u32 st.size_list_.length,
      ∃ tm, selectTime rt.timestamp_frequency st.print_cpu_time_ trans i = .ok tm := by
  intro i hi
  unfold TimingComplete at h
  unfold selectTime
  by_cases hg : trans.copy.uses_gpu_ = true
  · by_cases hp : st.print_cpu_time_ = false
    · rw [if_pos ⟨hg, hp⟩] at h
      have h1 : i < trans.gpu_avg_time_.length := by omega
      have h2 : i < trans.gpu_min_time_.length := by omega
      simp [hg, hp, List.getElem?_eq_getElem h1, List.getElem?_eq_getElem h2]
    · rw [if_neg (fun hh => hp hh.2)] at h
      have h1 : i < trans.cpu_avg_time_.length := by omega
      have h2 : i < trans.cpu_min_time_.length := by omega
      simp [hg, hp, List.getElem?_eq_getElem h1, List.getElem?_eq_getElem h2]
  · rw [if_neg (fun hh => hg hh.1)] at h
    have h1 : i < trans.cpu_avg_time_.length := by omega
    have h2 : i < trans.cpu_min_time_.length := by omega
    simp [hg, List.getElem?_eq_getElem h1, List.getElem?_eq_getElem h2]

theorem selectTime_cpu_branch {trans : async_trans_t} {i : Nat} {a m : ℚ}
    (h : (match trans.cpu_avg_time_[i]? with
      | none => (.error (.out_of_range .cpu_avg_time_ i) : Except Fault (ℚ × ℚ))
      | some avg_time =>
        match trans.cpu_min_time_[i]? with
        | none => .error (.out_of_range .cpu_min_time_ i)
        | some min_time => .ok (avg_time, min_time)) = .ok (a, m)) :
    trans.cpu_avg_time_[i]? = some a ∧ trans.cpu_min_time_[i]? = some m := by
  cases hx : trans.cpu_avg_time_[i]? with
  | none => rw [hx] at h; cases h
  | some x =>
    cases hy : trans.cpu_min_time_[i]? with
    | none => rw [hx, hy] at h; cases h
    | some y =>
      rw [hx, hy] at h
      injection h with h
      injection h with e1 e2
      subst e1 e2
      exact ⟨rfl, rfl⟩

theorem selectTime_host {sys_freq : Nat} {p : Bool} {trans : async_trans_t} {i : Nat} {a m : ℚ}
    (hsrc : trans.copy.uses_gpu_ = false ∨ p = true)
    (h : selectTime sys_freq p trans i = .ok (a, m)) :
    trans.cpu_avg_time_[i]? = some a ∧ trans.cpu_min_time_[i]? = some m := by
  unfold selectTime at h
  by_cases hg : trans.copy.uses_gpu_ = true
  · have hp : p = true := by
      rcases hsrc with h1 | h1
      · rw [h1] at hg; cases hg
      · exact h1
    rw [if_neg (by simp [hg]), if_neg (by simp [hp])] at h
    exact selectTime_cpu_branch h
  · rw [if_pos hg] at h
    exact selectTime_cpu_branch h

theorem selectTime_device {sys_freq : Nat} {p : Bool} {trans : async_trans_t} {i : Nat}
    {a m : ℚ} (hg : trans.copy.uses_gpu_ = true) (hp : p = false)
    (h : selectTime sys_freq p trans i = .ok (a, m)) :
    ∃ ta tm, trans.gpu_avg_time_[i]? = some ta ∧ trans.gpu_min_time_[i]? = some tm ∧
      a = ta / (sys_freq : ℚ) ∧ m = tm / (sys_freq : ℚ) := by
  unfold selectTime at h
  rw [if_neg (by simp [hg]), if_pos hp] at h
  cases hx : trans.gpu_avg_time_[i]? with
  | none => rw [hx] at h; cases h
  | some x =>
    cases hy : trans.gpu_min_time_[i]? with
    | none => rw [hx, hy] at h; cases h
    | some y =>
      rw [hx, hy] at h
      injection h with h
      injection h with e1 e2
      exact ⟨x, y, rfl, rfl, e1.symm, e2.symm⟩

theorem u32_le (n : Nat) : u32 n ≤ n := Nat.mod_le _ _

theorem ComputeCopyTime_entries (rt : Runtime) (st : State) (trans : async_trans_t)
    (h : TimingComplete st trans) :
    ∃ trans1 mins avgs abws pbws,
      ComputeCopyTime rt st trans = .ok trans1 ∧
      trans1 = { trans with min_time_ := trans.min_time_ ++ mins,
                            avg_time_ := trans.avg_time_ ++ avgs,
                            avg_bandwidth_ := trans.avg_bandwidth_ ++ abws,
                            peak_bandwidth_ := trans.peak_bandwidth_ ++ pbws } ∧
      mins.length = u32 st.size_list_.length ∧ avgs.length = u32 st.size_list_.length ∧
      abws.length = u32 st.size_list_.length ∧ pbws.length = u32 st.size_list_.length ∧
      ∀ k sz a m, k < u32 st.size_list_.length → st.size_list_[k]? = some sz →
        selectTime rt.timestamp_frequency st.print_cpu_time_ trans k = .ok (a, m) →
        trans1.avg_time_[trans.avg_time_.length + k]? = some a ∧
        trans1.min_time_[trans.min_time_.length + k]? = some m ∧
        trans1.avg_bandwidth_[trans.avg_bandwidth_.length + k]? =
          some (bandwidth (dataSize trans sz) a) ∧
        trans1.peak_bandwidth_[trans.peak_bandwidth_.length + k]? =
          some (bandwidth (dataSize trans sz) m) := by
  have hlen : (st.size_list_.take (u32 st.size_list_.length)).length =
      u32 st.size_list_.length := by
    rw [List.length_take]
    exact Nat.min_eq_left (u32_le _)
  obtain ⟨trans1, mins, avgs, abws, pbws, hrun, heq, l1, l2, l3, l4, hidx⟩ :=
    computeLoop_spec rt.timestamp_frequency st.print_cpu_time_
      (st.size_list_.take (u32 st.size_list_.length)) 0 trans
      (by
        intro k hk
        rw [hlen] at hk
        rw [Nat.zero_add]
        exact selectTime_of_complete rt st trans h k hk)
  rw [hlen] at l1 l2 l3 l4
  refine ⟨trans1, mins, avgs, abws, pbws, hrun, heq, l1, l2, l3, l4, ?_⟩
  intro k sz a m hk hsz hsel
  have hsz1 : (st.size_list_.take (u32 st.size_list_.length))[k]? = some sz := by
    rw [List.getElem?_take, if_pos hk]
    exact hsz
  obtain ⟨e1, e2, e3, e4⟩ := hidx k sz a m hsz1 (by rw [Nat.zero_add]; exact hsel)
  rw [heq]
  simp only []
  rw [List.getElem?_append_right (Nat.le_add_right _ _),
    List.getElem?_append_right (Nat.le_add_right _ _),
    List.getElem?_append_right (Nat.le_add_right _ _),
    List.getElem?_append_right (Nat.le_add_right _ _)]
  simp only [Nat.add_sub_cancel_left]
  exact ⟨e1, e2, e3, e4⟩

theorem rwLoop_appends (rt : Runtime) (req_type : ReqType) (in_list : List Nat)
    (list_size : Nat) :
    ∀ (fuel idx : Nat) (st : State) (b : Bool) (st1 : State),
      rwLoop rt req_type in_list list_size fuel idx st = .ok (b, st1) →
      ∃ app, st1.trans_list_ = st.trans_list_ ++ app := by
  intro fuel
  induction fuel with
  | zero => intro idx st b st1 h; rw [rwLoop] at h; cases h
  | succ fuel ih =>
    intro idx st b st1 h
    rw [rwLoop] at h
    split at h
    · split at h
      · cases h
      · split at h
        · cases h
        · simp only [] at h
          split at h
          · cases h
          · split at h
            · cases h
            · split at h
              · cases h
              · split at h
                · injection h with h
                  injection h with hb hs
                  subst hs
                  exact ⟨[], by simp⟩
                · obtain ⟨app, happ⟩ := ih _ _ _ _ h
                  exact ⟨_, happ.trans (List.append_assoc _ _ _)⟩
    · injection h with h
      injection h with hb hs
      subst hs
      exact ⟨[], by simp⟩

theorem enabledFamilies_appends (rt : Runtime) (fuel : Nat) (st : State) :
    ∀ f ∈ enabledFamilies rt fuel st, ∀ (s : State) (b : Bool) (s1 : State),
      f s = .ok (b, s1) → ∃ app, s1.trans_list_ = s.trans_list_ ++ app := by
  intro f hf s b s1 h
  have hcopy : ∀ (req_type : ReqType) (l1 l2 : List Nat),
      BuildCopyTrans req_type l1 l2 s = .ok (b, s1) →
      ∃ app, s1.trans_list_ = s.trans_list_ ++ app := by
    intro req_type l1 l2 h
    obtain ⟨-, -, app, hl, -⟩ := BuildCopyTrans_ok h
    exact ⟨app, hl⟩
  unfold enabledFamilies at hf
  simp only [List.mem_append] at hf
  rcases hf with hf | hf | hf | hf | hf | hf <;> split at hf <;>
    simp only [List.mem_singleton, List.not_mem_nil] at hf <;> subst hf
  · exact rwLoop_appends _ _ _ _ _ _ _ _ _ h
  · exact rwLoop_appends _ _ _ _ _ _ _ _ _ h
  · exact hcopy _ _ _ h
  · exact hcopy _ _ _ h
  · exact hcopy _ _ _ h
  · exact hcopy _ _ _ h

/-- C7. `BuildTransList` is the short-circuit sequential composition of the
families enabled by the request flags, taken in the order Read, Write,
BidirectionalCopy, UnidirectionalCopy, AllPoolsBidirectionalCopy,
AllPoolsUnidirectionalCopy. It returns success exactly when every enabled family,
started on the state left by the previous one, returns success, and then the
transaction list is the initial list followed by the transactions of each enabled
family in this order; with no family enabled it returns success and leaves the
state as it is. It returns failure exactly when the enabled families before some
family all succeed and that family fails; the final state is then the state this
family left, so the list holds the initial list, the transactions of the families
before it and what the failing family appended, and nothing of a later family. -/
theorem BuildTransList_short_circuit (rt : Runtime) (fuel : Nat) (st : State) :
    BuildTransList rt fuel st = shortCircuit (enabledFamilies rt fuel st) st ∧
    (∀ st1, BuildTransList rt fuel st = .ok (true, st1) ↔
      ∃ apps, RunsAll (enabledFamilies rt fuel st) st st1 apps) ∧
    (∀ st1 apps, RunsAll (enabledFamilies rt fuel st) st st1 apps →
      st1.trans_list_ = st.trans_list_ ++ apps.flatten ∧
      apps.length = (enabledFamilies rt fuel st).length) ∧
    (enabledFamilies rt fuel st = [] → BuildTransList rt fuel st = .ok (true, st)) ∧
    (∀ st1, BuildTransList rt fuel st = .ok (false, st1) ↔
      ∃ pre f post st2 apps, enabledFamilies rt fuel st = pre ++ f :: post ∧
        RunsAll pre st st2 apps ∧ f st2 = .ok (false, st1)) ∧
    (∀ pre f post st2 apps st1, enabledFamilies rt fuel st = pre ++ f :: post →
      RunsAll pre st st2 apps → f st2 = .ok (false, st1) →
      ∃ app, st1.trans_list_ = st.trans_list_ ++ apps.flatten ++ app) := by
  have h := BuildTransList_eq_shortCircuit rt fuel st
  have happ := enabledFamilies_appends rt fuel st
  refine ⟨h, ?_, ?_, ?_, ?_, ?_⟩
  · intro st1
    rw [h]
    exact shortCircuit_true_iff _ happ _ _
  · intro st1 apps hr
    exact RunsAll_trans_list _ _ _ _ hr
  · intro he
    rw [h, he]
    rfl
  · intro st1
    rw [h]
    exact shortCircuit_false_iff _ happ _ _
  · intro pre f post st2 apps st1 he hr hf
    obtain ⟨app, hl⟩ := happ f (by rw [he]; simp) st2 false st1 hf
    obtain ⟨h1, -⟩ := RunsAll_trans_list _ _ _ _ hr
    exact ⟨app, by rw [hl, h1]⟩

theorem bandwidth_eq (data_size : Nat) (time : ℚ) :
    bandwidth data_size time = (data_size : ℚ) / time / 1000000000 := by
  unfold bandwidth
  rw [div_div, div_div, div_div, div_div]
  norm_num

theorem dataSize_eq (trans : async_trans_t) (s : Nat) (hs : 4 * s < 18446744073709551616) :
    dataSize trans s =
      s * (if trans.copy.bidir_ = true then 2 else 1) *
        (if trans.copy.src_idx_ = trans.copy.dst_idx_ then 2 else 1) := by
  unfold dataSize u64
  have h1 : s % 18446744073709551616 = s := Nat.mod_eq_of_lt (by omega)
  have h2 : (s + s) % 18446744073709551616 = s + s := Nat.mod_eq_of_lt (by omega)
  have h4 : (s + s + (s + s)) % 18446744073709551616 = s + s + (s + s) :=
    Nat.mod_eq_of_lt (by omega)
  cases hb : trans.copy.bidir_ <;>
    by_cases hp : trans.copy.src_idx_ = trans.copy.dst_idx_ <;>
    simp only [hp, if_true, if_false, h1, h2, h4, Bool.false_eq_true] <;> omega

/-- C8. For a transaction whose timing arrays are complete and a size index `k`
whose selected average time `a` and minimum time `m` are positive,
`ComputeCopyTime` returns and the entries it appends at index `k` are: average
bandwidth = effective byte count / `a` / `10 ^ 9`, peak bandwidth = effective byte
count / `m` / `10 ^ 9`, in rational arithmetic (so bandwidth times time times
`10 ^ 9` gives the byte count back). In particular size `10 ^ 9`, not
bidirectional, distinct pools and `a = 1` give average bandwidth 1. -/
theorem ComputeCopyTime_bandwidth (rt : Runtime) (st : State) (trans : async_trans_t)
    (k sz : Nat) (a m : ℚ)
    (htimed : TimingComplete st trans) (hk : k < u32 st.size_list_.length)
    (hsz : st.size_list_[k]? = some sz)
    (hsel : selectTime rt.timestamp_frequency st.print_cpu_time_ trans k = .ok (a, m))
    (ha : 0 < a) (hm : 0 < m) :
    ∃ trans1 avg_bandwidth peak_bandwidth,
      ComputeCopyTime rt st trans = .ok trans1 ∧
      trans1.avg_bandwidth_[trans.avg_bandwidth_.length + k]? = some avg_bandwidth ∧
      trans1.peak_bandwidth_[trans.peak_bandwidth_.length + k]? = some peak_bandwidth ∧
      avg_bandwidth = (dataSize trans sz : ℚ) / a / 1000000000 ∧
      peak_bandwidth = (dataSize trans sz : ℚ) / m / 1000000000 ∧
      avg_bandwidth * a * 1000000000 = (dataSize trans sz : ℚ) ∧
      peak_bandwidth * m * 1000000000 = (dataSize trans sz : ℚ) ∧
      (sz = 1000000000 → trans.copy.bidir_ = false →
        trans.copy.src_idx_ ≠ trans.copy.dst_idx_ → a = 1 → avg_bandwidth = 1) := by
  obtain ⟨trans1, mins, avgs, abws, pbws, hrun, -, -, -, -, -, hidx⟩ :=
    ComputeCopyTime_entries rt st trans htimed
  obtain ⟨-, -, e3, e4⟩ := hidx k sz a m hk hsz hsel
  rw [bandwidth_eq] at e3 e4
  refine ⟨trans1, _, _, hrun, e3, e4, rfl, rfl, ?_, ?_, ?_⟩
  · have : a ≠ 0 := ne_of_gt ha
    field_simp
    ring
  · have : m ≠ 0 := ne_of_gt hm
    field_simp
    ring
  · intro h1 h2 h3 h4
    rw [dataSize_eq trans sz (by rw [h1]; decide), h1, h4]
    simp only [h2, h3, if_false, Bool.false_eq_true]
    norm_num

/-- Witness for C8: one size `10 ^ 9` and a host-timed transaction between
distinct pools with average time 1 and minimum time 1/2; the average bandwidth is
1 and the peak bandwidth 2. -/
theorem ComputeCopyTime_bandwidth_witness :
    ∃ trans1, ComputeCopyTime exampleRuntime (sizedState false) hostTrans = .ok trans1 ∧
      trans1.avg_bandwidth_[0]? = some 1 ∧ trans1.peak_bandwidth_[0]? = some 2 := by
  obtain ⟨t, ab, pb, h1, h2, h3, -, h5, -, -, h8⟩ :=
    ComputeCopyTime_bandwidth exampleRuntime (sizedState false) hostTrans 0 1000000000 1 (1 / 2)
      (by simp [TimingComplete, hostTrans, timedTrans, sizedState, u32]) (by decide) rfl rfl
      (by norm_num) (by norm_num)
  have hd : dataSize hostTrans 1000000000 = 1000000000 := by decide
  have hab : ab = 1 := h8 rfl rfl (by decide) rfl
  have hpb : pb = 2 := by rw [h5, hd]; norm_num
  rw [hab] at h2
  rw [hpb] at h3
  exact ⟨t, h1, h2, h3⟩

/-- C9. For a nominal size `s` with `4 * s < 2 ^ 64` the byte count that
`ComputeCopyTime` charges is `s`, times 2 if the transaction is bidirectional,
times 2 if its source and destination pool indices are equal, and the bandwidth
entries appended at the size index are computed from this count. With
`s = 10 ^ 9` and average time 1 the average bandwidth is 2 for a bidirectional
transaction between distinct pools and 4 for a bidirectional transaction with equal
pool indices. -/
theorem ComputeCopyTime_effective_bytes (rt : Runtime) (st : State) (trans : async_trans_t)
    (k s : Nat) (a m : ℚ)
    (htimed : TimingComplete st trans) (hk : k < u32 st.size_list_.length)
    (hsz : st.size_list_[k]? = some s) (hs : 4 * s < 18446744073709551616)
    (hsel : selectTime rt.timestamp_frequency st.print_cpu_time_ trans k = .ok (a, m)) :
    dataSize trans s =
      s * (if trans.copy.bidir_ = true then 2 else 1) *
        (if trans.copy.src_idx_ = trans.copy.dst_idx_ then 2 else 1) ∧
    ∃ trans1, ComputeCopyTime rt st trans = .ok trans1 ∧
      trans1.avg_bandwidth_[trans.avg_bandwidth_.length + k]? =
        some (bandwidth (s * (if trans.copy.bidir_ = true then 2 else 1) *
          (if trans.copy.src_idx_ = trans.copy.dst_idx_ then 2 else 1)) a) ∧
      trans1.peak_bandwidth_[trans.peak_bandwidth_.length + k]? =
        some (bandwidth (s * (if trans.copy.bidir_ = true then 2 else 1) *
          (if trans.copy.src_idx_ = trans.copy.dst_idx_ then 2 else 1)) m) ∧
      (s = 1000000000 → a = 1 → trans.copy.bidir_ = true →
        trans.copy.src_idx_ ≠ trans.copy.dst_idx_ →
        trans1.avg_bandwidth_[trans.avg_bandwidth_.length + k]? = some 2) ∧
      (s = 1000000000 → a = 1 → trans.copy.bidir_ = true →
        trans.copy.src_idx_ = trans.copy.dst_idx_ →
        trans1.avg_bandwidth_[trans.avg_bandwidth_.length + k]? = some 4) := by
  have hd := dataSize_eq trans s hs
  obtain ⟨trans1, mins, avgs, abws, pbws, hrun, -, -, -, -, -, hidx⟩ :=
    ComputeCopyTime_entries rt st trans htimed
  obtain ⟨-, -, e3, e4⟩ := hidx k s a m hk hsz hsel
  rw [hd] at e3 e4
  refine ⟨hd, trans1, hrun, e3, e4, ?_, ?_⟩
  · intro h1 h2 h3 h4
    rw [e3, bandwidth_eq, h1, h2]
    simp only [h3, h4, if_true, if_false]
    norm_num
  · intro h1 h2 h3 h4
    rw [e3, bandwidth_eq, h1, h2]
    simp only [h3, h4, if_true]
    norm_num

/-- Witness for C9: one size `10 ^ 9` and a bidirectional host-timed transaction
of pool 1 with itself, average time 1; the charged byte count is `4 * 10 ^ 9` and
the average bandwidth is 4. -/
theorem ComputeCopyTime_effective_bytes_witness :
    dataSize selfBidirTrans 1000000000 = 4000000000 ∧
    ∃ trans1, ComputeCopyTime exampleRuntime (sizedState false) selfBidirTrans = .ok trans1 ∧
      trans1.avg_bandwidth_[0]? = some 4 := by
  obtain ⟨h0, t, h1, -, -, -, h5⟩ :=
    ComputeCopyTime_effective_bytes exampleRuntime (sizedState false) selfBidirTrans 0
      1000000000 1 (1 / 2)
      (by simp [TimingComplete, selfBidirTrans, timedTrans, sizedState, u32]) (by decide) rfl
      (by decide) rfl
  exact ⟨h0, t, h1, h5 rfl rfl rfl rfl⟩

/-- C10. For a transaction whose timing arrays are complete and every size index
`k`, `ComputeCopyTime` returns, records at index `k` an average time `a` and a
minimum time `m`, and computes the two bandwidth entries of index `k` from them.
The pair `(a, m)` is the host pair when the transaction does not use an
accelerator, whatever the timing preference; the host pair when it uses one and host
timing is preferred; and the device tick counts divided by the (non-zero) timestamp
frequency when it uses one and host timing is not preferred, so that with a positive
frequency an average tick count equal to the frequency gives `a = 1`. -/
theorem ComputeCopyTime_time_source (rt : Runtime) (st : State) (trans : async_trans_t)
    (k : Nat) (htimed : TimingComplete st trans) (hk : k < u32 st.size_list_.length) :
    ∃ trans1 a m, ComputeCopyTime rt st trans = .ok trans1 ∧
      trans1.avg_time_[trans.avg_time_.length + k]? = some a ∧
      trans1.min_time_[trans.min_time_.length + k]? = some m ∧
      (∃ sz, st.size_list_[k]? = some sz ∧
        trans1.avg_bandwidth_[trans.avg_bandwidth_.length + k]? =
          some (bandwidth (dataSize trans sz) a) ∧
        trans1.peak_bandwidth_[trans.peak_bandwidth_.length + k]? =
          some (bandwidth (dataSize trans sz) m)) ∧
      (trans.copy.uses_gpu_ = false →
        trans.cpu_avg_time_[k]? = some a ∧ trans.cpu_min_time_[k]? = some m) ∧
      (trans.copy.uses_gpu_ = true → st.print_cpu_time_ = true →
        trans.cpu_avg_time_[k]? = some a ∧ trans.cpu_min_time_[k]? = some m) ∧
      (trans.copy.uses_gpu_ = true → st.print_cpu_time_ = false →
        rt.timestamp_frequency ≠ 0 →
        ∃ ta tm, trans.gpu_avg_time_[k]? = some ta ∧ trans.gpu_min_time_[k]? = some tm ∧
          a = ta / (rt.timestamp_frequency : ℚ) ∧ m = tm / (rt.timestamp_frequency : ℚ)) ∧
      (trans.copy.uses_gpu_ = true → st.print_cpu_time_ = false →
        0 < rt.timestamp_frequency →
        trans.gpu_avg_time_[k]? = some (rt.timestamp_frequency : ℚ) → a = 1) := by
  obtain ⟨trans1, mins, avgs, abws, pbws, hrun, -, -, -, -, -, hidx⟩ :=
    ComputeCopyTime_entries rt st trans htimed
  obtain ⟨⟨a, m⟩, hsel⟩ := selectTime_of_complete rt st trans htimed k hk
  have hklt : k < st.size_list_.length := Nat.lt_of_lt_of_le hk (u32_le _)
  have hsz : st.size_list_[k]? = some (st.size_list_.get ⟨k, hklt⟩) := by
    simp [List.getElem?_eq_getElem hklt]
  obtain ⟨e1, e2, e3, e4⟩ := hidx k _ a m hk hsz hsel
  refine ⟨trans1, a, m, hrun, e1, e2, ⟨_, hsz, e3, e4⟩, ?_, ?_, ?_, ?_⟩
  · intro hg
    exact selectTime_host (Or.inl hg) hsel
  · intro _ hp
    exact selectTime_host (Or.inr hp) hsel
  · intro hg hp _
    exact selectTime_device hg hp hsel
  · intro hg hp hf hticks
    obtain ⟨ta, tm, h1, -, h3, -⟩ := selectTime_device hg hp hsel
    rw [hticks] at h1
    injection h1 with h1
    rw [h3, ← h1]
    have : (rt.timestamp_frequency : ℚ) ≠ 0 := by
      have : (0 : ℚ) < (rt.timestamp_frequency : ℚ) := by exact_mod_cast hf
      exact ne_of_gt this
    exact div_self this

/-- Witness for C10: an accelerator transaction with 1000 average device ticks
on a runtime with 1000 ticks per second, host timing not preferred; the recorded
average time is 1 and not the host average 5. -/
theorem ComputeCopyTime_time_source_witness :
    ∃ trans1, ComputeCopyTime exampleRuntime (sizedState false) deviceTrans = .ok trans1 ∧
      trans1.avg_time_[0]? = some 1 := by
  obtain ⟨t, a, m, h1, h2, -, -, -, -, -, h8⟩ :=
    ComputeCopyTime_time_source exampleRuntime (sizedState false) deviceTrans 0
      (by simp [TimingComplete, deviceTrans, timedTrans, sizedState, u32]) (by decide)
  have ha : a = 1 := by
    apply h8 rfl rfl (by decide)
    show some (1000 : ℚ) = some ((1000 : ℕ) : ℚ)
    norm_num
  rw [ha] at h2
  exact ⟨t, h1, h2⟩

theorem copyCandidate_eq_verdict (req_type : ReqType) {st : State} {s : Nat}
    {sp : pool_info_t} {sa : agent_info_t}
    (hsp : st.pool_list_[u32 s]? = some sp)
    (hsa : st.agent_list_[u32 sp.agent_index_]? = some sa) (d : Nat) :
    copyCandidate req_type st (u32 s) (u32 d) =
      match dstVerdict req_type st (u32 sp.agent_index_) sa.device_type_ d with
      | .accept _ dpl dty =>
        some (copyTrans req_type (u32 s) sp.pool_ sa.device_type_ (u32 d) dpl dty)
      | _ => none := by
  unfold copyCandidate dstVerdict
  simp only [hsp]
  cases hdp : st.pool_list_[u32 d]? with
  | none => rfl
  | some dp =>
    simp only [hsa]
    cases hda : st.agent_list_[u32 dp.agent_index_]? with
    | none => rfl
    | some da =>
      simp only []
      split
      · rfl
      · split
        · rfl
        · cases hc : st.access_matrix_[u32 (u32 sp.agent_index_ * st.agent_index_ +
              u32 dp.agent_index_)]? with
          | none => rfl
          | some c =>
            simp only []
            by_cases h0 : c = 0
            · by_cases hall : req_type = REQ_COPY_ALL_BIDIR ∨ req_type = REQ_COPY_ALL_UNIDIR
              · simp only [h0, hall, if_true]
              · simp only [h0, hall, if_true, if_false]
            · simp only [h0, if_false]

theorem copyCandidate_congr {st st1 : State} (h : SameConfig st st1) (req_type : ReqType)
    (p q : Nat) : copyCandidate req_type st1 p q = copyCandidate req_type st p q := by
  unfold copyCandidate
  rw [h.pool_list, h.agent_list, h.access_matrix, h.agent_index]

theorem markOwners_congr {st st1 : State} (h : SameConfig st st1) :
    markOwners st1 = markOwners st := by
  funext arr t
  unfold markOwners
  rw [ownerIndex_congr h, ownerIndex_congr h]

theorem markerArray_of_some {st : State} {arr : List Nat}
    (h : st.active_agents_list_ = some arr) : markerArray st = arr := by
  unfold markerArray
  rw [h]

theorem markerAfter_append {st st2 : State} (hc : SameConfig st st2)
    (a b : List async_trans_t) (h : st2.active_agents_list_ = markerAfter st a) :
    markerAfter st2 b = markerAfter st (a ++ b) := by
  cases a with
  | nil =>
    simp only [markerAfter] at h
    have harr : markerArray st2 = markerArray st := by
      unfold markerArray
      rw [h, hc.agent_index]
    cases b with
    | nil => simpa [markerAfter] using h
    | cons t b => simp only [markerAfter, List.nil_append, markOwners_congr hc, harr]
  | cons t a =>
    simp only [markerAfter] at h
    have harr := markerArray_of_some h
    cases b with
    | nil => simpa [markerAfter] using h
    | cons u b =>
      simp only [markerAfter, List.cons_append, markOwners_congr hc, harr, List.foldl_cons,
        List.foldl_append]

theorem acceptCopy_marker {req_type : ReqType} {s d : Nat} {sp : pool_info_t}
    {sa : agent_info_t} {ddi dpl : Nat} {dty : hsa_device_type_t} {st st2 : State}
    (hsp : st.pool_list_[u32 s]? = some sp)
    (hv : dstVerdict req_type st (u32 sp.agent_index_) sa.device_type_ d = .accept ddi dpl dty)
    (ha : acceptCopy req_type (u32 s) (u32 sp.agent_index_) sp.pool_ sa.device_type_ (u32 d)
      ddi dpl dty st = .ok st2) :
    st2.active_agents_list_ = markerAfter st
      [copyTrans req_type (u32 s) sp.pool_ sa.device_type_ (u32 d) dpl dty] := by
  obtain ⟨e, -, -⟩ := acceptCopy_ok ha
  obtain ⟨dp, c, -, -, hdi, -⟩ := dstVerdict_accept hv
  subst e
  simp only [markerAfter, List.foldl_cons, List.foldl_nil, markOwners, copyTrans_src_idx,
    copyTrans_dst_idx, ownerIndex_of_lookup hsp, hdi]

theorem MarksInRange_congr {st st1 : State} (h : SameConfig st st1)
    (hm : markerLen st1 = markerLen st) (t : async_trans_t) :
    MarksInRange st1 t ↔ MarksInRange st t := by
  unfold MarksInRange
  simp only [ownerIndex_congr h, hm]

theorem copyInner_exact (req_type : ReqType) (s : Nat) (sp : pool_info_t) (sa : agent_info_t) :
    ∀ (ds : List Nat) (st : State) (b : Bool) (st1 : State),
      st.pool_list_[u32 s]? = some sp → st.agent_list_[u32 sp.agent_index_]? = some sa →
      copyInner req_type (u32 s) (u32 sp.agent_index_) sp.pool_ sa.device_type_ ds st =
        .ok (b, st1) →
      ∃ app, st1.trans_list_ = st.trans_list_ ++ app ∧
        st1.active_agents_list_ = markerAfter st app ∧
        (b = true →
          app = ds.filterMap (fun d => copyCandidate req_type st (u32 s) (u32 d)) ∧
          ∀ d ∈ ds, ¬ CopyRejected req_type st (u32 s) (u32 d)) ∧
        (b = false → ∃ pre d post, ds = pre ++ d :: post ∧
          CopyRejected req_type st (u32 s) (u32 d) ∧
          (∀ q ∈ pre, ¬ CopyRejected req_type st (u32 s) (u32 q)) ∧
          app = pre.filterMap (fun d => copyCandidate req_type st (u32 s) (u32 d))) ∧
        (∀ t ∈ app, MarksInRange st t) := by
  intro ds
  induction ds with
  | nil =>
    intro st b st1 _ _ h
    rw [copyInner_nil] at h
    injection h with h
    injection h with hb hs
    subst hb hs
    exact ⟨[], by simp, rfl, fun _ => ⟨rfl, by simp⟩, by simp, by simp⟩
  | cons d ds ih =>
    intro st b st1 hsp hsa h
    rw [copyInner_cons] at h
    have hcand := copyCandidate_eq_verdict req_type hsp hsa d
    cases hv : dstVerdict req_type st (u32 sp.agent_index_) sa.device_type_ d with
    | skip =>
      rw [hv] at h hcand
      simp only [] at hcand
      have hnr : ¬ CopyRejected req_type st (u32 s) (u32 d) := by
        rw [← dstVerdict_reject_pair hsp hsa, hv]
        intro hh; cases hh
      obtain ⟨app, hl, hm, ht, hf, hrng⟩ := ih st b st1 hsp hsa h
      refine ⟨app, hl, hm, ?_, ?_, hrng⟩
      · intro hb
        obtain ⟨h1, h2⟩ := ht hb
        refine ⟨?_, ?_⟩
        · simp only [List.filterMap_cons, hcand]; exact h1
        · intro d1 hd1
          rcases List.mem_cons.1 hd1 with e | e
          · subst e; exact hnr
          · exact h2 d1 e
      · intro hb
        obtain ⟨pre, d1, post, e, hr, hpre, happ⟩ := hf hb
        refine ⟨d :: pre, d1, post, by rw [e]; rfl, hr, ?_, ?_⟩
        · intro q hq
          rcases List.mem_cons.1 hq with e1 | e1
          · subst e1; exact hnr
          · exact hpre q e1
        · simp only [List.filterMap_cons, hcand]; exact happ
    | reject =>
      rw [hv] at h
      injection h with h
      injection h with hb hs
      subst hb hs
      refine ⟨[], by simp, rfl, by simp, fun _ => ⟨[], d, ds, rfl, ?_, by simp, rfl⟩,
        by simp⟩
      exact (dstVerdict_reject_pair hsp hsa).1 hv
    | fault e =>
      rw [hv] at h
      cases h
    | accept ddi dpl dty =>
      rw [hv] at h hcand
      simp only [] at h hcand
      have hnr : ¬ CopyRejected req_type st (u32 s) (u32 d) := by
        rw [← dstVerdict_reject_pair hsp hsa, hv]
        intro hh; cases hh
      cases ha : acceptCopy req_type (u32 s) (u32 sp.agent_index_) sp.pool_ sa.device_type_
          (u32 d) ddi dpl dty st with
      | error e => rw [ha] at h; cases h
      | ok st2 =>
        rw [ha] at h
        simp only [] at h
        obtain ⟨hc2, hml2, hl2⟩ := acceptCopy_sameConfig ha
        obtain ⟨-, hlt1, hlt2⟩ := acceptCopy_ok ha
        obtain ⟨-, -, -, -, hdi, -⟩ := dstVerdict_accept hv
        have hm2 := acceptCopy_marker hsp hv ha
        have hsp2 : st2.pool_list_[u32 s]? = some sp := by rw [hc2.pool_list]; exact hsp
        have hsa2 : st2.agent_list_[u32 sp.agent_index_]? = some sa := by
          rw [hc2.agent_list]; exact hsa
        obtain ⟨app, hl, hm, ht, hf, hrng⟩ := ih st2 b st1 hsp2 hsa2 h
        have hfm : ∀ l : List Nat,
            l.filterMap (fun d => copyCandidate req_type st2 (u32 s) (u32 d)) =
              l.filterMap (fun d => copyCandidate req_type st (u32 s) (u32 d)) := by
          intro l
          congr 1
          funext d1
          exact copyCandidate_congr hc2 _ _ _
        refine ⟨copyTrans req_type (u32 s) sp.pool_ sa.device_type_ (u32 d) dpl dty :: app,
          ?_, ?_, ?_, ?_, ?_⟩
        · rw [hl, hl2]; simp
        · rw [hm]
          exact markerAfter_append hc2 [_] app hm2
        · intro hb
          obtain ⟨h1, h2⟩ := ht hb
          refine ⟨?_, ?_⟩
          · simp only [List.filterMap_cons, hcand]; rw [h1, hfm]
          · intro d1 hd1
            rcases List.mem_cons.1 hd1 with e | e
            · subst e; exact hnr
            · exact fun hr => h2 d1 e ((CopyRejected_congr hc2 _ _ _).2 hr)
        · intro hb
          obtain ⟨pre, d1, post, e, hr, hpre, happ⟩ := hf hb
          refine ⟨d :: pre, d1, post, by rw [e]; rfl, (CopyRejected_congr hc2 _ _ _).1 hr,
            ?_, ?_⟩
          · intro q hq
            rcases List.mem_cons.1 hq with e1 | e1
            · subst e1; exact hnr
            · exact fun hr1 => hpre q e1 ((CopyRejected_congr hc2 _ _ _).2 hr1)
          · simp only [List.filterMap_cons, hcand]; rw [happ, hfm]
        · intro t ht1
          rcases List.mem_cons.1 ht1 with e | e
          · subst e
            exact ⟨_, _, ownerIndex_of_lookup hsp, hdi, hlt1, hlt2⟩
          · exact (MarksInRange_congr hc2 hml2 t).1 (hrng t e)

theorem copyOuter_exact (req_type : ReqType) (dsts : List Nat) :
    ∀ (ss : List Nat) (st : State) (b : Bool) (st1 : State),
      copyOuter req_type dsts ss st = .ok (b, st1) →
      ∃ app, st1.trans_list_ = st.trans_list_ ++ app ∧
        st1.active_agents_list_ = markerAfter st app ∧
        (b = true →
          app = (ss.flatMap fun s => dsts.map fun d => (u32 s, u32 d)).filterMap
            (fun pr => copyCandidate req_type st pr.1 pr.2)) ∧
        (b = false → ∃ pre pr post,
          (ss.flatMap fun s => dsts.map fun d => (u32 s, u32 d)) = pre ++ pr :: post ∧
          CopyRejected req_type st pr.1 pr.2 ∧
          (∀ q ∈ pre, ¬ CopyRejected req_type st q.1 q.2) ∧
          app = pre.filterMap (fun pr => copyCandidate req_type st pr.1 pr.2)) ∧
        (∀ t ∈ app, MarksInRange st t) := by
  intro ss
  induction ss with
  | nil =>
    intro st b st1 h
    simp only [copyOuter] at h
    injection h with h
    injection h with hb hs
    subst hb hs
    exact ⟨[], by simp, rfl, fun _ => rfl, by simp, by simp⟩
  | cons s ss ih =>
    intro st b st1 h
    rw [copyOuter] at h
    simp only [] at h
    split at h
    · cases h
    · rename_i sp hsp
      split at h
      · cases h
      · rename_i sa hsa
        have hmap : ∀ l : List Nat,
            (l.map fun d => (u32 s, u32 d)).filterMap
                (fun pr => copyCandidate req_type st pr.1 pr.2) =
              l.filterMap (fun d => copyCandidate req_type st (u32 s) (u32 d)) := by
          intro l
          rw [List.filterMap_map]
          rfl
        split at h
        · cases h
        · rename_i st2 hin
          injection h with h
          injection h with hb hs
          subst hb hs
          obtain ⟨app, hl, hm, -, hf, hrng⟩ := copyInner_exact _ _ _ _ _ _ _ _ hsp hsa hin
          obtain ⟨pre, d, post, e, hr, hpre, happ⟩ := hf rfl
          refine ⟨app, hl, hm, by simp, fun _ =>
            ⟨pre.map fun d => (u32 s, u32 d), (u32 s, u32 d),
              (post.map fun d => (u32 s, u32 d)) ++
                (ss.flatMap fun s => dsts.map fun d => (u32 s, u32 d)), ?_, hr, ?_, ?_⟩,
            hrng⟩
          · rw [List.flatMap_cons, e]
            simp
          · intro q hq
            obtain ⟨d1, hd1, e1⟩ := List.mem_map.1 hq
            subst e1
            exact hpre d1 hd1
          · rw [hmap]; exact happ
        · rename_i st2 hin
          obtain ⟨app, hl, hm, ht, -, hrng⟩ := copyInner_exact _ _ _ _ _ _ _ _ hsp hsa hin
          obtain ⟨happ, hnr⟩ := ht rfl
          obtain ⟨hc, hml, -⟩ := copyInner_ok _ _ _ _ _ _ _ _ _ hin
          obtain ⟨app2, hl2, hm2, ht2, hf2, hrng2⟩ := ih st2 b st1 h
          have hfm : ∀ l : List (Nat × Nat),
              l.filterMap (fun pr => copyCandidate req_type st2 pr.1 pr.2) =
                l.filterMap (fun pr => copyCandidate req_type st pr.1 pr.2) := by
            intro l
            congr 1
            funext pr
            exact copyCandidate_congr hc _ _ _
          refine ⟨app ++ app2, ?_, ?_, ?_, ?_, ?_⟩
          · rw [hl2, hl]; simp
          · rw [hm2]
            exact markerAfter_append hc app app2 hm
          · intro hb
            rw [List.flatMap_cons, List.filterMap_append, hmap, ← happ, ht2 hb, hfm]
          · intro hb
            obtain ⟨pre, pr, post, e, hr, hpre, happ2⟩ := hf2 hb
            refine ⟨(dsts.map fun d => (u32 s, u32 d)) ++ pre, pr, post, ?_,
              (CopyRejected_congr hc _ _ _).1 hr, ?_, ?_⟩
            · rw [List.flatMap_cons, e]
              simp
            · intro q hq
              rcases List.mem_append.1 hq with e1 | e1
              · obtain ⟨d1, hd1, e2⟩ := List.mem_map.1 e1
                subst e2
                exact hnr d1 hd1
              · exact fun hr1 => hpre q e1 ((CopyRejected_congr hc _ _ _).2 hr1)
            · rw [List.filterMap_append, hmap, ← happ, happ2, hfm]
          · intro t ht1
            rcases List.mem_append.1 ht1 with e | e
            · exact hrng t e
            · exact (MarksInRange_congr hc hml t).1 (hrng2 t e)

theorem BuildCopyTrans_exact {req_type : ReqType} {src_list dst_list : List Nat} {st : State}
    {b : Bool} {st1 : State} (h : BuildCopyTrans req_type src_list dst_list st = .ok (b, st1)) :
    ∃ app, st1.trans_list_ = st.trans_list_ ++ app ∧
      st1.active_agents_list_ = markerAfter st app ∧
      (b = true →
        app = (candidatePairs src_list dst_list).filterMap
          (fun pr => copyCandidate req_type st pr.1 pr.2)) ∧
      (b = false → ∃ pre pr post,
        candidatePairs src_list dst_list = pre ++ pr :: post ∧
        CopyRejected req_type st pr.1 pr.2 ∧
        (∀ q ∈ pre, ¬ CopyRejected req_type st q.1 q.2) ∧
        app = pre.filterMap (fun pr => copyCandidate req_type st pr.1 pr.2)) ∧
      (∀ t ∈ app, MarksInRange st t) :=
  copyOuter_exact _ _ _ _ _ _ h

theorem markOwners_length (st : State) (arr : List Nat) (t : async_trans_t) :
    (markOwners st arr t).length = arr.length := by
  unfold markOwners
  split <;> simp

theorem foldl_markOwners_length (st : State) :
    ∀ (app : List async_trans_t) (arr : List Nat),
      (app.foldl (markOwners st) arr).length = arr.length := by
  intro app
  induction app with
  | nil => intro arr; rfl
  | cons t app ih =>
    intro arr
    rw [List.foldl_cons, ih, markOwners_length]

theorem markOwners_getElem {st : State} {arr : List Nat} {t : async_trans_t} {a b : Nat}
    (ha : ownerIndex st t.copy.src_idx_ = some a) (hb : ownerIndex st t.copy.dst_idx_ = some b)
    (hal : a < arr.length) (hbl : b < arr.length) (i : Nat) :
    (markOwners st arr t)[i]? = if a = i ∨ b = i then some 1 else arr[i]? := by
  unfold markOwners
  simp only [ha, hb]
  rw [List.getElem?_set, List.getElem?_set, List.length_set]
  by_cases h1 : b = i
  · rw [if_pos h1, if_pos hbl, if_pos (Or.inr h1)]
  · rw [if_neg h1]
    by_cases h2 : a = i
    · rw [if_pos h2, if_pos hal, if_pos (Or.inl h2)]
    · rw [if_neg h2, if_neg (fun h => h.elim h2 h1)]

theorem foldl_markOwners_getElem (st : State) :
    ∀ (app : List async_trans_t) (arr : List Nat) (i : Nat),
      (∀ t ∈ app, ∃ a b, ownerIndex st t.copy.src_idx_ = some a ∧
        ownerIndex st t.copy.dst_idx_ = some b ∧ a < arr.length ∧ b < arr.length) →
      (OwnsEndpoint st app i → (app.foldl (markOwners st) arr)[i]? = some 1) ∧
      (¬ OwnsEndpoint st app i → (app.foldl (markOwners st) arr)[i]? = arr[i]?) := by
  intro app
  induction app with
  | nil =>
    intro arr i _
    refine ⟨?_, fun _ => rfl⟩
    rintro ⟨t, ht, -⟩
    cases ht
  | cons t app ih =>
    intro arr i hrng
    obtain ⟨a, b, ha, hb, hal, hbl⟩ := hrng t (List.mem_cons_self _ _)
    have hrest : ∀ u ∈ app, ∃ a b, ownerIndex st u.copy.src_idx_ = some a ∧
        ownerIndex st u.copy.dst_idx_ = some b ∧ a < (markOwners st arr t).length ∧
        b < (markOwners st arr t).length := by
      intro u hu
      rw [markOwners_length]
      exact hrng u (List.mem_cons_of_mem _ hu)
    obtain ⟨h1, h2⟩ := ih (markOwners st arr t) i hrest
    rw [List.foldl_cons]
    have hhead := markOwners_getElem ha hb hal hbl i
    by_cases hown : OwnsEndpoint st app i
    · refine ⟨fun _ => h1 hown, ?_⟩
      intro hn
      exfalso
      obtain ⟨u, hu, hu1⟩ := hown
      exact hn ⟨u, List.mem_cons_of_mem _ hu, hu1⟩
    · rw [h2 hown, hhead]
      constructor
      · rintro ⟨u, hu, hu1⟩
        rcases List.mem_cons.1 hu with e | e
        · subst e
          rw [ha, hb] at hu1
          have : a = i ∨ b = i := by
            rcases hu1 with h | h
            · injection h with h; exact Or.inl h
            · injection h with h; exact Or.inr h
          rw [if_pos this]
        · exact absurd ⟨u, e, hu1⟩ hown
      · intro hn
        have : ¬ (a = i ∨ b = i) := by
          rintro (h | h)
          · exact hn ⟨t, List.mem_cons_self _ _, Or.inl (by rw [ha, h])⟩
          · exact hn ⟨t, List.mem_cons_self _ _, Or.inr (by rw [hb, h])⟩
        rw [if_neg this]

theorem rwLoop_step (rt : Runtime) (req_type : ReqType) (in_list : List Nat)
    (hlen : in_list.length < 4294967296) (pre : List Nat) (p a : Nat) (rest : List Nat)
    (st : State) (fuel : Nat) (ea : agent_info_t) (pl : pool_info_t)
    (hin : in_list = pre ++ p :: a :: rest)
    (hp : p < 4294967296) (ha : a < 4294967296)
    (hea : st.agent_list_[a]? = some ea) (hpl : st.pool_list_[p]? = some pl)
    (hec : rt.error_check_returns (rt.pool_access ea.agent_ pl.pool_).1 = true) :
    rwLoop rt req_type in_list in_list.length (fuel + 1) pre.length st =
      if (rt.pool_access ea.agent_ pl.pool_).2 = HSA_AMD_MEMORY_POOL_ACCESS_NEVER_ALLOWED then
        .ok (false, st)
      else
        rwLoop rt req_type in_list in_list.length fuel (pre ++ [p, a]).length
          { st with trans_list_ := st.trans_list_ ++
              [kernelTrans req_type pl.pool_ p ea.agent_ a] } := by
  have hlt : pre.length + 1 < in_list.length := by rw [hin]; simp
  have hidx : in_list[pre.length]? = some p := by
    rw [hin, List.getElem?_append_right (Nat.le_refl _)]
    simp
  have hidx1 : in_list[u32 (pre.length + 1)]? = some a := by
    rw [u32_of_lt (by omega), hin]
    rw [List.getElem?_append_right (by omega)]
    simp
  have hnext : u32 (pre.length + 2) = (pre ++ [p, a]).length := by
    rw [u32_of_lt (by omega)]; simp
  have hcond : pre.length < in_list.length := by omega
  rw [rwLoop]
  simp only [hcond, if_true, hidx, hidx1, u32_of_lt hp, u32_of_lt ha, hea, hpl, hec, hnext]
  simp

theorem rwLoop_done (rt : Runtime) (req_type : ReqType) (in_list : List Nat) (st : State)
    (fuel : Nat) :
    rwLoop rt req_type in_list in_list.length (fuel + 1) in_list.length st = .ok (true, st) := by
  rw [rwLoop]
  simp

theorem rwLoop_count (rt : Runtime) (req_type : ReqType) (in_list : List Nat)
    (hlen : in_list.length < 4294967296) :
    ∀ (m : Nat) (pre rest : List Nat) (st0 st : State) (fuel : Nat),
      in_list = pre ++ rest → rest.length = 2 * m → m < fuel →
      st.agent_list_ = st0.agent_list_ → st.pool_list_ = st0.pool_list_ →
      (∀ pr ∈ pairsOf rest, RwPairOk rt st0 pr.1 pr.2) →
      ∃ b st1 app,
        rwLoop rt req_type in_list in_list.length fuel pre.length st = .ok (b, st1) ∧
        st1.trans_list_ = st.trans_list_ ++ app ∧
        (b = true → app.length = m) ∧ (b = false → app.length < m) := by
  intro m
  induction m with
  | zero =>
    intro pre rest st0 st fuel hin hr hf _ _ _
    have hrest : rest = [] := List.length_eq_zero.1 (by simpa using hr)
    subst hrest
    obtain ⟨fuel1, rfl⟩ : ∃ k, fuel = k + 1 := ⟨fuel - 1, by omega⟩
    have hpl : pre.length = in_list.length := by rw [hin]; simp
    rw [hpl, rwLoop_done]
    exact ⟨true, st, [], rfl, by simp, fun _ => rfl, fun hb => by cases hb⟩
  | succ m ih =>
    intro pre rest st0 st fuel hin hr hf hag hpl hok
    obtain ⟨fuel1, rfl⟩ : ∃ k, fuel = k + 1 := ⟨fuel - 1, by omega⟩
    match rest, hr with
    | p :: a :: rest1, hr =>
      obtain ⟨hp, ha, ea, pl, hea, hpl1, hec⟩ := hok (p, a) (by simp [pairsOf])
      simp only [] at hp ha hea hpl1
      rw [rwLoop_step rt req_type in_list hlen pre p a rest1 st fuel1 ea pl hin hp ha
        (by rw [hag]; exact hea) (by rw [hpl]; exact hpl1) hec]
      by_cases hden : (rt.pool_access ea.agent_ pl.pool_).2 =
          HSA_AMD_MEMORY_POOL_ACCESS_NEVER_ALLOWED
      · rw [if_pos hden]
        exact ⟨false, st, [], rfl, by simp, (fun hb => by cases hb), fun _ => by simp⟩
      · rw [if_neg hden]
        obtain ⟨b, st1, app, hrun, hl, ht, hfl⟩ :=
          ih (pre ++ [p, a]) rest1 st0
            { st with trans_list_ := st.trans_list_ ++
                [kernelTrans req_type pl.pool_ p ea.agent_ a] }
            fuel1 (by rw [hin]; simp) (by simp at hr; omega) (by omega) hag hpl
            (fun pr hpr => hok pr (by simp [pairsOf, hpr]))
        refine ⟨b, st1, kernelTrans req_type pl.pool_ p ea.agent_ a :: app, hrun, ?_, ?_, ?_⟩
        · rw [hl]; simp
        · intro hb; simp [ht hb]
        · intro hb; have := hfl hb; simp; omega
    | [_], hr => simp at hr; omega
    | [], hr => simp at hr

theorem rwLoop_short_fuel (rt : Runtime) (req_type : ReqType) (in_list : List Nat)
    (hlen : in_list.length < 4294967296) :
    ∀ (m : Nat) (pre rest : List Nat) (st0 st : State) (fuel : Nat),
      in_list = pre ++ rest → rest.length = 2 * m → fuel ≤ m →
      st.agent_list_ = st0.agent_list_ → st.pool_list_ = st0.pool_list_ →
      (∀ pr ∈ pairsOf rest, RwPairOk rt st0 pr.1 pr.2) →
      (∀ pr ∈ pairsOf rest, ¬ RwDenied rt st0 pr.1 pr.2) →
      rwLoop rt req_type in_list in_list.length fuel pre.length st = .error .out_of_fuel := by
  intro m
  induction m with
  | zero =>
    intro pre rest st0 st fuel _ _ hf _ _ _ _
    have : fuel = 0 := by omega
    subst this
    rw [rwLoop]
  | succ m ih =>
    intro pre rest st0 st fuel hin hr hf hag hpl hok hnd
    cases fuel with
    | zero => rw [rwLoop]
    | succ fuel1 =>
      match rest, hr with
      | p :: a :: rest1, hr =>
        obtain ⟨hp, ha, ea, pl, hea, hpl1, hec⟩ := hok (p, a) (by simp [pairsOf])
        simp only [] at hp ha hea hpl1
        rw [rwLoop_step rt req_type in_list hlen pre p a rest1 st fuel1 ea pl hin hp ha
          (by rw [hag]; exact hea) (by rw [hpl]; exact hpl1) hec]
        have hden : ¬ (rt.pool_access ea.agent_ pl.pool_).2 =
            HSA_AMD_MEMORY_POOL_ACCESS_NEVER_ALLOWED :=
          fun hh => hnd (p, a) (by simp [pairsOf]) ⟨ea, pl, hea, hpl1, hh⟩
        rw [if_neg hden]
        exact ih (pre ++ [p, a]) rest1 st0 _ fuel1 (by rw [hin]; simp) (by simp at hr; omega)
          (by omega) hag hpl (fun pr hpr => hok pr (by simp [pairsOf, hpr]))
          (fun pr hpr => hnd pr (by simp [pairsOf, hpr]))
      | [_], hr => simp at hr; omega
      | [], hr => simp at hr

theorem rwLoop_odd (rt : Runtime) (req_type : ReqType) (in_list : List Nat)
    (hlen : in_list.length < 4294967296) :
    ∀ (m : Nat) (pre rest : List Nat) (st0 st : State) (fuel : Nat),
      in_list = pre ++ rest → rest.length = 2 * m + 1 → m < fuel →
      st.agent_list_ = st0.agent_list_ → st.pool_list_ = st0.pool_list_ →
      (∀ pr ∈ pairsOf rest, RwPairOk rt st0 pr.1 pr.2) →
      (∀ pr ∈ pairsOf rest, ¬ RwDenied rt st0 pr.1 pr.2) →
      rwLoop rt req_type in_list in_list.length fuel pre.length st =
        .error (.out_of_range .in_list in_list.length) := by
  intro m
  induction m with
  | zero =>
    intro pre rest st0 st fuel hin hr hf _ _ _ _
    obtain ⟨fuel1, rfl⟩ : ∃ k, fuel = k + 1 := ⟨fuel - 1, by omega⟩
    match rest, hr with
    | [p], _ =>
      have hl : in_list.length = pre.length + 1 := by rw [hin]; simp
      have hcond : pre.length < in_list.length := by omega
      have hidx : in_list[pre.length]? = some p := by
        rw [hin, List.getElem?_append_right (Nat.le_refl _)]
        simp
      have hu : u32 (pre.length + 1) = in_list.length := by
        rw [u32_of_lt (by omega)]; omega
      have hidx1 : in_list[in_list.length]? = none :=
        List.getElem?_eq_none (Nat.le_refl _)
      rw [rwLoop]
      simp only [hcond, if_true, hidx, hu, hidx1]
    | [], hr => simp at hr
    | _ :: _ :: _, hr => simp at hr
  | succ m ih =>
    intro pre rest st0 st fuel hin hr hf hag hpl hok hnd
    obtain ⟨fuel1, rfl⟩ : ∃ k, fuel = k + 1 := ⟨fuel - 1, by omega⟩
    match rest, hr with
    | p :: a :: rest1, hr =>
      obtain ⟨hp, ha, ea, pl, hea, hpl1, hec⟩ := hok (p, a) (by simp [pairsOf])
      simp only [] at hp ha hea hpl1
      rw [rwLoop_step rt req_type in_list hlen pre p a rest1 st fuel1 ea pl hin hp ha
        (by rw [hag]; exact hea) (by rw [hpl]; exact hpl1) hec]
      have hden : ¬ (rt.pool_access ea.agent_ pl.pool_).2 =
          HSA_AMD_MEMORY_POOL_ACCESS_NEVER_ALLOWED :=
        fun hh => hnd (p, a) (by simp [pairsOf]) ⟨ea, pl, hea, hpl1, hh⟩
      rw [if_neg hden]
      exact ih (pre ++ [p, a]) rest1 st0 _ fuel1 (by rw [hin]; simp) (by simp at hr; omega)
        (by omega) hag hpl (fun pr hpr => hok pr (by simp [pairsOf, hpr]))
        (fun pr hpr => hnd pr (by simp [pairsOf, hpr]))
    | [_], hr => simp at hr
    | [], hr => simp at hr

theorem MarkerVariant.sameConfig {s1 s2 : State} (h : MarkerVariant s1 s2) :
    SameConfig s1 s2 := by
  unfold SameConfig
  have h1 := h.1
  have ht : s2.trans_list_ = s1.trans_list_ := by rw [h1]
  rw [ht]
  exact h1

theorem MarkerVariant.trans_list {s1 s2 : State} (h : MarkerVariant s1 s2) :
    s2.trans_list_ = s1.trans_list_ := by
  have h1 := h.1
  rw [h1]

theorem MarkerVariant.of_set (st : State) (m : Option (List Nat))
    (hm : markerLen st ≤ markerLen { st with active_agents_list_ := m }) :
    MarkerVariant st { st with active_agents_list_ := m } :=
  ⟨rfl, hm⟩

theorem acceptCopy_markerVariant {req_type : ReqType} {si sdi spl : Nat}
    {sty : hsa_device_type_t} {di ddi dpl : Nat} {dty : hsa_device_type_t} {s1 s2 r1 : State}
    (hv : MarkerVariant s1 s2)
    (h : acceptCopy req_type si sdi spl sty di ddi dpl dty s1 = .ok r1) :
    ∃ r2, acceptCopy req_type si sdi spl sty di ddi dpl dty s2 = .ok r2 ∧
      MarkerVariant r1 r2 := by
  obtain ⟨e1, l1, l2⟩ := acceptCopy_ok h
  have hle := hv.2
  refine ⟨_, acceptCopy_of_lt req_type si sdi spl sty di ddi dpl dty s2
    (Nat.lt_of_lt_of_le l1 hle) (Nat.lt_of_lt_of_le l2 hle), ?_, ?_⟩
  · rw [e1, hv.trans_list]
    have h1 := hv.1
    rw [h1]
  · rw [e1]
    simp only [markerLen, List.length_set, markerArray_length]
    exact hle

theorem copyInner_markerVariant (req_type : ReqType) (si sdi spl : Nat)
    (sty : hsa_device_type_t) :
    ∀ (ds : List Nat) (s1 s2 : State) (b : Bool) (r1 : State), MarkerVariant s1 s2 →
      copyInner req_type si sdi spl sty ds s1 = .ok (b, r1) →
      ∃ r2, copyInner req_type si sdi spl sty ds s2 = .ok (b, r2) ∧ MarkerVariant r1 r2 := by
  intro ds
  induction ds with
  | nil =>
    intro s1 s2 b r1 hv h
    rw [copyInner_nil] at h
    cases h
    exact ⟨s2, copyInner_nil .., hv⟩
  | cons d ds ih =>
    intro s1 s2 b r1 hv h
    rw [copyInner_cons] at h ⊢
    rw [dstVerdict_congr hv.sameConfig]
    cases hver : dstVerdict req_type s1 sdi sty d with
    | skip =>
      rw [hver] at h
      exact ih s1 s2 b r1 hv h
    | reject =>
      rw [hver] at h
      cases h
      exact ⟨s2, rfl, hv⟩
    | fault e =>
      rw [hver] at h
      cases h
    | accept ddi dpl dty =>
      rw [hver] at h
      simp only [] at h ⊢
      cases hacc : acceptCopy req_type si sdi spl sty (u32 d) ddi dpl dty s1 with
      | error e =>
        rw [hacc] at h
        cases h
      | ok m1 =>
        rw [hacc] at h
        obtain ⟨m2, hacc2, hv2⟩ := acceptCopy_markerVariant hv hacc
        rw [hacc2]
        exact ih m1 m2 b r1 hv2 h

theorem copyOuter_markerVariant (req_type : ReqType) (dsts : List Nat) :
    ∀ (ss : List Nat) (s1 s2 : State) (b : Bool) (r1 : State), MarkerVariant s1 s2 →
      copyOuter req_type dsts ss s1 = .ok (b, r1) →
      ∃ r2, copyOuter req_type dsts ss s2 = .ok (b, r2) ∧ MarkerVariant r1 r2 := by
  intro ss
  induction ss with
  | nil =>
    intro s1 s2 b r1 hv h
    rw [copyOuter] at h
    cases h
    exact ⟨s2, by rw [copyOuter], hv⟩
  | cons s ss ih =>
    intro s1 s2 b r1 hv h
    rw [copyOuter] at h ⊢
    simp only [] at h ⊢
    rw [hv.sameConfig.pool_list, hv.sameConfig.agent_list]
    cases hp : s1.pool_list_[u32 s]? with
    | none => rw [hp] at h; cases h
    | some sp =>
      rw [hp] at h
      simp only [] at h ⊢
      cases ha : s1.agent_list_[u32 sp.agent_index_]? with
      | none => rw [ha] at h; cases h
      | some sa =>
        rw [ha] at h
        simp only [] at h ⊢
        cases hin : copyInner req_type (u32 s) (u32 sp.agent_index_) sp.pool_ sa.device_type_
            dsts s1 with
        | error e => rw [hin] at h; cases h
        | ok r =>
          obtain ⟨bi, m1⟩ := r
          rw [hin] at h
          obtain ⟨m2, hin2, hv2⟩ := copyInner_markerVariant req_type _ _ _ _ dsts s1 s2 bi m1
            hv hin
          rw [hin2]
          cases bi with
          | false =>
            simp only [] at h ⊢
            cases h
            exact ⟨m2, rfl, hv2⟩
          | true =>
            simp only [] at h ⊢
            exact ih m1 m2 b r1 hv2 h

theorem BuildCopyTrans_markerBlind (req_type : ReqType) (src_list dst_list : List Nat) :
    MarkerBlind (BuildCopyTrans req_type src_list dst_list) := by
  intro s1 s2 b r1 hv h
  exact copyOuter_markerVariant req_type _ _ s1 s2 b r1 hv h

theorem rwLoop_setMarker (rt : Runtime) (req_type : ReqType) (in_list : List Nat)
    (list_size : Nat) (m : Option (List Nat)) :
    ∀ (fuel idx : Nat) (s : State),
      rwLoop rt req_type in_list list_size fuel idx { s with active_agents_list_ := m } =
        match rwLoop rt req_type in_list list_size fuel idx s with
        | .error e => .error e
        | .ok (b, r) => .ok (b, { r with active_agents_list_ := m }) := by
  intro fuel
  induction fuel with
  | zero => intro idx s; rw [rwLoop, rwLoop]
  | succ fuel ih =>
    intro idx s
    rw [rwLoop, rwLoop]
    by_cases hlt : idx < list_size
    · simp only [hlt, if_true]
      cases hp : in_list[idx]? with
      | none => rfl
      | some p =>
        simp only []
        cases ha : in_list[u32 (idx + 1)]? with
        | none => rfl
        | some a =>
          simp only []
          cases hea : s.agent_list_[u32 a]? with
          | none => rfl
          | some ea =>
            simp only []
            cases hpl : s.pool_list_[u32 p]? with
            | none => rfl
            | some pl =>
              simp only []
              by_cases hec : rt.error_check_returns (rt.pool_access ea.agent_ pl.pool_).1 = false
              · simp only [if_pos hec]
              · simp only [if_neg hec]
                by_cases hden : (rt.pool_access ea.agent_ pl.pool_).2 =
                    HSA_AMD_MEMORY_POOL_ACCESS_NEVER_ALLOWED
                · simp only [if_pos hden]
                · simp only [if_neg hden]
                  exact ih (u32 (idx + 2))
                    { s with trans_list_ := s.trans_list_ ++
                        [kernelTrans req_type pl.pool_ (u32 p) ea.agent_ (u32 a)] }
    · simp only [hlt, if_false]

theorem rwLoop_markerVariant (rt : Runtime) (req_type : ReqType) (in_list : List Nat)
    (list_size : Nat) (fuel idx : Nat) (s1 s2 : State) (b : Bool) (r1 : State)
    (hv : MarkerVariant s1 s2)
    (h : rwLoop rt req_type in_list list_size fuel idx s1 = .ok (b, r1)) :
    ∃ r2, rwLoop rt req_type in_list list_size fuel idx s2 = .ok (b, r2) ∧
      MarkerVariant r1 r2 := by
  obtain ⟨h1, h2⟩ := hv
  generalize s2.active_agents_list_ = m at h1
  subst h1
  have hsame := rwLoop_sameConfig rt req_type in_list list_size fuel idx s1 b r1 h
  have hself := rwLoop_setMarker rt req_type in_list list_size s1.active_agents_list_ fuel idx s1
  rw [h] at hself
  have hmark : r1.active_agents_list_ = s1.active_agents_list_ := by
    have h3 : (Except.ok (b, r1) : Outcome) =
        .ok (b, { r1 with active_agents_list_ := s1.active_agents_list_ }) := hself
    injection h3 with h3
    injection h3 with _ h3
    rw [h3]
  refine ⟨{ r1 with active_agents_list_ := m }, ?_, rfl, ?_⟩
  · rw [rwLoop_setMarker, h]
  · unfold markerLen at h2 ⊢
    simp only [] at h2 ⊢
    rw [hmark, hsame.agent_index]
    exact h2

theorem BuildReadTrans_markerBlind (rt : Runtime) (fuel : Nat) :
    MarkerBlind (BuildReadTrans rt fuel) := by
  intro s1 s2 b r1 hv h
  have hl : s2.read_list_ = s1.read_list_ := by have h1 := hv.1; rw [h1]
  unfold BuildReadTrans BuildReadOrWriteTrans at h ⊢
  rw [hl]
  exact rwLoop_markerVariant _ _ _ _ _ _ s1 s2 b r1 hv h

theorem BuildWriteTrans_markerBlind (rt : Runtime) (fuel : Nat) :
    MarkerBlind (BuildWriteTrans rt fuel) := by
  intro s1 s2 b r1 hv h
  have hl : s2.write_list_ = s1.write_list_ := by have h1 := hv.1; rw [h1]
  unfold BuildWriteTrans BuildReadOrWriteTrans at h ⊢
  rw [hl]
  exact rwLoop_markerVariant _ _ _ _ _ _ s1 s2 b r1 hv h

theorem BuildBidirCopyTrans_markerBlind : MarkerBlind BuildBidirCopyTrans := by
  intro s1 s2 b r1 hv h
  have hl : s2.bidir_list_ = s1.bidir_list_ := by have h1 := hv.1; rw [h1]
  unfold BuildBidirCopyTrans at h ⊢
  rw [hl]
  exact BuildCopyTrans_markerBlind _ _ _ s1 s2 b r1 hv h

theorem BuildAllPoolsBidirCopyTrans_markerBlind : MarkerBlind BuildAllPoolsBidirCopyTrans := by
  intro s1 s2 b r1 hv h
  have hl : s2.bidir_list_ = s1.bidir_list_ := by have h1 := hv.1; rw [h1]
  unfold BuildAllPoolsBidirCopyTrans at h ⊢
  rw [hl]
  exact BuildCopyTrans_markerBlind _ _ _ s1 s2 b r1 hv h

theorem BuildUnidirCopyTrans_markerBlind : MarkerBlind BuildUnidirCopyTrans := by
  intro s1 s2 b r1 hv h
  have hs : s2.src_list_ = s1.src_list_ := by have h1 := hv.1; rw [h1]
  have hd : s2.dst_list_ = s1.dst_list_ := by have h1 := hv.1; rw [h1]
  unfold BuildUnidirCopyTrans at h ⊢
  rw [hs, hd]
  exact BuildCopyTrans_markerBlind _ _ _ s1 s2 b r1 hv h

theorem BuildAllPoolsUnidirCopyTrans_markerBlind :
    MarkerBlind BuildAllPoolsUnidirCopyTrans := by
  intro s1 s2 b r1 hv h
  have hs : s2.src_list_ = s1.src_list_ := by have h1 := hv.1; rw [h1]
  have hd : s2.dst_list_ = s1.dst_list_ := by have h1 := hv.1; rw [h1]
  unfold BuildAllPoolsUnidirCopyTrans at h ⊢
  rw [hs, hd]
  exact BuildCopyTrans_markerBlind _ _ _ s1 s2 b r1 hv h

theorem shortCircuit_markerBlind :
    ∀ (fs : List (State → Outcome)), (∀ f ∈ fs, MarkerBlind f) →
      MarkerBlind (shortCircuit fs) := by
  intro fs
  induction fs with
  | nil =>
    intro _ s1 s2 b r1 hv h
    rw [shortCircuit] at h
    cases h
    exact ⟨s2, by rw [shortCircuit], hv⟩
  | cons f fs ih =>
    intro hall s1 s2 b r1 hv h
    rw [shortCircuit] at h ⊢
    cases hf : f s1 with
    | error e => rw [hf] at h; cases h
    | ok r =>
      obtain ⟨bf, m1⟩ := r
      rw [hf] at h
      obtain ⟨m2, hf2, hv2⟩ := hall f (List.mem_cons_self _ _) s1 s2 bf m1 hv hf
      rw [hf2]
      cases bf with
      | false =>
        simp only [] at h ⊢
        cases h
        exact ⟨m2, rfl, hv2⟩
      | true =>
        simp only [] at h ⊢
        exact ih (fun g hg => hall g (List.mem_cons_of_mem _ hg)) m1 m2 b r1 hv2 h

theorem enabledFamilies_markerBlind (rt : Runtime) (fuel : Nat) (st : State) :
    ∀ f ∈ enabledFamilies rt fuel st, MarkerBlind f := by
  intro f hf
  unfold enabledFamilies at hf
  simp only [List.mem_append] at hf
  rcases hf with hf | hf | hf | hf | hf | hf
  all_goals
    split at hf
    · rw [List.mem_singleton] at hf
      subst hf
      first
        | exact BuildReadTrans_markerBlind rt fuel
        | exact BuildWriteTrans_markerBlind rt fuel
        | exact BuildBidirCopyTrans_markerBlind
        | exact BuildUnidirCopyTrans_markerBlind
        | exact BuildAllPoolsBidirCopyTrans_markerBlind
        | exact BuildAllPoolsUnidirCopyTrans_markerBlind
    · cases hf

theorem BuildTransList_markerBlind (rt : Runtime) (fuel : Nat) :
    MarkerBlind (BuildTransList rt fuel) := by
  intro s1 s2 b r1 hv h
  rw [BuildTransList_eq_shortCircuit] at h ⊢
  have hfam : enabledFamilies rt fuel s2 = enabledFamilies rt fuel s1 := by
    have h1 := hv.1
    unfold enabledFamilies
    rw [h1]
  rw [hfam]
  exact shortCircuit_markerBlind _ (enabledFamilies_markerBlind rt fuel s1) s1 s2 b r1 hv h

theorem copyTrans_fields (req_type : ReqType) (p sp : Nat) (sty : hsa_device_type_t)
    (q dp : Nat) (dty : hsa_device_type_t) :
    (copyTrans req_type p sp sty q dp dty).req_type_ = req_type ∧
    ((copyTrans req_type p sp sty q dp dty).copy.bidir_ = true ↔
      req_type = REQ_COPY_BIDIR ∨ req_type = REQ_COPY_ALL_BIDIR) ∧
    ((copyTrans req_type p sp sty q dp dty).copy.uses_gpu_ = true ↔
      sty = HSA_DEVICE_TYPE_GPU ∨ dty = HSA_DEVICE_TYPE_GPU) := by
  refine ⟨rfl, ?_, ?_⟩ <;> simp [copyTrans]

/-- C11, as stated, fails: on the topology of a host and a DSP device, the
unidirectional copy from the host pool 0 to the DSP pool 1 is accepted and its
transaction is appended; the owner of the destination pool is of DSP kind, which is
not the host kind, yet `uses_gpu_` is false. So the flag is not "true exactly when
an owner is not a host". -/
theorem BuildCopyTrans_dsp_owner_counterexample :
    ∃ st1 t,
      BuildCopyTrans REQ_COPY_UNIDIR [0] [1] dspState = .ok (true, st1) ∧
      st1.trans_list_ = dspState.trans_list_ ++ [t] ∧
      t.copy.src_idx_ = 0 ∧ t.copy.dst_idx_ = 1 ∧
      ownerType dspState 0 = some HSA_DEVICE_TYPE_CPU ∧
      ownerType dspState 1 = some HSA_DEVICE_TYPE_DSP ∧
      t.copy.uses_gpu_ = false ∧
      ¬ (t.copy.uses_gpu_ = true ↔
          HSA_DEVICE_TYPE_CPU ≠ HSA_DEVICE_TYPE_CPU ∨
          HSA_DEVICE_TYPE_DSP ≠ HSA_DEVICE_TYPE_CPU) :=
  ⟨_, _, rfl, rfl, rfl, rfl, rfl, rfl, rfl, by decide⟩

/-- C11, amended. Every transaction that `BuildCopyTrans` appends comes from a
candidate pair `(s, d)` that passed the three filters; it has the requested kind,
the pool indices of `s` and `d` (as stored into `uint32_t`), a `bidir_` flag that is
true exactly for `REQ_COPY_BIDIR` and `REQ_COPY_ALL_BIDIR`, and a `uses_gpu_` flag
that is true exactly when the owner of `s` or the owner of `d` is of GPU kind. When
both owners are of CPU or GPU kind, this is the same as one of them not being a
host. -/
theorem BuildCopyTrans_transaction_fields (req_type : ReqType) (src_list dst_list : List Nat)
    (st : State) (b : Bool) (st1 : State)
    (h : BuildCopyTrans req_type src_list dst_list st = .ok (b, st1)) :
    ∃ app, st1.trans_list_ = st.trans_list_ ++ app ∧
      ∀ t ∈ app, ∃ s ∈ src_list, ∃ d ∈ dst_list, ∃ sty dty,
        CopyAccepted req_type st (u32 s) (u32 d) t ∧
        ownerType st (u32 s) = some sty ∧ ownerType st (u32 d) = some dty ∧
        t.req_type_ = req_type ∧ t.copy.src_idx_ = u32 s ∧ t.copy.dst_idx_ = u32 d ∧
        (t.copy.bidir_ = true ↔
          req_type = REQ_COPY_BIDIR ∨ req_type = REQ_COPY_ALL_BIDIR) ∧
        (t.copy.uses_gpu_ = true ↔
          sty = HSA_DEVICE_TYPE_GPU ∨ dty = HSA_DEVICE_TYPE_GPU) ∧
        (sty = HSA_DEVICE_TYPE_CPU ∨ sty = HSA_DEVICE_TYPE_GPU →
          dty = HSA_DEVICE_TYPE_CPU ∨ dty = HSA_DEVICE_TYPE_GPU →
          (t.copy.uses_gpu_ = true ↔
            sty ≠ HSA_DEVICE_TYPE_CPU ∨ dty ≠ HSA_DEVICE_TYPE_CPU)) := by
  obtain ⟨-, -, app, hl, hacc, -, -⟩ := BuildCopyTrans_ok h
  refine ⟨app, hl, ?_⟩
  intro t ht
  obtain ⟨s, hs, d, hd, hca⟩ := hacc t ht
  have hca1 := hca
  obtain ⟨sp, dp, si, di, sty, dty, c, -, -, -, -, h5, h6, -, -, -, -, e⟩ := hca1
  obtain ⟨f1, f2, f3⟩ := copyTrans_fields req_type (u32 s) sp.pool_ sty (u32 d) dp.pool_ dty
  subst e
  refine ⟨s, hs, d, hd, sty, dty, hca, h5, h6, f1, rfl, rfl, f2, f3, ?_⟩
  intro hs1 hd1
  rw [f3]
  constructor
  · rintro (h1 | h1)
    · left; rw [h1]; intro hh; cases hh
    · right; rw [h1]; intro hh; cases hh
  · rintro (h1 | h1)
    · left
      rcases hs1 with h2 | h2
      · exact absurd h2 h1
      · exact h2
    · right
      rcases hd1 with h2 | h2
      · exact absurd h2 h1
      · exact h2

/-- Witness for C11: an all-pools unidirectional sweep over both pools of the
two-agent topology. -/
theorem BuildCopyTrans_transaction_fields_witness :
    ∃ st1,
      BuildCopyTrans REQ_COPY_ALL_UNIDIR [0, 1] [0, 1] (twoAgentState 7 8 20 21 [1, 1, 1, 1]) =
        .ok (true, st1) ∧
      ∃ app, st1.trans_list_ = (twoAgentState 7 8 20 21 [1, 1, 1, 1]).trans_list_ ++ app ∧
        ∀ t ∈ app, ∃ s ∈ [0, 1], ∃ d ∈ [0, 1], ∃ sty dty,
          CopyAccepted REQ_COPY_ALL_UNIDIR (twoAgentState 7 8 20 21 [1, 1, 1, 1])
            (u32 s) (u32 d) t ∧
          ownerType (twoAgentState 7 8 20 21 [1, 1, 1, 1]) (u32 s) = some sty ∧
          ownerType (twoAgentState 7 8 20 21 [1, 1, 1, 1]) (u32 d) = some dty ∧
          t.req_type_ = REQ_COPY_ALL_UNIDIR ∧ t.copy.src_idx_ = u32 s ∧
          t.copy.dst_idx_ = u32 d ∧
          (t.copy.bidir_ = true ↔
            REQ_COPY_ALL_UNIDIR = REQ_COPY_BIDIR ∨ REQ_COPY_ALL_UNIDIR = REQ_COPY_ALL_BIDIR) ∧
          (t.copy.uses_gpu_ = true ↔
            sty = HSA_DEVICE_TYPE_GPU ∨ dty = HSA_DEVICE_TYPE_GPU) ∧
          (sty = HSA_DEVICE_TYPE_CPU ∨ sty = HSA_DEVICE_TYPE_GPU →
            dty = HSA_DEVICE_TYPE_CPU ∨ dty = HSA_DEVICE_TYPE_GPU →
            (t.copy.uses_gpu_ = true ↔
              sty ≠ HSA_DEVICE_TYPE_CPU ∨ dty ≠ HSA_DEVICE_TYPE_CPU)) :=
  ⟨_, rfl, BuildCopyTrans_transaction_fields REQ_COPY_ALL_UNIDIR [0, 1] [0, 1]
    (twoAgentState 7 8 20 21 [1, 1, 1, 1]) true _ rfl⟩

/-- C12, as stated, fails: in the all-pools unidirectional sweep over both pools of
the two-agent topology with every access cell 1, the third transaction appended is
the self-pair (1, 1) of the accelerator pool. -/
theorem BuildCopyTrans_all_pools_self_pair_counterexample :
    ∃ st1 t,
      BuildCopyTrans REQ_COPY_ALL_UNIDIR [0, 1] [0, 1] (twoAgentState 7 8 20 21 [1, 1, 1, 1]) =
        .ok (true, st1) ∧
      st1.trans_list_[2]? = some t ∧ t.copy.src_idx_ = 1 ∧ t.copy.dst_idx_ = 1 ∧
      t.copy.src_idx_ = t.copy.dst_idx_ :=
  ⟨_, _, rfl, rfl, rfl, rfl, rfl⟩

/-- C12, amended. Under `REQ_COPY_ALL_UNIDIR` and `REQ_COPY_ALL_BIDIR`, on inputs
whose subscripts are in range, `BuildCopyTrans` returns success; no transaction it
appends is a host-host pair and none has a zero access cell; and under
`REQ_COPY_ALL_BIDIR` none pairs two pools of the same owning agent, in particular
none pairs a pool with itself. -/
theorem BuildCopyTrans_all_pools_filters (req_type : ReqType) (src_list dst_list : List Nat)
    (st : State)
    (hreq : req_type = REQ_COPY_ALL_UNIDIR ∨ req_type = REQ_COPY_ALL_BIDIR)
    (hok : CopyInputsOk st src_list dst_list) :
    ∃ st1 app, BuildCopyTrans req_type src_list dst_list st = .ok (true, st1) ∧
      st1.trans_list_ = st.trans_list_ ++ app ∧
      ∀ t ∈ app, ∃ si di sty dty c,
        ownerIndex st t.copy.src_idx_ = some si ∧ ownerIndex st t.copy.dst_idx_ = some di ∧
        ownerType st t.copy.src_idx_ = some sty ∧ ownerType st t.copy.dst_idx_ = some dty ∧
        ¬ (sty = HSA_DEVICE_TYPE_CPU ∧ dty = HSA_DEVICE_TYPE_CPU) ∧
        accessCell st si di = some c ∧ c ≠ 0 ∧
        (req_type = REQ_COPY_ALL_BIDIR → si ≠ di ∧ t.copy.src_idx_ ≠ t.copy.dst_idx_) := by
  obtain ⟨b, st1, h⟩ := BuildCopyTrans_total req_type hok
  obtain ⟨-, -, app, hl, hacc, -, hf⟩ := BuildCopyTrans_ok h
  cases b with
  | false =>
    exfalso
    obtain ⟨s, -, d, -, si, di, sty, dty, -, -, -, -, -, -, -, hnall⟩ := hf rfl
    exact hnall (hreq.symm)
  | true =>
    refine ⟨st1, app, h, hl, ?_⟩
    intro t ht
    obtain ⟨s, -, d, -, sp, dp, si, di, sty, dty, c, -, -, h3, h4, h5, h6, h7, h8, h9, h10,
      e⟩ := hacc t ht
    subst e
    refine ⟨si, di, sty, dty, c, h3, h4, h5, h6, h7, h9, h10, ?_⟩
    intro hb
    have hne : si ≠ di := fun e => h8 ⟨Or.inr hb, e⟩
    refine ⟨hne, ?_⟩
    intro e
    rw [copyTrans_src_idx, copyTrans_dst_idx] at e
    rw [e, h4] at h3
    injection h3 with h3
    exact hne h3.symm

/-- Witness for the amended C12: an all-pools bidirectional sweep over both pools
of the two-agent topology. -/
theorem BuildCopyTrans_all_pools_filters_witness :
    ∃ st1 app,
      BuildCopyTrans REQ_COPY_ALL_BIDIR [0, 1] [0, 1] (twoAgentState 7 8 20 21 [1, 1, 1, 1]) =
        .ok (true, st1) ∧
      st1.trans_list_ = (twoAgentState 7 8 20 21 [1, 1, 1, 1]).trans_list_ ++ app ∧
      ∀ t ∈ app, ∃ si di sty dty c,
        ownerIndex (twoAgentState 7 8 20 21 [1, 1, 1, 1]) t.copy.src_idx_ = some si ∧
        ownerIndex (twoAgentState 7 8 20 21 [1, 1, 1, 1]) t.copy.dst_idx_ = some di ∧
        ownerType (twoAgentState 7 8 20 21 [1, 1, 1, 1]) t.copy.src_idx_ = some sty ∧
        ownerType (twoAgentState 7 8 20 21 [1, 1, 1, 1]) t.copy.dst_idx_ = some dty ∧
        ¬ (sty = HSA_DEVICE_TYPE_CPU ∧ dty = HSA_DEVICE_TYPE_CPU) ∧
        accessCell (twoAgentState 7 8 20 21 [1, 1, 1, 1]) si di = some c ∧ c ≠ 0 ∧
        (REQ_COPY_ALL_BIDIR = REQ_COPY_ALL_BIDIR →
          si ≠ di ∧ t.copy.src_idx_ ≠ t.copy.dst_idx_) :=
  BuildCopyTrans_all_pools_filters REQ_COPY_ALL_BIDIR [0, 1] [0, 1]
    (twoAgentState 7 8 20 21 [1, 1, 1, 1]) (Or.inr rfl) (twoAgentState_inputsOk 7 8 20 21 1 1 1 1)

theorem mem_candidatePairs {src_list dst_list : List Nat} {pr : Nat × Nat}
    (h : pr ∈ candidatePairs src_list dst_list) :
    ∃ s ∈ src_list.take (u32 src_list.length), ∃ d ∈ dst_list.take (u32 dst_list.length),
      pr = (u32 s, u32 d) := by
  unfold candidatePairs at h
  obtain ⟨s, hs, h1⟩ := List.mem_flatMap.1 h
  obtain ⟨d, hd, h2⟩ := List.mem_map.1 h1
  exact ⟨s, hs, d, hd, h2.symm⟩

/-- C20. When `BuildCopyTrans` returns failure, the request is not an all-pools
kind, and there is a first candidate pair, in visiting order, that passes the
host-pair and same-device filters and has access cell zero; the list after the call
is the list before the call followed by the transactions of the accepted pairs that
precede this pair, and the marker holds the marks of these transactions: nothing is
rolled back. For the two-agent topology in which agent 1 cannot reach agent 0, the
explicit unidirectional request over both pools fails with one transaction more in
the list than before and with both agents marked. -/
theorem BuildCopyTrans_failure_list (req_type : ReqType) (src_list dst_list : List Nat)
    (st st1 : State)
    (h : BuildCopyTrans req_type src_list dst_list st = .ok (false, st1)) :
    ¬ (req_type = REQ_COPY_ALL_BIDIR ∨ req_type = REQ_COPY_ALL_UNIDIR) ∧
    (∃ pre pr post,
      candidatePairs src_list dst_list = pre ++ pr :: post ∧
      CopyRejected req_type st pr.1 pr.2 ∧
      (∀ q ∈ pre, ¬ CopyRejected req_type st q.1 q.2) ∧
      st1.trans_list_ = st.trans_list_ ++
        pre.filterMap (fun pr => copyCandidate req_type st pr.1 pr.2) ∧
      st1.active_agents_list_ =
        markerAfter st (pre.filterMap (fun pr => copyCandidate req_type st pr.1 pr.2))) ∧
    (∃ st2,
      BuildCopyTrans REQ_COPY_UNIDIR [0, 1] [0, 1] (twoAgentState 7 8 20 21 [1, 1, 0, 1]) =
        .ok (false, st2) ∧
      (twoAgentState 7 8 20 21 [1, 1, 0, 1]).trans_list_.length < st2.trans_list_.length ∧
      (twoAgentState 7 8 20 21 [1, 1, 0, 1]).active_agents_list_ = none ∧
      st2.active_agents_list_ = some [1, 1]) := by
  obtain ⟨app, hl, hm, -, hf, -⟩ := BuildCopyTrans_exact h
  obtain ⟨pre, pr, post, e, hr, hpre, happ⟩ := hf rfl
  refine ⟨?_, ⟨pre, pr, post, e, hr, hpre, ?_, ?_⟩, ⟨_, rfl, by decide, rfl, rfl⟩⟩
  · obtain ⟨si, di, sty, dty, -, -, -, -, -, -, -, hnall⟩ := hr
    exact hnall
  · rw [hl, happ]
  · rw [hm, happ]

/-- Witness for C20: the failing request of the statement; the pair (0, 0) is
skipped, the pair (0, 1) is accepted, and the pair (1, 0) is the first one with a
zero cell. -/
theorem BuildCopyTrans_failure_list_witness :
    ∃ st1 pre pr post,
      BuildCopyTrans REQ_COPY_UNIDIR [0, 1] [0, 1] (twoAgentState 7 8 20 21 [1, 1, 0, 1]) =
        .ok (false, st1) ∧
      candidatePairs [0, 1] [0, 1] = pre ++ pr :: post ∧
      CopyRejected REQ_COPY_UNIDIR (twoAgentState 7 8 20 21 [1, 1, 0, 1]) pr.1 pr.2 ∧
      st1.trans_list_ = (twoAgentState 7 8 20 21 [1, 1, 0, 1]).trans_list_ ++
        pre.filterMap
          (fun pr => copyCandidate REQ_COPY_UNIDIR (twoAgentState 7 8 20 21 [1, 1, 0, 1])
            pr.1 pr.2) := by
  obtain ⟨-, ⟨pre, pr, post, e, hr, -, hl, -⟩, -⟩ :=
    BuildCopyTrans_failure_list REQ_COPY_UNIDIR [0, 1] [0, 1]
      (twoAgentState 7 8 20 21 [1, 1, 0, 1]) _ rfl
  exact ⟨_, pre, pr, post, rfl, e, hr, hl⟩

theorem markerAfter_entries (st : State) (app : List async_trans_t)
    (hrng : ∀ t ∈ app, MarksInRange st t) (hne : app ≠ []) :
    ∃ arr, markerAfter st app = some arr ∧ arr.length = markerLen st ∧
      ∀ i, (OwnsEndpoint st app i → arr[i]? = some 1) ∧
        (¬ OwnsEndpoint st app i → arr[i]? = (markerArray st)[i]?) := by
  cases app with
  | nil => exact absurd rfl hne
  | cons t app =>
    refine ⟨(t :: app).foldl (markOwners st) (markerArray st), rfl, ?_, ?_⟩
    · rw [foldl_markOwners_length, markerArray_length]
    · intro i
      apply foldl_markOwners_getElem
      intro u hu
      rw [markerArray_length]
      exact hrng u hu

theorem OwnsEndpoint_lt {st : State} {app : List async_trans_t} {i : Nat}
    (hrng : ∀ t ∈ app, MarksInRange st t) (h : OwnsEndpoint st app i) : i < markerLen st := by
  obtain ⟨t, ht, ho⟩ := h
  obtain ⟨a, b, ha, hb, hal, hbl⟩ := hrng t ht
  rcases ho with ho | ho
  · rw [ha] at ho; injection ho with ho; rw [← ho]; exact hal
  · rw [hb] at ho; injection ho with ho; rw [← ho]; exact hbl

/-- C17. After any returning call of `BuildCopyTrans`, successful or failed, with
`app` the transactions the call appended: every owner of an endpoint of a
transaction of `app` has an index in range of the marker. If the marker was not
allocated before the call, it is still not allocated exactly when `app` is empty;
otherwise it has `agent_index_` entries, entry `i` being 1 when agent `i` owns the
source or destination pool of a transaction of `app` and 0 when it does not. If the
marker was allocated before the call, it keeps its length, the entries of those
owners are 1 and every other entry is unchanged. -/
theorem BuildCopyTrans_marker (req_type : ReqType) (src_list dst_list : List Nat)
    (st : State) (b : Bool) (st1 : State)
    (h : BuildCopyTrans req_type src_list dst_list st = .ok (b, st1)) :
    ∃ app, st1.trans_list_ = st.trans_list_ ++ app ∧
      (∀ i, OwnsEndpoint st app i → i < markerLen st) ∧
      (st.active_agents_list_ = none →
        (st1.active_agents_list_ = none ↔ app = []) ∧
        (app ≠ [] → ∃ arr, st1.active_agents_list_ = some arr ∧
          arr.length = st.agent_index_ ∧
          ∀ i < st.agent_index_,
            (OwnsEndpoint st app i → arr[i]? = some 1) ∧
            (¬ OwnsEndpoint st app i → arr[i]? = some 0))) ∧
      (∀ arr0, st.active_agents_list_ = some arr0 →
        ∃ arr, st1.active_agents_list_ = some arr ∧ arr.length = arr0.length ∧
          ∀ i, (OwnsEndpoint st app i → arr[i]? = some 1) ∧
            (¬ OwnsEndpoint st app i → arr[i]? = arr0[i]?)) := by
  obtain ⟨app, hl, hm, -, -, hrng⟩ := BuildCopyTrans_exact h
  refine ⟨app, hl, fun i hi => OwnsEndpoint_lt hrng hi, ?_, ?_⟩
  · intro hnone
    have hlen : markerLen st = st.agent_index_ := by simp [markerLen, hnone]
    have harr : markerArray st = List.replicate st.agent_index_ 0 := by
      simp [markerArray, hnone]
    refine ⟨?_, ?_⟩
    · constructor
      · intro h1
        cases app with
        | nil => rfl
        | cons t app => rw [hm] at h1; simp [markerAfter] at h1
      · intro h1
        subst h1
        rw [hm]
        exact hnone
    · intro hne
      obtain ⟨arr, e, hal, hent⟩ := markerAfter_entries st app hrng hne
      refine ⟨arr, by rw [hm, e], by rw [hal, hlen], ?_⟩
      intro i hi
      obtain ⟨h1, h2⟩ := hent i
      refine ⟨h1, fun hn => ?_⟩
      rw [h2 hn, harr, List.getElem?_replicate_of_lt hi]
  · intro arr0 hsome
    have hlen : markerLen st = arr0.length := by simp [markerLen, hsome]
    have harr : markerArray st = arr0 := markerArray_of_some hsome
    by_cases hne : app = []
    · subst hne
      refine ⟨arr0, by rw [hm]; exact hsome, rfl, ?_⟩
      intro i
      refine ⟨?_, fun _ => rfl⟩
      rintro ⟨t, ht, -⟩
      cases ht
    · obtain ⟨arr, e, hal, hent⟩ := markerAfter_entries st app hrng hne
      refine ⟨arr, by rw [hm, e], by rw [hal, hlen], ?_⟩
      intro i
      rw [← harr]
      exact hent i

/-- Witness for C17: the failed explicit request on the two-agent topology in
which agent 1 cannot reach agent 0, started with the marker not allocated; the call
appends the transaction of the pair (0, 1) and leaves the marker `[1, 1]`. -/
theorem BuildCopyTrans_marker_witness :
    ∃ st1,
      BuildCopyTrans REQ_COPY_UNIDIR [0, 1] [0, 1] (twoAgentState 7 8 20 21 [1, 1, 0, 1]) =
        .ok (false, st1) ∧
      st1.active_agents_list_ = some [1, 1] ∧
      ∃ app, st1.trans_list_ = (twoAgentState 7 8 20 21 [1, 1, 0, 1]).trans_list_ ++ app ∧
        (∀ i, OwnsEndpoint (twoAgentState 7 8 20 21 [1, 1, 0, 1]) app i →
          i < markerLen (twoAgentState 7 8 20 21 [1, 1, 0, 1])) ∧
        (st1.active_agents_list_ = none ↔ app = []) := by
  obtain ⟨app, hl, hlt, hnone, -⟩ :=
    BuildCopyTrans_marker REQ_COPY_UNIDIR [0, 1] [0, 1]
      (twoAgentState 7 8 20 21 [1, 1, 0, 1]) false _ rfl
  exact ⟨_, rfl, rfl, app, hl, hlt, (hnone rfl).1⟩

theorem CopyRejected_explicit {req_type : ReqType} {st : State} {p q : Nat}
    (hreq : req_type = REQ_COPY_UNIDIR ∨ req_type = REQ_COPY_BIDIR) :
    CopyRejected req_type st p q ↔
      ∃ si di sty dty,
        ownerIndex st p = some si ∧ ownerIndex st q = some di ∧
        ownerType st p = some sty ∧ ownerType st q = some dty ∧
        ¬ (sty = HSA_DEVICE_TYPE_CPU ∧ dty = HSA_DEVICE_TYPE_CPU) ∧
        ¬ (req_type = REQ_COPY_BIDIR ∧ si = di) ∧ accessCell st si di = some 0 := by
  have hb : IsBidir req_type ↔ req_type = REQ_COPY_BIDIR := by
    constructor
    · rintro (h | h)
      · exact h
      · rcases hreq with h1 | h1 <;> rw [h1] at h <;> cases h
    · exact Or.inl
  have hall : ¬ IsAllPools req_type := by
    rintro (h | h) <;> rcases hreq with h1 | h1 <;> rw [h1] at h <;> cases h
  unfold CopyRejected
  constructor
  · rintro ⟨si, di, sty, dty, h1, h2, h3, h4, h5, h6, h7, -⟩
    exact ⟨si, di, sty, dty, h1, h2, h3, h4, h5, fun hh => h6 ⟨hb.2 hh.1, hh.2⟩, h7⟩
  · rintro ⟨si, di, sty, dty, h1, h2, h3, h4, h5, h6, h7⟩
    exact ⟨si, di, sty, dty, h1, h2, h3, h4, h5, fun hh => h6 ⟨hb.1 hh.1, hh.2⟩, h7, hall⟩

/-- C15. For an explicit kind (`REQ_COPY_UNIDIR` or `REQ_COPY_BIDIR`), lists shorter
than `2 ^ 32` and subscripts in range, `BuildCopyTrans` returns, and it returns
failure exactly when some candidate pair of the cross product is not a host-host
pair, is not a same-owner pair under `REQ_COPY_BIDIR`, and has access cell zero.
Hence, when every candidate pair with a zero cell is a host-host pair or, under
`REQ_COPY_BIDIR`, a same-owner pair, the call returns success: such pairs are
skipped before the access cell is looked at. -/
theorem BuildCopyTrans_fails_iff (req_type : ReqType) (src_list dst_list : List Nat)
    (st : State)
    (hreq : req_type = REQ_COPY_UNIDIR ∨ req_type = REQ_COPY_BIDIR)
    (hok : CopyInputsOk st src_list dst_list)
    (hsl : src_list.length < 4294967296) (hdl : dst_list.length < 4294967296) :
    ∃ b st1, BuildCopyTrans req_type src_list dst_list st = .ok (b, st1) ∧
      (b = false ↔ ∃ s ∈ src_list, ∃ d ∈ dst_list, ∃ si di sty dty,
        ownerIndex st (u32 s) = some si ∧ ownerIndex st (u32 d) = some di ∧
        ownerType st (u32 s) = some sty ∧ ownerType st (u32 d) = some dty ∧
        ¬ (sty = HSA_DEVICE_TYPE_CPU ∧ dty = HSA_DEVICE_TYPE_CPU) ∧
        ¬ (req_type = REQ_COPY_BIDIR ∧ si = di) ∧ accessCell st si di = some 0) ∧
      ((∀ s ∈ src_list, ∀ d ∈ dst_list, ∀ si di sty dty,
          ownerIndex st (u32 s) = some si → ownerIndex st (u32 d) = some di →
          ownerType st (u32 s) = some sty → ownerType st (u32 d) = some dty →
          accessCell st si di = some 0 →
          (sty = HSA_DEVICE_TYPE_CPU ∧ dty = HSA_DEVICE_TYPE_CPU) ∨
            (req_type = REQ_COPY_BIDIR ∧ si = di)) → b = true) := by
  obtain ⟨b, st1, h⟩ := BuildCopyTrans_total req_type hok
  obtain ⟨-, -, app, -, -, ht, hf⟩ := BuildCopyTrans_ok h
  have hiff : b = false ↔ ∃ s ∈ src_list, ∃ d ∈ dst_list,
      CopyRejected req_type st (u32 s) (u32 d) := by
    constructor
    · exact hf
    · rintro ⟨s, hs, d, hd, hr⟩
      cases b with
      | false => rfl
      | true =>
        exfalso
        refine ht rfl s ?_ d ?_ hr
        · rw [u32_of_lt hsl, List.take_length]; exact hs
        · rw [u32_of_lt hdl, List.take_length]; exact hd
  refine ⟨b, st1, h, ?_, ?_⟩
  · rw [hiff]
    constructor
    · rintro ⟨s, hs, d, hd, hr⟩
      exact ⟨s, hs, d, hd, (CopyRejected_explicit hreq).1 hr⟩
    · rintro ⟨s, hs, d, hd, hr⟩
      exact ⟨s, hs, d, hd, (CopyRejected_explicit hreq).2 hr⟩
  · intro hall
    cases b with
    | true => rfl
    | false =>
      exfalso
      obtain ⟨s, hs, d, hd, hr⟩ := hiff.1 rfl
      obtain ⟨si, di, sty, dty, h1, h2, h3, h4, h5, h6, h7⟩ := (CopyRejected_explicit hreq).1 hr
      rcases hall s hs d hd si di sty dty h1 h2 h3 h4 h7 with hh | hh
      · exact h5 hh
      · exact h6 hh

/-- Witness for C15: an explicit bidirectional request over both pools of a
two-agent topology in which only the cells (0, 0) and (1, 1) are zero; both
zero-cell pairs are skipped by the earlier filters and the call returns
success. -/
theorem BuildCopyTrans_fails_iff_witness :
    ∃ st1,
      BuildCopyTrans REQ_COPY_BIDIR [0, 1] [0, 1] (twoAgentState 7 8 20 21 [0, 1, 1, 0]) =
        .ok (true, st1) ∧
      ¬ ∃ s ∈ [0, 1], ∃ d ∈ [0, 1], ∃ si di sty dty,
        ownerIndex (twoAgentState 7 8 20 21 [0, 1, 1, 0]) (u32 s) = some si ∧
        ownerIndex (twoAgentState 7 8 20 21 [0, 1, 1, 0]) (u32 d) = some di ∧
        ownerType (twoAgentState 7 8 20 21 [0, 1, 1, 0]) (u32 s) = some sty ∧
        ownerType (twoAgentState 7 8 20 21 [0, 1, 1, 0]) (u32 d) = some dty ∧
        ¬ (sty = HSA_DEVICE_TYPE_CPU ∧ dty = HSA_DEVICE_TYPE_CPU) ∧
        ¬ (REQ_COPY_BIDIR = REQ_COPY_BIDIR ∧ si = di) ∧
        accessCell (twoAgentState 7 8 20 21 [0, 1, 1, 0]) si di = some 0 := by
  obtain ⟨b, st1, h, hiff, -⟩ :=
    BuildCopyTrans_fails_iff REQ_COPY_BIDIR [0, 1] [0, 1]
      (twoAgentState 7 8 20 21 [0, 1, 1, 0]) (Or.inr rfl)
      (twoAgentState_inputsOk 7 8 20 21 0 1 1 0) (by decide) (by decide)
  have hrun : BuildCopyTrans REQ_COPY_BIDIR [0, 1] [0, 1]
      (twoAgentState 7 8 20 21 [0, 1, 1, 0]) = .ok (true, _) := rfl
  rw [hrun] at h
  injection h with h
  injection h with hb hs
  subst hb
  exact ⟨_, rfl, fun hex => by have := hiff.2 hex; cases this⟩

theorem ownerType_mem {st : State} {p : Nat} {ty : hsa_device_type_t}
    (h : ownerType st p = some ty) : ∃ a ∈ st.agent_list_, a.device_type_ = ty := by
  obtain ⟨sp, sa, -, hsa, e⟩ := ownerType_elim h
  exact ⟨sa, List.getElem?_mem hsa, e.symm⟩

/-- C19. If every agent is of CPU or GPU kind, every transaction that
`BuildCopyTrans` appends, for any kind, has `uses_gpu_` true. Hence for any
transaction with the same `copy` part (the appended one after the execution stage
filled in its samples) the test `uses_gpu_ != true` of `ComputeCopyTime` fails,
the times it selects are the device ticks divided by the timestamp frequency when
host timing is not preferred, and the host times are selected only when host timing
is preferred. -/
theorem BuildCopyTrans_uses_gpu (req_type : ReqType) (src_list dst_list : List Nat)
    (st : State) (b : Bool) (st1 : State)
    (hkinds : ∀ a ∈ st.agent_list_,
      a.device_type_ = HSA_DEVICE_TYPE_CPU ∨ a.device_type_ = HSA_DEVICE_TYPE_GPU)
    (h : BuildCopyTrans req_type src_list dst_list st = .ok (b, st1)) :
    ∃ app, st1.trans_list_ = st.trans_list_ ++ app ∧
      ∀ t ∈ app, t.copy.uses_gpu_ = true ∧
        ∀ (trans : async_trans_t), trans.copy = t.copy →
          ¬ (trans.copy.uses_gpu_ ≠ true) ∧
          ∀ (sys_freq : Nat) (print_cpu_time_ : Bool) (i : Nat) (a m : ℚ),
            selectTime sys_freq print_cpu_time_ trans i = .ok (a, m) →
            (print_cpu_time_ = false →
              ∃ ta tm, trans.gpu_avg_time_[i]? = some ta ∧ trans.gpu_min_time_[i]? = some tm ∧
                a = ta / (sys_freq : ℚ) ∧ m = tm / (sys_freq : ℚ)) ∧
            (print_cpu_time_ = true →
              trans.cpu_avg_time_[i]? = some a ∧ trans.cpu_min_time_[i]? = some m) := by
  obtain ⟨-, -, app, hl, hacc, -, -⟩ := BuildCopyTrans_ok h
  refine ⟨app, hl, ?_⟩
  intro t ht
  obtain ⟨s, -, d, -, sp, dp, si, di, sty, dty, c, -, -, -, -, h5, h6, h7, -, -, -, e⟩ :=
    hacc t ht
  obtain ⟨sa, hsa, e1⟩ := ownerType_mem h5
  obtain ⟨da, hda, e2⟩ := ownerType_mem h6
  have hs := hkinds sa hsa
  have hd := hkinds da hda
  rw [e1] at hs
  rw [e2] at hd
  have hgpu : t.copy.uses_gpu_ = true := by
    rw [e, (copyTrans_fields req_type (u32 s) sp.pool_ sty (u32 d) dp.pool_ dty).2.2]
    rcases hs with hs | hs
    · rcases hd with hd | hd
      · exact absurd ⟨hs, hd⟩ h7
      · exact Or.inr hd
    · exact Or.inl hs
  refine ⟨hgpu, ?_⟩
  intro trans hcopy
  have hg : trans.copy.uses_gpu_ = true := by rw [hcopy]; exact hgpu
  refine ⟨fun hn => hn hg, ?_⟩
  intro sys_freq p i a m hsel
  exact ⟨fun hp => selectTime_device hg hp hsel, fun hp => selectTime_host (Or.inr hp) hsel⟩

/-- Witness for C19: the two-agent topology has one CPU agent and one GPU agent;
the all-pools unidirectional sweep over both pools returns success. -/
theorem BuildCopyTrans_uses_gpu_witness :
    ∃ st1,
      BuildCopyTrans REQ_COPY_ALL_UNIDIR [0, 1] [0, 1] (twoAgentState 7 8 20 21 [1, 1, 1, 1]) =
        .ok (true, st1) ∧
      ∃ app, st1.trans_list_ = (twoAgentState 7 8 20 21 [1, 1, 1, 1]).trans_list_ ++ app ∧
        ∀ t ∈ app, t.copy.uses_gpu_ = true := by
  obtain ⟨app, hl, hall⟩ :=
    BuildCopyTrans_uses_gpu REQ_COPY_ALL_UNIDIR [0, 1] [0, 1]
      (twoAgentState 7 8 20 21 [1, 1, 1, 1]) true _
      (by
        intro a ha
        simp only [twoAgentState, List.mem_cons, List.mem_singleton, List.not_mem_nil,
          or_false] at ha
        rcases ha with rfl | rfl
        · exact Or.inl rfl
        · exact Or.inr rfl)
      rfl
  exact ⟨_, rfl, app, hl, fun t ht => (hall t ht).1⟩

theorem pairsOf_exampleOdd_ok :
    ∀ pr ∈ pairsOf [1, 1, 0],
      RwPairOk exampleRuntime (twoAgentState 7 8 20 21 [1, 1, 1, 1]) pr.1 pr.2 := by
  intro pr hpr
  simp only [pairsOf, List.mem_singleton] at hpr
  subst hpr
  exact ⟨by decide, by decide, _, _, rfl, rfl, rfl⟩

theorem exampleRuntime_not_denied (l : List Nat)
    (hl : ∀ pr ∈ pairsOf l, pr = (1, 1) ∨ pr = (0, 0)) :
    ∀ pr ∈ pairsOf l,
      ¬ RwDenied exampleRuntime (twoAgentState 7 8 20 21 [1, 1, 1, 1]) pr.1 pr.2 := by
  intro pr hpr
  rcases hl pr hpr with rfl | rfl
  · rintro ⟨ea, pl, hea, hpl, h⟩
    cases hea
    cases hpl
    exact absurd h (by decide)
  · rintro ⟨ea, pl, hea, hpl, h⟩
    cases hea
    cases hpl
    exact absurd h (by decide)

/-- C18. For a read or write list shorter than `2 ^ 32` whose pairs index the pool
and agent tables, run with more fuel than `length / 2`: when the length is even,
`BuildReadOrWriteTrans` returns, so no subscript of `in_list` is out of range; it
has appended exactly `length / 2` transactions when it reports success and fewer
when it reports failure, which happens only on a denied pair; and without a denied
pair `length / 2` loop passes are not enough. When the length is odd and no pair is
denied, the run ends in the read of `in_list` at the index `length`, past the
end. -/
theorem BuildReadOrWriteTrans_list_bounds (rt : Runtime) (fuel : Nat) (req_type : ReqType)
    (in_list : List Nat) (st : State)
    (hlen : in_list.length < 4294967296) (hfuel : in_list.length / 2 < fuel)
    (hok : ∀ pr ∈ pairsOf in_list, RwPairOk rt st pr.1 pr.2) :
    (in_list.length % 2 = 0 →
      (∃ b st1 app,
        BuildReadOrWriteTrans rt fuel req_type in_list st = .ok (b, st1) ∧
        st1.trans_list_ = st.trans_list_ ++ app ∧
        (b = true → app.length = in_list.length / 2) ∧
        (b = false → app.length < in_list.length / 2 ∧
          ∃ pr ∈ pairsOf in_list, RwDenied rt st pr.1 pr.2)) ∧
      ((∀ pr ∈ pairsOf in_list, ¬ RwDenied rt st pr.1 pr.2) →
        BuildReadOrWriteTrans rt (in_list.length / 2) req_type in_list st =
          .error .out_of_fuel)) ∧
    (in_list.length % 2 = 1 →
      (∀ pr ∈ pairsOf in_list, ¬ RwDenied rt st pr.1 pr.2) →
      BuildReadOrWriteTrans rt fuel req_type in_list st =
        .error (.out_of_range .in_list in_list.length)) := by
  refine ⟨fun heven => ⟨?_, ?_⟩, fun hodd hnd => ?_⟩
  · obtain ⟨b, st1, app, hrun, hl, ht, hf⟩ :=
      rwLoop_count rt req_type in_list hlen (in_list.length / 2) [] in_list st st fuel rfl
        (by omega) hfuel rfl rfl hok
    obtain ⟨b2, st2, app2, hrun2, -, -, -, hiff, -⟩ :=
      rwLoop_spec rt req_type in_list hlen (in_list.length / 2) [] in_list st st fuel rfl
        (by omega) hfuel rfl rfl hok
    have hb : b2 = b := by
      rw [hrun] at hrun2
      cases hrun2
      rfl
    subst hb
    refine ⟨b2, st1, app, ?_, hl, ht, fun hb => ⟨hf hb, hiff.1 hb⟩⟩
    unfold BuildReadOrWriteTrans
    rw [u32_of_lt hlen]
    exact hrun
  · intro hnd
    unfold BuildReadOrWriteTrans
    rw [u32_of_lt hlen]
    exact rwLoop_short_fuel rt req_type in_list hlen (in_list.length / 2) [] in_list st st
      (in_list.length / 2) rfl (by omega) (Nat.le_refl _) rfl rfl hok hnd
  · unfold BuildReadOrWriteTrans
    rw [u32_of_lt hlen]
    exact rwLoop_odd rt req_type in_list hlen (in_list.length / 2) [] in_list st st fuel rfl
      (by omega) hfuel rfl rfl hok hnd

/-- Witness for C18 on the two-agent topology: the even list of the pairs
(pool 1, agent 1) and (pool 0, agent 0) returns after two appended transactions and
needs a third loop test, and the odd list `[1, 1, 0]` ends in the read of index 3. -/
theorem BuildReadOrWriteTrans_list_bounds_witness :
    (∃ st1 app,
      BuildReadOrWriteTrans exampleRuntime 3 REQ_READ [1, 1, 0, 0]
        (twoAgentState 7 8 20 21 [1, 1, 1, 1]) = .ok (true, st1) ∧
      st1.trans_list_ = (twoAgentState 7 8 20 21 [1, 1, 1, 1]).trans_list_ ++ app ∧
      app.length = 2) ∧
    BuildReadOrWriteTrans exampleRuntime 2 REQ_READ [1, 1, 0, 0]
      (twoAgentState 7 8 20 21 [1, 1, 1, 1]) = .error .out_of_fuel ∧
    BuildReadOrWriteTrans exampleRuntime 3 REQ_WRITE [1, 1, 0]
      (twoAgentState 7 8 20 21 [1, 1, 1, 1]) = .error (.out_of_range .in_list 3) := by
  have hE := BuildReadOrWriteTrans_list_bounds exampleRuntime 3 REQ_READ [1, 1, 0, 0]
    (twoAgentState 7 8 20 21 [1, 1, 1, 1]) (by decide) (by decide) pairsOf_exampleOk
  have hO := BuildReadOrWriteTrans_list_bounds exampleRuntime 3 REQ_WRITE [1, 1, 0]
    (twoAgentState 7 8 20 21 [1, 1, 1, 1]) (by decide) (by decide) pairsOf_exampleOdd_ok
  have hndE := exampleRuntime_not_denied [1, 1, 0, 0] (by simp [pairsOf])
  have hndO := exampleRuntime_not_denied [1, 1, 0] (by simp [pairsOf])
  obtain ⟨⟨b, st1, app, hrun, hl, ht, hf⟩, hfuel⟩ := hE.1 (by decide)
  refine ⟨?_, hfuel hndE, hO.2 (by decide) hndO⟩
  cases b with
  | true => exact ⟨st1, app, hrun, hl, ht rfl⟩
  | false =>
    obtain ⟨-, pr, hpr, hden⟩ := hf rfl
    exact absurd hden (hndE pr hpr)

/-- C13. Two runs that start from states equal in every member except the marker
(same transaction list, agent table, pool table, access matrix, request flags and
selection lists, same runtime answers), the marker array of the second run being
at least as long as the one of the first: when `BuildCopyTrans` returns on the first
state it returns the same status on the second and leaves the same transaction list,
and so does `BuildTransList`. The marker of the second state may be unallocated or
hold any values. -/
theorem Builder_marker_independent (rt : Runtime) (fuel : Nat) (req_type : ReqType)
    (src_list dst_list : List Nat) (st : State) (m : Option (List Nat))
    (b1 : Bool) (st1 : State) (b2 : Bool) (st2 : State)
    (hm : markerLen st ≤ markerLen { st with active_agents_list_ := m })
    (h1 : BuildCopyTrans req_type src_list dst_list st = .ok (b1, st1))
    (h2 : BuildTransList rt fuel st = .ok (b2, st2)) :
    (∃ r1, BuildCopyTrans req_type src_list dst_list { st with active_agents_list_ := m } =
        .ok (b1, r1) ∧ r1.trans_list_ = st1.trans_list_) ∧
    (∃ r2, BuildTransList rt fuel { st with active_agents_list_ := m } = .ok (b2, r2) ∧
        r2.trans_list_ = st2.trans_list_) := by
  have hv := MarkerVariant.of_set st m hm
  obtain ⟨r1, e1, v1⟩ := BuildCopyTrans_markerBlind req_type src_list dst_list _ _ b1 st1 hv h1
  obtain ⟨r2, e2, v2⟩ := BuildTransList_markerBlind rt fuel _ _ b2 st2 hv h2
  exact ⟨⟨r1, e1, v1.trans_list⟩, ⟨r2, e2, v2.trans_list⟩⟩

/-- Witness for C13 on `selectedState`, whose marker is not allocated, against the
same state with the marker `[1, 1]`: the copy builder appends the pairs (0, 1) and
(1, 1) in both runs, and the whole pass the read transaction followed by them. -/
theorem Builder_marker_independent_witness :
    (∃ r1, BuildCopyTrans REQ_COPY_UNIDIR [0, 1] [1]
        { selectedState with active_agents_list_ := some [1, 1] } = .ok (true, r1) ∧
      r1.trans_list_ =
        [copyTrans REQ_COPY_UNIDIR 0 20 HSA_DEVICE_TYPE_CPU 1 21 HSA_DEVICE_TYPE_GPU,
         copyTrans REQ_COPY_UNIDIR 1 21 HSA_DEVICE_TYPE_GPU 1 21 HSA_DEVICE_TYPE_GPU]) ∧
    (∃ r2, BuildTransList exampleRuntime 3
        { selectedState with active_agents_list_ := some [1, 1] } = .ok (true, r2) ∧
      r2.trans_list_ =
        [kernelTrans REQ_READ 21 1 8 1,
         copyTrans REQ_COPY_UNIDIR 0 20 HSA_DEVICE_TYPE_CPU 1 21 HSA_DEVICE_TYPE_GPU,
         copyTrans REQ_COPY_UNIDIR 1 21 HSA_DEVICE_TYPE_GPU 1 21 HSA_DEVICE_TYPE_GPU]) :=
  Builder_marker_independent exampleRuntime 3 REQ_COPY_UNIDIR [0, 1] [1] selectedState
    (some [1, 1]) true _ true _ (Nat.le_refl 2) rfl rfl

end RocmBandwidthTest
